import Mathlib

/-!
DisplayLink USB framebuffer driver (`udlfb.c`).

A shallow embedding of the protocol encoder, of the transfer-buffer (urb) pool, of the damage
renderer, of the blanking and deferred-io entry points and of the device lifecycle of
`src/udlfb.c`, followed by theorems about them.

Conventions of the embedding.

* A command buffer cursor (`char *buf`, `char *wrptr`) is the list of bytes written through
  it so far; writing a byte appends it and the cursor position is the length of the list.
* Machine integers are natural numbers (or integers for `int`), reduced with `%` wherever the
  C code converts to a narrower unsigned type.
* A trap of the C code (`BUG_ON`, division by zero, the dereference of a `NULL` pointer) is
  the result `none`.
-/

namespace Udlfb

/-! ## Machine integer conversions -/

/-- Conversion of a non-negative value to `u8`. -/
def u8 (x : Nat) : Nat := x % 256

/-- Conversion of a non-negative value to `u16`. -/
def u16 (x : Nat) : Nat := x % 65536

/-- Conversion of a non-negative value to `u32`. -/
def u32 (x : Nat) : Nat := x % 4294967296

/-- Subtraction of `u32` values, which wraps around below zero. -/
def u32_sub (a b : Nat) : Nat := if b ≤ a then a - b else 4294967296 - (b - a)

/-! ## Constants of the kernel headers used by the driver -/

/-- Value of `FB_BLANK_UNBLANK`, as listed in the comment above `dlfb_blanking`. -/
def FB_BLANK_UNBLANK : Int := 0

/-- Value of `FB_BLANK_NORMAL`, as listed in the comment above `dlfb_blanking`. -/
def FB_BLANK_NORMAL : Int := 1

/-- Value of `FB_BLANK_VSYNC_SUSPEND`, as listed in the comment above `dlfb_blanking`. -/
def FB_BLANK_VSYNC_SUSPEND : Int := 2

/-- Value of `FB_BLANK_HSYNC_SUSPEND`, as listed in the comment above `dlfb_blanking`. -/
def FB_BLANK_HSYNC_SUSPEND : Int := 3

/-- Value of `FB_BLANK_POWERDOWN`, as listed in the comment above `dlfb_blanking`. -/
def FB_BLANK_POWERDOWN : Int := 4

/-- Linux errno `EPERM`. -/
def EPERM : Int := 1

/-- Linux errno `ENOENT`. -/
def ENOENT : Int := 2

/-- Linux errno `ENOMEM`. -/
def ENOMEM : Int := 12

/-- Linux errno `ECONNRESET`. -/
def ECONNRESET : Int := 104

/-- Linux errno `ESHUTDOWN`. -/
def ESHUTDOWN : Int := 108

/-! ## Protocol encoder (`udlfb.c` lines 145-339) -/

/-- Source `dlfb_set_register` (lines 145-151): `*buf++ = reg; *buf++ = val;`, both
parameters being `u8`. -/
def dlfb_set_register (buf : List Nat) (reg val : Nat) : List Nat :=
  buf ++ [u8 reg, u8 val]

/-- Source `dlfb_vidreg_lock` (lines 153-157). -/
def dlfb_vidreg_lock (buf : List Nat) : List Nat :=
  dlfb_set_register buf 0xFF 0x00

/-- Source `dlfb_vidreg_unlock` (lines 159-163). -/
def dlfb_vidreg_unlock (buf : List Nat) : List Nat :=
  dlfb_set_register buf 0xFF 0xFF

/-- Source `dlfb_blanking` (lines 175-201): the `switch` over `fb_blank` (an `int`) picks the
register value, which is then written to register `0x1F`. -/
def dlfb_blanking (buf : List Nat) (fb_blank : Int) : List Nat :=
  let reg : Nat :=
    if fb_blank = FB_BLANK_POWERDOWN then 0x07
    else if fb_blank = FB_BLANK_HSYNC_SUSPEND then 0x05
    else if fb_blank = FB_BLANK_VSYNC_SUSPEND then 0x03
    else if fb_blank = FB_BLANK_NORMAL then 0x01
    else 0x00
  dlfb_set_register buf 0x1F reg

/-- Source `dlfb_set_color_depth` (lines 203-207). -/
def dlfb_set_color_depth (buf : List Nat) (selection : Nat) : List Nat :=
  dlfb_set_register buf 0x00 selection

/-- Source `dlfb_set_base16bpp` (lines 209-216), `base` being a `u32`. -/
def dlfb_set_base16bpp (wrptr : List Nat) (base : Nat) : List Nat :=
  let base := u32 base
  let wrptr := dlfb_set_register wrptr 0x20 (base >>> 16)
  let wrptr := dlfb_set_register wrptr 0x21 (base >>> 8)
  dlfb_set_register wrptr 0x22 base

/-- Source `dlfb_set_base8bpp` (lines 222-228), `base` being a `u32`. -/
def dlfb_set_base8bpp (wrptr : List Nat) (base : Nat) : List Nat :=
  let base := u32 base
  let wrptr := dlfb_set_register wrptr 0x26 (base >>> 16)
  let wrptr := dlfb_set_register wrptr 0x27 (base >>> 8)
  dlfb_set_register wrptr 0x28 base

/-- Source `dlfb_set_register_16` (lines 230-235), `reg` being a `u8` and `value` a `u16`. -/
def dlfb_set_register_16 (wrptr : List Nat) (reg value : Nat) : List Nat :=
  let reg := u8 reg
  let value := u16 value
  let wrptr := dlfb_set_register wrptr reg (value >>> 8)
  dlfb_set_register wrptr (reg + 1) value

/-- Source `dlfb_set_register_16be` (lines 241-246), `reg` being a `u8` and `value` a `u16`. -/
def dlfb_set_register_16be (wrptr : List Nat) (reg value : Nat) : List Nat :=
  let reg := u8 reg
  let value := u16 value
  let wrptr := dlfb_set_register wrptr reg value
  dlfb_set_register wrptr (reg + 1) (value >>> 8)

/-- One pass through the body of the `while` loop of `dlfb_lfsr16` (lines 263-265), on the
`u32` variable `lv`. -/
def dlfb_lfsr16_body (lv : Nat) : Nat :=
  (u32 (lv <<< 1) |||
    (((lv >>> 15) ^^^ (lv >>> 4) ^^^ (lv >>> 2) ^^^ (lv >>> 1)) &&& 1)) &&& 0xFFFF

/-- The loop `while (actual_count--) { ... }` of `dlfb_lfsr16` (lines 262-266): the first
argument is the current value of the counter, tested against zero and then decremented. -/
def dlfb_lfsr16_loop : Nat → Nat → Nat
  | 0, lv => lv
  | actual_count + 1, lv => dlfb_lfsr16_loop actual_count (dlfb_lfsr16_body lv)

/-- Source `dlfb_lfsr16` (lines 257-269), `actual_count` being a `u16`; the result is
`(u16) lv`. -/
def dlfb_lfsr16 (actual_count : Nat) : Nat :=
  u16 (dlfb_lfsr16_loop (u16 actual_count) 0xFFFF)

/-- Source `dlfb_set_register_lfsr16` (lines 275-279). -/
def dlfb_set_register_lfsr16 (wrptr : List Nat) (reg value : Nat) : List Nat :=
  dlfb_set_register_16 wrptr reg (dlfb_lfsr16 value)

/-- The fields of the kernel's `struct fb_var_screeninfo` that the driver reads in
`dlfb_set_vid_cmds`; each is a `__u32`. -/
structure fb_var_screeninfo where
  xres : Nat
  yres : Nat
  pixclock : Nat
  left_margin : Nat
  right_margin : Nat
  upper_margin : Nat
  lower_margin : Nat
  hsync_len : Nat
  vsync_len : Nat
deriving DecidableEq

/-- Source `dlfb_set_vid_cmds` (lines 285-339). The local variables `xds`, `xde`, `yds`,
`yde`, `yec` are `u16`; the arithmetic on the `__u32` fields is done modulo `2^32`. The
division by `var->pixclock` traps when the pixel clock is zero. -/
def dlfb_set_vid_cmds (wrptr : List Nat) (var : fb_var_screeninfo) : Option (List Nat) :=
  let xds := u16 (u32 (var.left_margin + var.hsync_len))
  let wrptr := dlfb_set_register_lfsr16 wrptr 0x01 xds
  let xde := u16 (u32 (xds + var.xres))
  let wrptr := dlfb_set_register_lfsr16 wrptr 0x03 xde
  let yds := u16 (u32 (var.upper_margin + var.vsync_len))
  let wrptr := dlfb_set_register_lfsr16 wrptr 0x05 yds
  let yde := u16 (u32 (yds + var.yres))
  let wrptr := dlfb_set_register_lfsr16 wrptr 0x07 yde
  let wrptr := dlfb_set_register_lfsr16 wrptr 0x09
    (u32_sub (u32 (xde + var.right_margin)) 1)
  let wrptr := dlfb_set_register_lfsr16 wrptr 0x0B 1
  let wrptr := dlfb_set_register_lfsr16 wrptr 0x0D (u32 (var.hsync_len + 1))
  let wrptr := dlfb_set_register_16 wrptr 0x0F var.xres
  let yec := u16 (u32 (u32 (u32 (var.yres + var.upper_margin) + var.lower_margin) +
    var.vsync_len))
  let wrptr := dlfb_set_register_lfsr16 wrptr 0x11 yec
  let wrptr := dlfb_set_register_lfsr16 wrptr 0x13 0
  let wrptr := dlfb_set_register_lfsr16 wrptr 0x15 var.vsync_len
  let wrptr := dlfb_set_register_16 wrptr 0x17 var.yres
  if var.pixclock = 0 then none
  else some (dlfb_set_register_16be wrptr 0x1B (u32 (200 * 1000 * 1000 / var.pixclock)))

/-! ## Values computed by `dlfb_set_vid_cmds` -/

/-- The value `xds` (x display start) computed in `dlfb_set_vid_cmds` (line 294). -/
def vid_xds (var : fb_var_screeninfo) : Nat := u16 (u32 (var.left_margin + var.hsync_len))

/-- The value `xde` (x display end) computed in `dlfb_set_vid_cmds` (line 297). -/
def vid_xde (var : fb_var_screeninfo) : Nat := u16 (u32 (vid_xds var + var.xres))

/-- The value `yds` (y display start) computed in `dlfb_set_vid_cmds` (line 301). -/
def vid_yds (var : fb_var_screeninfo) : Nat := u16 (u32 (var.upper_margin + var.vsync_len))

/-- The value `yde` (y display end) computed in `dlfb_set_vid_cmds` (line 304). -/
def vid_yde (var : fb_var_screeninfo) : Nat := u16 (u32 (vid_yds var + var.yres))

/-- The x end count passed for register `0x09` in `dlfb_set_vid_cmds` (lines 308-309),
`xde + var->right_margin - 1` as a `u16`. -/
def vid_xec (var : fb_var_screeninfo) : Nat :=
  u16 (u32_sub (u32 (vid_xde var + var.right_margin)) 1)

/-- The hsync end passed for register `0x0D` in `dlfb_set_vid_cmds` (line 315),
`var->hsync_len + 1` as a `u16`. -/
def vid_hse (var : fb_var_screeninfo) : Nat := u16 (u32 (var.hsync_len + 1))

/-- The value `yec` (y end count) computed in `dlfb_set_vid_cmds` (lines 321-322). -/
def vid_yec (var : fb_var_screeninfo) : Nat :=
  u16 (u32 (u32 (u32 (var.yres + var.upper_margin) + var.lower_margin) + var.vsync_len))

/-- The vsync end passed for register `0x15` in `dlfb_set_vid_cmds` (line 329),
`var->vsync_len` as a `u16`. -/
def vid_vse (var : fb_var_screeninfo) : Nat := u16 var.vsync_len

/-- The pixel clock passed for register `0x1B` in `dlfb_set_vid_cmds` (lines 335-336),
`200*1000*1000/var->pixclock` as a `u16`. -/
def vid_pclk (var : fb_var_screeninfo) : Nat := u16 (u32 (200 * 1000 * 1000 / var.pixclock))

/-- The calls of `dlfb_set_register_lfsr16` in `dlfb_set_vid_cmds`, in order: the position
of the register pair in the emitted stream (counting register pairs from 0) and the `u16`
value passed. -/
def vid_lfsr16_fields (var : fb_var_screeninfo) : List (Nat × Nat) :=
  [(0, vid_xds var), (1, vid_xde var), (2, vid_yds var), (3, vid_yde var), (4, vid_xec var),
   (5, 1), (6, vid_hse var), (8, vid_yec var), (9, 0), (10, vid_vse var)]

/-! ## Definitions following the specification -/

/-- Bit `k` of `v`, the `bitk(v)` of the specification's recurrence. -/
def lfsr16_spec_bit (k v : Nat) : Nat := (v / 2 ^ k) % 2

/-- The step of the recurrence of the specification, in its words: `v` goes to
`((v << 1) | (bit15(v) xor bit4(v) xor bit2(v) xor bit1(v))) & 0xFFFF`. -/
def lfsr16_spec_step (v : Nat) : Nat :=
  ((v * 2) ||| (lfsr16_spec_bit 15 v ^^^ lfsr16_spec_bit 4 v ^^^ lfsr16_spec_bit 2 v ^^^
    lfsr16_spec_bit 1 v)) % 65536

/-- Linear search for the count whose LFSR value is `e`, trying `n`, `n + 1`, ... for at
most the given number of candidates. -/
def lfsr16_search (e : Nat) : Nat → Nat → Option Nat
  | 0, _ => none
  | candidates + 1, n =>
    if dlfb_lfsr16 n = e then some n else lfsr16_search e candidates (n + 1)

/-- The inverse of the LFSR transform named by the specification: the least count `n`,
among the 16-bit counts, with `dlfb_lfsr16 n = e`. -/
def lfsr16_inverse (e : Nat) : Option Nat := lfsr16_search e 65536 0

/-- Swap the two bytes of a 16-bit value. -/
def byteswap16 (v : Nat) : Nat := (v % 256) * 256 + (v / 256) % 256

/-- The sequence of 16-bit fields carried by a command stream made of pairs of two-byte
register writes, the first value byte of a pair being the high byte. -/
def stream_fields : List Nat → List Nat
  | _ :: a :: _ :: b :: rest => (a * 256 + b) :: stream_fields rest
  | _ => []

/-- The 16-bit value carried by the `k`-th register pair of a command stream made of
two-byte register writes `(reg, val)`: the value byte of write `2k` is the high byte and
the value byte of write `2k + 1` the low byte, as `dlfb_set_register_16` lays them out. -/
def stream_field (stream : List Nat) (k : Nat) : Nat :=
  (stream_fields stream).getD k 0

/-- The register numbers of a command stream made of two-byte register writes. -/
def stream_regs : List Nat → List Nat
  | reg :: _ :: rest => reg :: stream_regs rest
  | _ => []

/-- The sequence of fields of the mode-set stream in the words of the specification:
horizontal display start and end, horizontal end count, horizontal sync start `1`,
horizontal sync end, `xres`, vertical end count, vertical sync start `0`, vertical sync end,
`yres`, pixel clock. The pixel clock comes last, read from the stream like the others. -/
def vid_fields_spec (var : fb_var_screeninfo) : List Nat :=
  [dlfb_lfsr16 (vid_xds var), dlfb_lfsr16 (vid_xde var), dlfb_lfsr16 (vid_xec var),
   dlfb_lfsr16 1, dlfb_lfsr16 (vid_hse var), u16 var.xres, dlfb_lfsr16 (vid_yec var),
   dlfb_lfsr16 0, dlfb_lfsr16 (vid_vse var), u16 var.yres, byteswap16 (vid_pclk var)]

/-! ## Transfer pool (`udlfb.c` lines 869-877 and 1924-2116) -/

/-- One slot of the pool: a `struct urb_node` with its `struct urb`. The transfer buffer is
the list of bytes last written from its start; `release_urb_work_pending` tells whether the
node's delayed work `release_urb_work` is queued. -/
structure urb_node where
  transfer_buffer : List Nat
  transfer_buffer_length : Nat
  release_urb_work_pending : Bool
deriving DecidableEq

/-- The `struct urb_list` at `dev->video.urbs`. The `list` holds the indices of the
available slots, head first; `limit_sem` is the count of the semaphore. -/
structure urb_list where
  list : List Nat
  size : Nat
  limit_sem : Nat
  available : Int
  count : Int
deriving DecidableEq

/-- The part of `struct dlfb_data` used by the pool and the mode-set path. The slots
allocated by `dlfb_alloc_urb_list` are `nodes`, a slot being named by its index;
`smem_len` is `dev->video.info->fix.smem_len`. -/
structure dlfb_data where
  urbs : urb_list
  nodes : List urb_node
  usb_active : Int
  lost_pixels : Int
  blank_mode : Int
  smem_len : Nat
deriving DecidableEq

/-- Outcome of the three allocations of iteration `i` of the loop of `dlfb_alloc_urb_list`
(`kzalloc`, `usb_alloc_urb`, `usb_alloc_coherent`): `true` when the allocation succeeds. -/
structure alloc_results where
  kzalloc : Nat → Bool
  usb_alloc_urb : Nat → Bool
  usb_alloc_coherent : Nat → Bool

/-- The loop `while (i < count) { ... i++; }` of `dlfb_alloc_urb_list` (lines 2015-2050).
The first argument bounds the number of iterations; `dlfb_alloc_urb_list` passes the number
of iterations the guard `i < count` allows. The state is `i`, the available list and the
slots allocated so far. -/
def dlfb_alloc_urb_list_loop (mem : alloc_results) (count : Int) (size : Nat) :
    Nat → Nat → List Nat → List urb_node → Nat × List Nat × List urb_node
  | 0, i, list, nodes => (i, list, nodes)
  | fuel + 1, i, list, nodes =>
    if (i : Int) < count then
      if !mem.kzalloc i then (i, list, nodes)
      else if !mem.usb_alloc_urb i then (i, list, nodes)
      else if !mem.usb_alloc_coherent i then (i, list, nodes)
      else
        dlfb_alloc_urb_list_loop mem count size fuel (i + 1) (list ++ [nodes.length])
          (nodes ++ [⟨[], size, false⟩])
    else (i, list, nodes)

/-- Source `dlfb_alloc_urb_list` (lines 2001-2059): returns `i` and the device with the pool
initialised. -/
def dlfb_alloc_urb_list (mem : alloc_results) (dev : dlfb_data) (count : Int) (size : Nat) :
    Int × dlfb_data :=
  let r := dlfb_alloc_urb_list_loop mem count size count.toNat 0 [] []
  let i : Int := r.1
  (i, { dev with
        urbs := { list := r.2.1, size := size, limit_sem := r.1, available := i, count := i }
        nodes := r.2.2 })

/-- Source `dlfb_get_urb` (lines 2061-2094). `down_timeout` succeeds exactly when the
semaphore count is positive when the wait ends; the result is the slot taken from the head
of the list, or `none` for `NULL`. The outer `none` is the `BUG_ON` on an empty list. -/
def dlfb_get_urb (dev : dlfb_data) : Option (Option Nat × dlfb_data) :=
  if dev.urbs.limit_sem = 0 then
    some (none, { dev with lost_pixels := 1 })
  else
    let dev := { dev with urbs := { dev.urbs with limit_sem := dev.urbs.limit_sem - 1 } }
    match dev.urbs.list with
    | [] => none
    | entry :: rest =>
      some (some entry,
        { dev with urbs := { dev.urbs with list := rest, available := dev.urbs.available - 1 } })

/-- Source `dlfb_submit_urb` (lines 2096-2116): after the `BUG_ON` only the transfer length
of the urb is set; the result `0` is returned. -/
def dlfb_submit_urb (dev : dlfb_data) (urb : Nat) (len : Nat) : Option (Int × dlfb_data) :=
  if len > dev.urbs.size then none
  else
    some (0, { dev with
               nodes := dev.nodes.modify (fun n => { n with transfer_buffer_length := len }) urb })

/-- Source `dlfb_urb_completion` (lines 1924-1958), for the slot `unode` whose urb completed
with `status`; `fb_defio` is the module option of that name. The call
`list_add_tail(&unode->entry, ..)` is the append to the list: that is what it does for a slot
that is not on the list, a slot in flight, and the callback runs for such slots only. -/
def dlfb_urb_completion (fb_defio : Bool) (dev : dlfb_data) (unode : Nat) (status : Int) :
    dlfb_data :=
  let dev :=
    if status ≠ 0 then
      if !(decide (status = -ENOENT) || decide (status = -ECONNRESET) ||
          decide (status = -ESHUTDOWN)) then
        { dev with lost_pixels := 1 }
      else dev
    else dev
  let dev := { dev with
    nodes := dev.nodes.modify (fun n => { n with transfer_buffer_length := dev.urbs.size }) unode }
  let dev := { dev with
    urbs := { dev.urbs with list := dev.urbs.list ++ [unode], available := dev.urbs.available + 1 } }
  if fb_defio then
    { dev with nodes := dev.nodes.modify (fun n => { n with release_urb_work_pending := true }) unode }
  else
    { dev with urbs := { dev.urbs with limit_sem := dev.urbs.limit_sem + 1 } }

/-- Source `dlfb_release_urb_work` (lines 869-877), run by the work queue for the delayed
work of slot `unode`: the work is no longer queued and the semaphore is released. -/
def dlfb_release_urb_work (dev : dlfb_data) (unode : Nat) : dlfb_data :=
  { dev with
    nodes := dev.nodes.modify (fun n => { n with release_urb_work_pending := false }) unode
    urbs := { dev.urbs with limit_sem := dev.urbs.limit_sem + 1 } }

/-- Source `dlfb_set_video_mode` (lines 346-397). The command stream is written from the
start of the transfer buffer of the urb obtained from the pool. -/
def dlfb_set_video_mode (dev : dlfb_data) (var : fb_var_screeninfo) :
    Option (Int × dlfb_data) :=
  if dev.usb_active = 0 then some (-EPERM, dev)
  else
    match dlfb_get_urb dev with
    | none => none
    | some (none, dev) => some (-ENOMEM, dev)
    | some (some urb, dev) =>
      let buf : List Nat := []
      let wrptr := dlfb_vidreg_lock buf
      let wrptr := dlfb_set_color_depth wrptr 0x00
      let wrptr := dlfb_set_base16bpp wrptr 0
      let wrptr := dlfb_set_base8bpp wrptr dev.smem_len
      match dlfb_set_vid_cmds wrptr var with
      | none => none
      | some wrptr =>
        let wrptr := dlfb_blanking wrptr FB_BLANK_UNBLANK
        let wrptr := dlfb_vidreg_unlock wrptr
        let writesize := wrptr.length - buf.length
        let dev := { dev with
          nodes := dev.nodes.modify (fun n => { n with transfer_buffer := wrptr }) urb }
        match dlfb_submit_urb dev urb writesize with
        | none => none
        | some (retval, dev) => some (retval, { dev with blank_mode := FB_BLANK_UNBLANK })

/-! ## The pool as a transition system -/

/-- The calls that act on the pool after its allocation: a caller's `dlfb_get_urb`, the
transport's completion callback for a slot, and the work queue running the delayed work of a
slot. -/
inductive pool_event where
  | get_urb
  | urb_completion (unode : Nat) (status : Int)
  | release_urb_work (unode : Nat)
deriving DecidableEq

/-- A pool state with two history counters: the number of slots handed out by
`dlfb_get_urb` and the number of completions seen. -/
structure pool_state where
  dev : dlfb_data
  acquired : Nat
  completed : Nat
deriving DecidableEq

/-- A slot is in flight when it has been allocated and is not on the available list: it was
handed out by `dlfb_get_urb` and its completion has not run since. -/
def in_flight (dev : dlfb_data) (unode : Nat) : Bool :=
  decide (unode < dev.nodes.length) && !(dev.urbs.list.contains unode)

/-- Whether the delayed work of a slot is queued. -/
def work_queued (dev : dlfb_data) (unode : Nat) : Bool :=
  match dev.nodes[unode]? with
  | some n => n.release_urb_work_pending
  | none => false

/-- One step of the pool. The completion callback runs only for a slot in flight (once per
acquisition) and the delayed work only when it is queued; a step that is not enabled, or
that hits the `BUG_ON` of `dlfb_get_urb`, has no successor. -/
def pool_step (fb_defio : Bool) (s : pool_state) : pool_event → Option pool_state
  | .get_urb =>
    match dlfb_get_urb s.dev with
    | none => none
    | some (none, dev) => some { s with dev := dev }
    | some (some _, dev) => some { s with dev := dev, acquired := s.acquired + 1 }
  | .urb_completion unode status =>
    if in_flight s.dev unode then
      some { s with dev := dlfb_urb_completion fb_defio s.dev unode status,
                    completed := s.completed + 1 }
    else none
  | .release_urb_work unode =>
    if work_queued s.dev unode then
      some { s with dev := dlfb_release_urb_work s.dev unode }
    else none

/-- Run a sequence of pool steps. -/
def pool_run (fb_defio : Bool) : pool_state → List pool_event → Option pool_state
  | s, [] => some s
  | s, e :: es =>
    match pool_step fb_defio s e with
    | none => none
    | some s => pool_run fb_defio s es

/-- The pool state right after `dlfb_alloc_urb_list`. -/
def pool_init (mem : alloc_results) (dev : dlfb_data) (count : Int) (size : Nat) : pool_state :=
  { dev := (dlfb_alloc_urb_list mem dev count size).2, acquired := 0, completed := 0 }

/-- Call `dlfb_get_urb` the given number of times in a row, collecting the results. -/
def get_urb_times : Nat → dlfb_data → Option (List (Option Nat) × dlfb_data)
  | 0, dev => some ([], dev)
  | n + 1, dev =>
    match dlfb_get_urb dev with
    | none => none
    | some (r, dev) =>
      match get_urb_times n dev with
      | none => none
      | some (rs, dev) => some (r :: rs, dev)

/-- The number of slots whose delayed work `release_urb_work` is queued. -/
def works_queued (dev : dlfb_data) : Nat :=
  dev.nodes.countP (fun n => n.release_urb_work_pending)

/-- The invariant of the pool: `available` is the length of the available list and `count`
the number of slots; the list holds allocated slots, none twice; the slots handed out and
not yet completed are those missing from the list; and the semaphore count, together with
the releases still queued, never exceeds the number of slots on the list. -/
def pool_inv (s : pool_state) : Prop :=
  s.dev.urbs.available = s.dev.urbs.list.length ∧
  s.dev.urbs.count = s.dev.nodes.length ∧
  s.dev.urbs.list.Nodup ∧
  (∀ x ∈ s.dev.urbs.list, x < s.dev.nodes.length) ∧
  s.acquired + s.dev.urbs.list.length = s.completed + s.dev.nodes.length ∧
  s.dev.urbs.limit_sem + works_queued s.dev ≤ s.dev.urbs.list.length

/-! ## Sample inputs -/

/-- A small mode with every timing value below 10 and a pixel clock of 1 ps. -/
def var_small : fb_var_screeninfo :=
  { xres := 4, yres := 3, pixclock := 1, left_margin := 1, right_margin := 1,
    upper_margin := 1, lower_margin := 1, hsync_len := 1, vsync_len := 1 }

/-- The mode of `var_small` with a left margin of 65535, so that `xds` is 65535. -/
def var_wide : fb_var_screeninfo :=
  { var_small with left_margin := 65535, hsync_len := 0 }

/-- The VESA mode 1024x768 at 60 Hz (65 MHz pixel clock). -/
def var_1024x768 : fb_var_screeninfo :=
  { xres := 1024, yres := 768, pixclock := 15384, left_margin := 160, right_margin := 24,
    upper_margin := 29, lower_margin := 3, hsync_len := 136, vsync_len := 6 }

/-- Allocation outcomes in which every allocation succeeds. -/
def alloc_all : alloc_results :=
  { kzalloc := fun _ => true, usb_alloc_urb := fun _ => true,
    usb_alloc_coherent := fun _ => true }

/-- A device before its pool is allocated: active, unblanked, with a 1024x768x2 byte
framebuffer. -/
def dev_fresh : dlfb_data :=
  { urbs := { list := [], size := 0, limit_sem := 0, available := 0, count := 0 }
    nodes := [], usb_active := 1, lost_pixels := 0, blank_mode := 0, smem_len := 1572864 }

/-- The device `dev_fresh` after `dlfb_alloc_urb_list` allocated four slots of 65024 bytes. -/
def dev_four : dlfb_data := (dlfb_alloc_urb_list alloc_all dev_fresh 4 65024).2

/-- A run of the pool of `dev_four`: two acquisitions, the completion of slot 0 with status
`0` and the delayed release queued by that completion. -/
def events_sample : List pool_event :=
  [.get_urb, .get_urb, .urb_completion 0 0, .release_urb_work 0]

/-! ## Evaluation of long LFSR runs -/

/-- Evaluation device for `dlfb_lfsr16_loop`: the same loop, with the value of `lv` forced
at every pass so that long runs can be computed. -/
def dlfb_lfsr16_loop_forced : Nat → Nat → Nat
  | 0, lv => lv
  | actual_count + 1, lv =>
    match dlfb_lfsr16_body lv with
    | 0 => dlfb_lfsr16_loop_forced actual_count 0
    | v + 1 => dlfb_lfsr16_loop_forced actual_count (v + 1)

/-! ## Region alignment (`udlfb.h`, not among the sources) -/

/-- Conversion of an integer value to `int`: the value is reduced modulo `2^32` into the
range of a 32-bit two's complement integer. The same reduction stands for the result of an
`int` operation, the kernel being built with wrapping signed arithmetic. -/
def int32 (v : Int) : Int :=
  if v % 4294967296 < 2147483648 then v % 4294967296 else v % 4294967296 - 4294967296

/-- Conversion of an integer value to `u32`. -/
def u32_of_int (v : Int) : Nat := (v % 4294967296).toNat

/-- Modelled from the spec: the macro `BPP` of `udlfb.h`, a header that is not among the
sources. The specification has a single 16-bit pixel mode, two bytes per pixel. -/
def BPP : Int := 2

/-- Modelled from the spec: the macro `DL_ALIGN_DOWN` of `udlfb.h`, a header that is not
among the sources. The specification has `x` aligned down to the machine word size: the
result is the largest multiple of `a` that is at most `x`. -/
def DL_ALIGN_DOWN (x a : Int) : Int := x - x % a

/-- Modelled from the spec: the macro `DL_ALIGN_UP` of `udlfb.h`, a header that is not among
the sources. The specification has `width` aligned up to the machine word size, rounding up
to the next multiple: the result is the least multiple of `a` that is at least `x`. -/
def DL_ALIGN_UP (x a : Int) : Int := DL_ALIGN_DOWN (x + (a - 1)) a

/-- The alignment step of `dlfb_handle_damage` (lines 518-520): the pair of the new `x` and
the new `width`, for the word size `w = sizeof(unsigned long)`; the variables are `int`. -/
def damage_align (w x width : Int) : Int × Int :=
  let aligned_x := int32 (DL_ALIGN_DOWN x w)
  let width := int32 (DL_ALIGN_UP (int32 (width + int32 (x - aligned_x))) w)
  (aligned_x, width)

/-! ## Device lifecycle (`udlfb.c` lines 802-950 and 1664-1891) -/

/-- Linux errno `EBUSY`. -/
def EBUSY : Int := 16

/-- Linux errno `ENODEV`. -/
def ENODEV : Int := 19

/-- Linux errno `EINVAL`. -/
def EINVAL : Int := 22

/-- The part of `struct dlfb_data` used by the lifecycle functions. `kref` is the reference
count `dev->kref`; `usbdev` and `info` tell whether `dev->usbdev` and `dev->video.info` are
non-`NULL`; `init_framebuffer_work` and `free_framebuffer_work` tell whether the delayed work
of that name is queued. The last four fields record history: the numbers of `kref_get` and
`kref_put` calls, of runs of the release function `dlfb_free`, and of calls of
`dlfb_free_framebuffer`. -/
structure dlfb_lifecycle where
  kref : Int
  fb_count : Int
  virtualized : Bool
  usb_active : Int
  usbdev : Bool
  info : Bool
  init_framebuffer_work : Bool
  free_framebuffer_work : Bool
  kref_gets : Nat
  kref_puts : Nat
  dlfb_free_calls : Nat
  free_framebuffer_calls : Nat
deriving DecidableEq

/-- The kernel's `kref_init`: the count starts at 1. -/
def kref_init (dev : dlfb_lifecycle) : dlfb_lifecycle :=
  { dev with kref := 1 }

/-- The kernel's `kref_get`. -/
def kref_get (dev : dlfb_lifecycle) : dlfb_lifecycle :=
  { dev with kref := dev.kref + 1, kref_gets := dev.kref_gets + 1 }

/-- The kernel's `kref_put(&dev->kref, dlfb_free)`: the count is decremented and the release
function `dlfb_free` runs when the count has become zero. -/
def kref_put (dev : dlfb_lifecycle) : dlfb_lifecycle :=
  { dev with
    kref := dev.kref - 1
    kref_puts := dev.kref_puts + 1
    dlfb_free_calls := if dev.kref - 1 = 0 then dev.dlfb_free_calls + 1 else dev.dlfb_free_calls }

/-- The device structure as `kzalloc` returns it in `dlfb_usb_probe`: all zero. -/
def dlfb_lifecycle_zero : dlfb_lifecycle :=
  { kref := 0, fb_count := 0, virtualized := false, usb_active := 0, usbdev := false,
    info := false, init_framebuffer_work := false, free_framebuffer_work := false,
    kref_gets := 0, kref_puts := 0, dlfb_free_calls := 0, free_framebuffer_calls := 0 }

/-- Source `dlfb_usb_probe` (lines 1664-1750). The arguments are the outcomes of its calls:
whether `kzalloc` returns a device, whether `dlfb_parse_vendor_descriptor` returns true, and
the value returned by `dlfb_alloc_urb_list` in `dlfb_video_init`, which fails when that value
is 0. The result is the return value and the device, if one was allocated. -/
def dlfb_usb_probe (kzalloc_ok vendor_ok : Bool) (urbs_allocated : Int) :
    Int × Option dlfb_lifecycle :=
  if !kzalloc_ok then (-ENOMEM, none)
  else
    let dev := kref_init dlfb_lifecycle_zero
    let dev := { dev with usbdev := true }
    if !vendor_ok then
      (-ENOMEM, some (kref_put (kref_put dev)))
    else if urbs_allocated = 0 then
      (-ENOMEM, some (kref_put (kref_put dev)))
    else
      let dev := kref_get dev
      let dev := { dev with init_framebuffer_work := true }
      (0, some dev)

/-- Source `dlfb_free_framebuffer` (lines 879-909). -/
def dlfb_free_framebuffer (dev : dlfb_lifecycle) : dlfb_lifecycle :=
  let dev := { dev with free_framebuffer_calls := dev.free_framebuffer_calls + 1 }
  let dev := if dev.info then { dev with info := false } else dev
  kref_put dev

/-- Source `dlfb_free_framebuffer_work` (lines 911-919), run by the work queue. -/
def dlfb_free_framebuffer_work (dev : dlfb_lifecycle) : dlfb_lifecycle :=
  dlfb_free_framebuffer { dev with free_framebuffer_work := false }

/-- The point at which `dlfb_init_framebuffer_work` leaves its straight path: the call that
fails, or none. -/
inductive init_outcome where
  | framebuffer_alloc_failed
  | fb_alloc_cmap_failed
  | setup_modes_failed
  | register_framebuffer_failed
  | registered
deriving DecidableEq

/-- Source `dlfb_init_framebuffer_work` (lines 1752-1837), run by the work queue. -/
def dlfb_init_framebuffer_work (outcome : init_outcome) (dev : dlfb_lifecycle) :
    dlfb_lifecycle :=
  let dev := { dev with init_framebuffer_work := false }
  match outcome with
  | .framebuffer_alloc_failed => dlfb_free_framebuffer dev
  | .fb_alloc_cmap_failed => dlfb_free_framebuffer { dev with info := true }
  | .setup_modes_failed => dlfb_free_framebuffer { dev with info := true }
  | .register_framebuffer_failed =>
    dlfb_free_framebuffer { dev with info := true, usb_active := 1 }
  | .registered => { dev with info := true, usb_active := 1 }

/-- Source `dlfb_ops_open` (lines 802-846); `console` is the module option of that name. -/
def dlfb_ops_open (console : Bool) (dev : dlfb_lifecycle) (user : Int) :
    Int × dlfb_lifecycle :=
  if user = 0 ∧ console = false then (-EBUSY, dev)
  else if dev.virtualized then (-ENODEV, dev)
  else (0, kref_get { dev with fb_count := dev.fb_count + 1 })

/-- Source `dlfb_ops_release` (lines 923-950). -/
def dlfb_ops_release (dev : dlfb_lifecycle) : Int × dlfb_lifecycle :=
  let dev := { dev with fb_count := dev.fb_count - 1 }
  let dev :=
    if dev.virtualized ∧ dev.fb_count = 0 then { dev with free_framebuffer_work := true }
    else dev
  (0, kref_put dev)

/-- Source `dlfb_usb_disconnect` (lines 1839-1891). -/
def dlfb_usb_disconnect (dev : dlfb_lifecycle) : dlfb_lifecycle :=
  let dev := { dev with virtualized := true }
  let dev := { dev with usb_active := 0 }
  let dev := { dev with usbdev := false }
  let dev := if dev.fb_count = 0 then { dev with free_framebuffer_work := true } else dev
  kref_put dev

/-- The calls that act on a device after a successful probe. -/
inductive lifecycle_event where
  | init_framebuffer_work (outcome : init_outcome)
  | ops_open (user : Int)
  | ops_release
  | usb_disconnect
  | free_framebuffer_work
deriving DecidableEq

/-- One step of the lifecycle. A delayed work runs only when it is queued, a release only
when it matches an earlier successful open that has not been released (`fb_count > 0`), and
the disconnect only once, while the interface is still bound. -/
def lifecycle_step (console : Bool) (s : dlfb_lifecycle) :
    lifecycle_event → Option dlfb_lifecycle
  | .init_framebuffer_work outcome =>
    if s.init_framebuffer_work then some (dlfb_init_framebuffer_work outcome s) else none
  | .ops_open user => some (dlfb_ops_open console s user).2
  | .ops_release => if 0 < s.fb_count then some (dlfb_ops_release s).2 else none
  | .usb_disconnect => if s.virtualized then none else some (dlfb_usb_disconnect s)
  | .free_framebuffer_work =>
    if s.free_framebuffer_work then some (dlfb_free_framebuffer_work s) else none

/-- Run a sequence of lifecycle steps. -/
def lifecycle_run (console : Bool) : dlfb_lifecycle → List lifecycle_event →
    Option dlfb_lifecycle
  | s, [] => some s
  | s, e :: es =>
    match lifecycle_step console s e with
    | none => none
    | some s => lifecycle_run console s es

/-- The invariant of the lifecycle after a successful probe: the reference count is the two
references of the probe plus one per open client, less the reference dropped by the
disconnect and those dropped by `dlfb_free_framebuffer`; the latter runs a second time, and
the free work is queued, only once the device is disconnected with no client left. -/
def lifecycle_inv (s : dlfb_lifecycle) : Prop :=
  s.kref = 2 + s.fb_count - (if s.virtualized then 1 else 0) - s.free_framebuffer_calls ∧
  0 ≤ s.fb_count ∧
  (s.free_framebuffer_calls ≤ 1 ∨ (s.virtualized = true ∧ s.fb_count = 0)) ∧
  (s.free_framebuffer_work = true → s.virtualized = true ∧ s.fb_count = 0) ∧
  (s.init_framebuffer_work = true →
    s.free_framebuffer_calls = 0 ∨ (s.virtualized = true ∧ s.fb_count = 0)) ∧
  (0 < s.dlfb_free_calls → s.virtualized = true ∧ s.fb_count = 0)

/-- A device right after a successful probe that allocated four transfer slots. -/
def lifecycle_probed : dlfb_lifecycle :=
  ((dlfb_usb_probe true true 4).2).getD dlfb_lifecycle_zero

/-! ## Damage renderer (`udlfb.c` lines 439-556) -/

/-- One bulk transfer handed to the bulk-out endpoint by `usb_bulk_msg`: the bytes of the
buffer, and the byte count the transport reports back in `transferred`. -/
structure bulk_transfer where
  data : List Nat
  transferred : Int

/-- The device as the damage renderer uses it: the pool and mode-set part, the geometry
`info->var.xres`, `info->var.yres`, `info->fix.line_length`, the framebuffer memory at
`info->fix.smem_start` (the byte at each offset), the four metric counters, and the bulk
transfers issued so far, oldest first. The counters are `atomic_t`, 32-bit integers. -/
structure dlfb_dev extends dlfb_data where
  xres : Nat
  yres : Nat
  line_length : Nat
  smem_start : Nat → Nat
  bytes_rendered : Int
  bytes_identical : Int
  bytes_sent : Int
  cpu_kcycles_used : Int
  bulk_out : List bulk_transfer

/-- What the surroundings decide during one call of `dlfb_handle_damage`: whether the
`kmalloc` of the `k`-th transfer succeeds, the byte count `usb_bulk_msg` reports for the
`k`-th transfer, and the elapsed cycle count `(end_cycles - start_cycles) >> 10`. -/
structure damage_env where
  kmalloc : Nat → Bool
  transferred : Nat → Int
  kcycles : Int

/-- The buffer `data` that `dlfb_render_hline` fills (lines 449-467): the page index
`byte_offset/4096` as a `u16`, low byte then high byte, then `byte_width` bytes copied from
`front + byte_offset`. -/
def hline_payload (front : Nat → Nat) (byte_offset byte_width : Nat) : List Nat :=
  let page_index := u16 (byte_offset / 4096)
  [u8 page_index, u8 (page_index >>> 8)] ++
    (List.range byte_width).map (fun j => front (byte_offset + j))

/-- Source `dlfb_render_hline` (lines 439-490), `byte_offset` and `byte_width` being `u32`.
The arguments `ident` and `sent` are the values of the caller's variables behind `ident_ptr`
and `sent_ptr`; the result is the return value, those two values after the call, and the
device. The statements `ident_ptr += 0` and `sent_ptr = transferred` change the pointers
held by the function, not the variables of the caller. The result is `none` when `kmalloc`
fails or returns fewer than `2 + byte_width` bytes, the copy then writing outside the
buffer. The handle `dev->usbdev`, which lines 478-480 dereference, is taken to be valid
here; `dlfb_render_hline_handle` adds the case of a `NULL` handle. -/
def dlfb_render_hline (kmalloc_ok : Bool) (transferred : Int) (dev : dlfb_dev)
    (front : Nat → Nat) (byte_offset byte_width : Nat) (ident sent : Int) :
    Option (Int × Int × Int × dlfb_dev) :=
  let byte_offset := u32 byte_offset
  let byte_width := u32 byte_width
  if kmalloc_ok = false then none
  else if u32 (2 + byte_width) < 2 + byte_width then none
  else
    let data := hline_payload front byte_offset byte_width
    let dev := { dev with
      bulk_out := dev.bulk_out ++
        [{ data := data.take (u32 (byte_width + 2)), transferred := transferred }] }
    some (0, ident, sent, dev)

/-- The argument `byte_offset` of the call of `dlfb_render_hline` in `dlfb_handle_damage`
for line `i` (lines 535-536 and 540): `line_offset = line_length * i` is computed in `u32`
(`line_length` is a `__u32`) and stored in an `int`, `byte_offset = line_offset + (x * BPP)` is an `int`, passed as a
`u32`. -/
def damage_byte_offset (line_length : Nat) (x i : Int) : Nat :=
  let line_offset := int32 (u32 (line_length * u32_of_int i))
  let byte_offset := int32 (line_offset + int32 (x * BPP))
  u32_of_int byte_offset

/-- The argument `byte_width` of the call of `dlfb_render_hline` in `dlfb_handle_damage`
(line 540): the `int` value `width * BPP * 2`, passed as a `u32`. -/
def damage_byte_width (width : Int) : Nat :=
  u32_of_int (int32 (int32 (width * BPP) * 2))

/-- The loop `for (i = y; i < y + height; i++) { ... i++; }` of `dlfb_handle_damage` (lines
534-544). The first argument bounds the number of passes; when it is used up with the guard
still true, the result is `none`. The state is the number `k` of transfers issued, the
variable `i`, the variables `bytes_identical` and `bytes_sent`, and the device; `y_end` is
the value of `y + height`. -/
def dlfb_handle_damage_loop (env : damage_env) (x width y_end : Int) :
    Nat → Nat → Int → Int → Int → dlfb_dev → Option (Int × Int × dlfb_dev)
  | 0, _, i, bytes_identical, bytes_sent, dev =>
    if i < y_end then none else some (bytes_identical, bytes_sent, dev)
  | fuel + 1, k, i, bytes_identical, bytes_sent, dev =>
    if i < y_end then
      match dlfb_render_hline (env.kmalloc k) (env.transferred k) dev dev.smem_start
          (damage_byte_offset dev.line_length x i) (damage_byte_width width) bytes_identical bytes_sent with
      | none => none
      | some (ret, bytes_identical, bytes_sent, dev) =>
        if ret ≠ 0 then some (bytes_identical, bytes_sent, dev)
        else
          dlfb_handle_damage_loop env x width y_end fuel (k + 1) (int32 (int32 (i + 1) + 1))
            bytes_identical bytes_sent dev
    else some (bytes_identical, bytes_sent, dev)

/-- Source `dlfb_handle_damage` (lines 492-556), for the word size
`w = sizeof(unsigned long)`; the arguments `x`, `y`, `width`, `height` are `int`. The sums
`x + width` and `y + height` are compared with the `__u32` resolution as `u32` values. The
loop is given `y + height - y` passes, more than it needs when it ends. -/
def dlfb_handle_damage (w : Int) (env : damage_env) (dev : dlfb_dev)
    (x y width height : Int) : Option (Int × dlfb_dev) :=
  let x := int32 x
  let y := int32 y
  let width := int32 width
  let height := int32 height
  if int32 (width - x) ≠ 1024 ∨ int32 (height - y) ≠ 768 then some (0, dev)
  else
    let aligned := damage_align w x width
    let x := aligned.1
    let width := aligned.2
    if width ≤ 0 ∨ u32_of_int (int32 (x + width)) > dev.xres ∨
        u32_of_int (int32 (y + height)) > dev.yres then
      some (-EINVAL, dev)
    else if dev.usb_active = 0 then some (0, dev)
    else
      match dlfb_handle_damage_loop env x width (int32 (y + height))
          (int32 (y + height) - y).toNat 0 y 0 0 dev with
      | none => none
      | some (bytes_identical, bytes_sent, dev) =>
        some (0, { dev with
          bytes_sent := int32 (dev.bytes_sent + bytes_sent)
          bytes_identical := int32 (dev.bytes_identical + bytes_identical)
          bytes_rendered := int32 (dev.bytes_rendered + int32 (int32 (width * height) * 2))
          cpu_kcycles_used := int32 (dev.cpu_kcycles_used + env.kcycles) })

/-- A transport and allocator with which every `kmalloc` succeeds and every bulk transfer
reports 4098 bytes sent. -/
def env_sample : damage_env :=
  { kmalloc := fun _ => true, transferred := fun _ => 4098, kcycles := 1 }

/-- An active 1024x768 device with two bytes per pixel, lines of 2048 bytes, a framebuffer
of zero bytes, all counters at zero and no transfer issued yet. -/
def dev_render : dlfb_dev :=
  { dev_four with
    xres := 1024, yres := 768, line_length := 2048, smem_start := fun _ => 0,
    bytes_rendered := 0, bytes_identical := 0, bytes_sent := 0, cpu_kcycles_used := 0,
    bulk_out := [] }

/-- The device `dev_render` after the transport has gone: `usb_active` is 0 and the
resolution is 800x600. -/
def dev_render_gone : dlfb_dev :=
  { dev_render with usb_active := 0, xres := 800, yres := 600, line_length := 1600 }

/-! ## Blanking (`udlfb.c` lines 1042-1098) -/

/-- Source `dlfb_dummy_render` (lines 1042-1057): nine bytes, a copy command of one pixel
from address 0 to address 0. -/
def dlfb_dummy_render (buf : List Nat) : List Nat :=
  buf ++ [0xAF, 0x6A, 0x00, 0x00, 0x00, 0x01, 0x00, 0x00, 0x00]

/-- Source `dlfb_ops_blank` (lines 1062-1098); `var` is `info->var`. The value returned by
`dlfb_set_video_mode` is dropped. The command buffer is written from the start of the
transfer buffer of the urb obtained from the pool; the function does not read `usb_active`. -/
def dlfb_ops_blank (blank_mode : Int) (dev : dlfb_data) (var : fb_var_screeninfo) :
    Option (Int × dlfb_data) :=
  let set_mode : Option dlfb_data :=
    if dev.blank_mode = FB_BLANK_POWERDOWN ∧ blank_mode ≠ FB_BLANK_POWERDOWN then
      match dlfb_set_video_mode dev var with
      | none => none
      | some (_, dev) => some dev
    else some dev
  match set_mode with
  | none => none
  | some dev =>
    match dlfb_get_urb dev with
    | none => none
    | some (none, dev) => some (0, dev)
    | some (some urb, dev) =>
      let buf : List Nat := []
      let bufptr := dlfb_vidreg_lock buf
      let bufptr := dlfb_blanking bufptr blank_mode
      let bufptr := dlfb_vidreg_unlock bufptr
      let bufptr := dlfb_dummy_render bufptr
      let dev := { dev with
        nodes := dev.nodes.modify (fun n => { n with transfer_buffer := bufptr }) urb }
      match dlfb_submit_urb dev urb (bufptr.length - buf.length) with
      | none => none
      | some (_, dev) => some (0, { dev with blank_mode := blank_mode })

/-! ## Deferred io (`udlfb.c` lines 666-707) -/

/-- The kernel's `PAGE_SHIFT`, for pages of 4096 bytes. -/
def PAGE_SHIFT : Nat := 12

/-- The kernel's `PAGE_SIZE`. -/
def PAGE_SIZE : Nat := 1 <<< PAGE_SHIFT

/-- The loop `list_for_each_entry(cur, &fbdefio->pagelist, lru)` of `dlfb_dpy_deferred_io`
(lines 690-697) over the page indices `cur->index` of the list. The state is the number `k`
of transfers issued, the variables `bytes_identical`, `bytes_sent` and `bytes_rendered`, and
the device. -/
def dlfb_dpy_deferred_io_loop (env : damage_env) :
    List Nat → Nat → Int → Int → Int → dlfb_dev → Option (Int × Int × Int × dlfb_dev)
  | [], _, bytes_identical, bytes_sent, bytes_rendered, dev =>
    some (bytes_identical, bytes_sent, bytes_rendered, dev)
  | cur :: pagelist, k, bytes_identical, bytes_sent, bytes_rendered, dev =>
    match dlfb_render_hline (env.kmalloc k) (env.transferred k) dev dev.smem_start
        (cur <<< PAGE_SHIFT) PAGE_SIZE bytes_identical bytes_sent with
    | none => none
    | some (ret, bytes_identical, bytes_sent, dev) =>
      if ret ≠ 0 then some (bytes_identical, bytes_sent, bytes_rendered, dev)
      else
        dlfb_dpy_deferred_io_loop env pagelist (k + 1) bytes_identical bytes_sent
          (int32 (bytes_rendered + PAGE_SIZE)) dev

/-- Source `dlfb_dpy_deferred_io` (lines 666-707); `fb_defio` is the module option of that
name and `pagelist` holds the page indices of `fbdefio->pagelist`. -/
def dlfb_dpy_deferred_io (fb_defio : Bool) (env : damage_env) (dev : dlfb_dev)
    (pagelist : List Nat) : Option dlfb_dev :=
  if fb_defio = false then some dev
  else if dev.usb_active = 0 then some dev
  else
    match dlfb_dpy_deferred_io_loop env pagelist 0 0 0 0 dev with
    | none => none
    | some (bytes_identical, bytes_sent, bytes_rendered, dev) =>
      some { dev with
        bytes_sent := int32 (dev.bytes_sent + bytes_sent)
        bytes_identical := int32 (dev.bytes_identical + bytes_identical)
        bytes_rendered := int32 (dev.bytes_rendered + bytes_rendered)
        cpu_kcycles_used := int32 (dev.cpu_kcycles_used + env.kcycles) }

/-! ## Scheduling of the teardown -/

/-- Whether the step from `s` to `t` queues the delayed work `free_framebuffer_work`: the
work is queued after the step and was not before (`schedule_delayed_work` leaves a work that
is already queued as it is). -/
def free_work_scheduled (s t : dlfb_lifecycle) : Bool :=
  !s.free_framebuffer_work && t.free_framebuffer_work

/-- Run a sequence of lifecycle steps and count the steps that queue
`free_framebuffer_work`. -/
def lifecycle_run_scheduled (console : Bool) : dlfb_lifecycle → List lifecycle_event →
    Option (dlfb_lifecycle × Nat)
  | s, [] => some (s, 0)
  | s, e :: es =>
    match lifecycle_step console s e with
    | none => none
    | some t =>
      match lifecycle_run_scheduled console t es with
      | none => none
      | some (r, n) => some (r, n + (if free_work_scheduled s t then 1 else 0))

/-- The device `lifecycle_probed` after `dlfb_init_framebuffer_work` registered the
framebuffer. -/
def lifecycle_up : dlfb_lifecycle :=
  dlfb_init_framebuffer_work .registered lifecycle_probed

/-! ## More sample inputs -/

/-- The device `dev_four`, powered down. -/
def dev_four_down : dlfb_data :=
  { dev_four with blank_mode := FB_BLANK_POWERDOWN }

/-! ## The renderer and the transport handle -/

/-- Source `dlfb_render_hline` (lines 439-490) with the transport handle: `usbdev` tells
whether `dev->usbdev` is non-`NULL`. The calls `usb_sndbulkpipe(dev->usbdev, ..)` and
`usb_bulk_msg(dev->usbdev, ..)` of lines 478-480 dereference the handle, so that the call
traps on a `NULL` handle and the result is `none`. -/
def dlfb_render_hline_handle (usbdev : Bool) (kmalloc_ok : Bool) (transferred : Int)
    (dev : dlfb_dev) (front : Nat → Nat) (byte_offset byte_width : Nat) (ident sent : Int) :
    Option (Int × Int × Int × dlfb_dev) :=
  if usbdev = false then none
  else dlfb_render_hline kmalloc_ok transferred dev front byte_offset byte_width ident sent

/-- The loop of `dlfb_handle_damage` (lines 534-544) while `dlfb_usb_disconnect` may run on
another processor: `gone k` tells whether the disconnect has run when pass `k` starts. The
disconnect sets `usb_active` to 0 (line 1856) and `dev->usbdev` to `NULL` (line 1878). The
loop is the one of `dlfb_handle_damage_loop`, over `dlfb_render_hline_handle`. -/
def dlfb_handle_damage_loop_handle (gone : Nat → Bool) (env : damage_env)
    (x width y_end : Int) :
    Nat → Nat → Int → Int → Int → dlfb_dev → Option (Int × Int × dlfb_dev)
  | 0, _, i, bytes_identical, bytes_sent, dev =>
    if i < y_end then none else some (bytes_identical, bytes_sent, dev)
  | fuel + 1, k, i, bytes_identical, bytes_sent, dev =>
    let dev := if gone k then { dev with usb_active := 0 } else dev
    if i < y_end then
      match dlfb_render_hline_handle (!gone k) (env.kmalloc k) (env.transferred k) dev
          dev.smem_start (damage_byte_offset dev.line_length x i) (damage_byte_width width)
          bytes_identical bytes_sent with
      | none => none
      | some (ret, bytes_identical, bytes_sent, dev) =>
        if ret ≠ 0 then some (bytes_identical, bytes_sent, dev)
        else
          dlfb_handle_damage_loop_handle gone env x width y_end fuel (k + 1)
            (int32 (int32 (i + 1) + 1)) bytes_identical bytes_sent dev
    else some (bytes_identical, bytes_sent, dev)

/-! ## Sample inputs for blanking and for odd heights -/

/-- The device `dev_four_down` after four `dlfb_get_urb` calls: active, powered down, with
no slot left on the list and a semaphore count of 0. -/
def dev_four_drained : dlfb_data :=
  ((get_urb_times 4 dev_four_down).map (fun r => r.2)).getD dev_four_down

/-- A device like `dev_render` with 770 lines and a framebuffer of `2048 * 770` bytes. -/
def dev_render_770 : dlfb_dev :=
  { dev_render with yres := 770, smem_len := 1576960 }

/-! ## The LFSR transform -/

theorem dlfb_lfsr16_body_eq_spec (lv : Nat) : dlfb_lfsr16_body lv = lfsr16_spec_step lv := by
  have hx : ((lv >>> 15) ^^^ (lv >>> 4) ^^^ (lv >>> 2) ^^^ (lv >>> 1)) &&& 1 =
      lfsr16_spec_bit 15 lv ^^^ lfsr16_spec_bit 4 lv ^^^ lfsr16_spec_bit 2 lv ^^^
        lfsr16_spec_bit 1 lv := by
    rw [Nat.and_xor_distrib_right, Nat.and_xor_distrib_right, Nat.and_xor_distrib_right]
    simp only [Nat.and_one_is_mod, Nat.shiftRight_eq_div_pow, lfsr16_spec_bit]
  have hm : (0xFFFF : Nat) = 2 ^ 16 - 1 := by norm_num
  unfold dlfb_lfsr16_body lfsr16_spec_step
  rw [hx, hm, Nat.and_pow_two_sub_one_eq_mod, Nat.shiftLeft_eq, u32]
  have h32 : (4294967296 : Nat) = 2 ^ 32 := by norm_num
  have h16 : (65536 : Nat) = 2 ^ 16 := by norm_num
  rw [h32, h16, pow_one]
  apply Nat.eq_of_testBit_eq
  intro i
  simp only [Nat.testBit_mod_two_pow, Nat.testBit_or]
  by_cases hi : i < 16
  · have hi2 : i < 32 := by omega
    simp [hi, hi2]
  · simp [hi]

theorem dlfb_lfsr16_body_lt (lv : Nat) : dlfb_lfsr16_body lv < 65536 := by
  rw [dlfb_lfsr16_body_eq_spec]
  exact Nat.mod_lt _ (by norm_num)

theorem dlfb_lfsr16_loop_eq_iterate (n lv : Nat) :
    dlfb_lfsr16_loop n lv = dlfb_lfsr16_body^[n] lv := by
  induction n generalizing lv with
  | zero => rfl
  | succ n ih => rw [dlfb_lfsr16_loop, ih, Function.iterate_succ_apply]

theorem dlfb_lfsr16_loop_lt (n lv : Nat) (h : lv < 65536) : dlfb_lfsr16_loop n lv < 65536 := by
  induction n generalizing lv with
  | zero => exact h
  | succ n ih => exact ih _ (dlfb_lfsr16_body_lt lv)

theorem dlfb_lfsr16_eq_iterate (n : Nat) (hn : n < 65536) :
    dlfb_lfsr16 n = dlfb_lfsr16_body^[n] 0xFFFF := by
  have h := dlfb_lfsr16_loop_lt n 0xFFFF (by norm_num)
  rw [dlfb_lfsr16, u16, u16, Nat.mod_eq_of_lt hn, Nat.mod_eq_of_lt h,
    dlfb_lfsr16_loop_eq_iterate]

/-- C1: for every 16-bit count `n`, `dlfb_lfsr16 n` (a total function: the loop runs `n`
passes and stops) is the value obtained by applying the specification's step
`v -> ((v << 1) | (bit15 v xor bit4 v xor bit2 v xor bit1 v)) & 0xFFFF` exactly `n` times
from `0xFFFF`; in particular `dlfb_lfsr16 0 = 0xFFFF`. -/
theorem dlfb_lfsr16_follows_recurrence (n : Nat) (hn : n < 65536) :
    dlfb_lfsr16 n = lfsr16_spec_step^[n] 0xFFFF ∧ dlfb_lfsr16 0 = 0xFFFF := by
  have hf : dlfb_lfsr16_body = lfsr16_spec_step := funext dlfb_lfsr16_body_eq_spec
  refine ⟨?_, ?_⟩
  · rw [dlfb_lfsr16_eq_iterate n hn, hf]
  · rw [dlfb_lfsr16_eq_iterate 0 (by norm_num)]
    rfl

theorem dlfb_lfsr16_follows_recurrence_witness :
    3 < 65536 ∧ (dlfb_lfsr16 3 = lfsr16_spec_step^[3] 0xFFFF ∧ dlfb_lfsr16 0 = 0xFFFF) :=
  ⟨by decide, dlfb_lfsr16_follows_recurrence 3 (by decide)⟩

theorem dlfb_lfsr16_loop_forced_eq (n lv : Nat) :
    dlfb_lfsr16_loop_forced n lv = dlfb_lfsr16_body^[n] lv := by
  induction n generalizing lv with
  | zero => rfl
  | succ n ih =>
    rw [Function.iterate_succ_apply, dlfb_lfsr16_loop_forced]
    cases h : dlfb_lfsr16_body lv with
    | zero => exact ih 0
    | succ v => exact ih (v + 1)

theorem lfsr16_orbit_255 : dlfb_lfsr16_body^[255] 0xFFFF = 23914 := by
  rw [← dlfb_lfsr16_loop_forced_eq]
  decide!

theorem lfsr16_orbit_3855 : dlfb_lfsr16_body^[3855] 0xFFFF = 40039 := by
  have h : dlfb_lfsr16_body^[3600] 23914 = 40039 := by
    rw [← dlfb_lfsr16_loop_forced_eq]
    decide!
  rw [show 3855 = 3600 + 255 from rfl, Function.iterate_add_apply, lfsr16_orbit_255, h]

theorem lfsr16_orbit_13107 : dlfb_lfsr16_body^[13107] 0xFFFF = 14232 := by
  have h : dlfb_lfsr16_body^[9252] 40039 = 14232 := by
    rw [← dlfb_lfsr16_loop_forced_eq]
    decide!
  rw [show 13107 = 9252 + 3855 from rfl, Function.iterate_add_apply, lfsr16_orbit_3855, h]

theorem lfsr16_orbit_21845 : dlfb_lfsr16_body^[21845] 0xFFFF = 60889 := by
  have h : dlfb_lfsr16_body^[8738] 14232 = 60889 := by
    rw [← dlfb_lfsr16_loop_forced_eq]
    decide!
  rw [show 21845 = 8738 + 13107 from rfl, Function.iterate_add_apply, lfsr16_orbit_13107, h]

theorem lfsr16_orbit_65535 : dlfb_lfsr16_body^[65535] 0xFFFF = 0xFFFF := by
  have h : dlfb_lfsr16_body^[43690] 60889 = 0xFFFF := by
    rw [← dlfb_lfsr16_loop_forced_eq]
    decide!
  rw [show 65535 = 43690 + 21845 from rfl, Function.iterate_add_apply, lfsr16_orbit_21845, h]

theorem dvd_65535_cases (d : Nat) (hd : d ∣ 65535) (hne : d ≠ 65535) :
    d ∣ 21845 ∨ d ∣ 13107 ∨ d ∣ 3855 ∨ d ∣ 255 := by
  obtain ⟨k, hk⟩ := hd
  have hk1 : k ≠ 1 := by
    rintro rfl
    omega
  have hp : k.minFac.Prime := Nat.minFac_prime hk1
  obtain ⟨j, hj⟩ := Nat.minFac_dvd k
  have hdiv : k.minFac ∣ 3 * (5 * (17 * 257)) := ⟨d * j, by rw [hj] at hk; linarith⟩
  have h3 : Nat.Prime 3 := by norm_num
  have h5 : Nat.Prime 5 := by norm_num
  have h17 : Nat.Prime 17 := by norm_num
  have h257 : Nat.Prime 257 := by norm_num
  have hcase : k.minFac = 3 ∨ k.minFac = 5 ∨ k.minFac = 17 ∨ k.minFac = 257 := by
    rcases (Nat.Prime.dvd_mul hp).1 hdiv with h | h
    · exact Or.inl ((Nat.prime_dvd_prime_iff_eq hp h3).1 h)
    rcases (Nat.Prime.dvd_mul hp).1 h with h | h
    · exact Or.inr (Or.inl ((Nat.prime_dvd_prime_iff_eq hp h5).1 h))
    rcases (Nat.Prime.dvd_mul hp).1 h with h | h
    · exact Or.inr (Or.inr (Or.inl ((Nat.prime_dvd_prime_iff_eq hp h17).1 h)))
    · exact Or.inr (Or.inr (Or.inr ((Nat.prime_dvd_prime_iff_eq hp h257).1 h)))
  rw [hj] at hk
  rcases hcase with h | h | h | h <;> rw [h] at hk
  · exact Or.inl ⟨j, by linarith⟩
  · exact Or.inr (Or.inl ⟨j, by linarith⟩)
  · exact Or.inr (Or.inr (Or.inl ⟨j, by linarith⟩))
  · exact Or.inr (Or.inr (Or.inr ⟨j, by linarith⟩))

theorem lfsr16_minimalPeriod :
    Function.minimalPeriod dlfb_lfsr16_body 0xFFFF = 65535 := by
  have hper : Function.IsPeriodicPt dlfb_lfsr16_body 65535 0xFFFF := lfsr16_orbit_65535
  by_contra hne
  have key : ∀ m, Function.minimalPeriod dlfb_lfsr16_body 0xFFFF ∣ m →
      dlfb_lfsr16_body^[m] 0xFFFF = 0xFFFF := fun m hm =>
    (Function.isPeriodicPt_iff_minimalPeriod_dvd.2 hm)
  rcases dvd_65535_cases _ hper.minimalPeriod_dvd hne with h | h | h | h
  · have := key _ h
    rw [lfsr16_orbit_21845] at this
    omega
  · have := key _ h
    rw [lfsr16_orbit_13107] at this
    omega
  · have := key _ h
    rw [lfsr16_orbit_3855] at this
    omega
  · have := key _ h
    rw [lfsr16_orbit_255] at this
    omega

theorem dlfb_lfsr16_65535 : dlfb_lfsr16 65535 = 0xFFFF := by
  rw [dlfb_lfsr16_eq_iterate 65535 (by norm_num), lfsr16_orbit_65535]

theorem dlfb_lfsr16_zero : dlfb_lfsr16 0 = 0xFFFF := by
  rw [dlfb_lfsr16_eq_iterate 0 (by norm_num)]
  rfl

theorem dlfb_lfsr16_inj (n m : Nat) (hn : n < 65535) (hm : m < 65535)
    (heq : dlfb_lfsr16 n = dlfb_lfsr16 m) : n = m := by
  rw [dlfb_lfsr16_eq_iterate n (by omega), dlfb_lfsr16_eq_iterate m (by omega)] at heq
  have hinj := Function.iterate_injOn_Iio_minimalPeriod (f := dlfb_lfsr16_body) (x := 0xFFFF)
  rw [lfsr16_minimalPeriod] at hinj
  exact hinj (Set.mem_Iio.2 hn) (Set.mem_Iio.2 hm) heq

/-- C2: the LFSR sequence has period 65535: `dlfb_lfsr16` takes pairwise different values
on the counts `0 <= n < 65535`, and after exactly 65535 steps it is back at the start,
`dlfb_lfsr16 65535 = 0xFFFF = dlfb_lfsr16 0`. -/
theorem dlfb_lfsr16_period :
    (∀ n m : Nat, n < 65535 → m < 65535 → n ≠ m → dlfb_lfsr16 n ≠ dlfb_lfsr16 m) ∧
      dlfb_lfsr16 65535 = 0xFFFF ∧ dlfb_lfsr16 0 = 0xFFFF :=
  ⟨fun n m hn hm hnm heq => hnm (dlfb_lfsr16_inj n m hn hm heq), dlfb_lfsr16_65535,
    dlfb_lfsr16_zero⟩

theorem dlfb_lfsr16_period_witness :
    (1 < 65535 ∧ 2 < 65535 ∧ 1 ≠ 2) ∧ dlfb_lfsr16 1 ≠ dlfb_lfsr16 2 :=
  ⟨by decide, dlfb_lfsr16_period.1 1 2 (by decide) (by decide) (by decide)⟩

/-! ## Register writes -/

theorem dlfb_lfsr16_lt (v : Nat) : dlfb_lfsr16 v < 65536 :=
  Nat.mod_lt _ (by norm_num)

theorem dlfb_lfsr16_u16 (v : Nat) : dlfb_lfsr16 (u16 v) = dlfb_lfsr16 v := by
  simp [dlfb_lfsr16, u16]

theorem dlfb_set_register_16_bytes (buf : List Nat) (reg value : Nat) (hreg : reg < 255) :
    dlfb_set_register_16 buf reg value =
      buf ++ [reg, u16 value / 256, reg + 1, u16 value % 256] := by
  have h1 : reg % 256 = reg := Nat.mod_eq_of_lt (by omega)
  have h2 : (reg + 1) % 256 = reg + 1 := Nat.mod_eq_of_lt (by omega)
  have h3 : value % 65536 / 256 % 256 = value % 65536 / 256 := by omega
  simp [dlfb_set_register_16, dlfb_set_register, u8, u16, Nat.shiftRight_eq_div_pow, h1, h2, h3]

theorem dlfb_set_register_lfsr16_bytes (buf : List Nat) (reg value : Nat) (hreg : reg < 255) :
    dlfb_set_register_lfsr16 buf reg value =
      buf ++ [reg, dlfb_lfsr16 value / 256, reg + 1, dlfb_lfsr16 value % 256] := by
  have h := dlfb_lfsr16_lt value
  rw [dlfb_set_register_lfsr16, dlfb_set_register_16_bytes buf reg _ hreg, u16,
    Nat.mod_eq_of_lt h]

theorem dlfb_set_register_16be_bytes (buf : List Nat) (reg value : Nat) (hreg : reg < 255) :
    dlfb_set_register_16be buf reg value =
      buf ++ [reg, u16 value % 256, reg + 1, u16 value / 256] := by
  have h1 : reg % 256 = reg := Nat.mod_eq_of_lt (by omega)
  have h2 : (reg + 1) % 256 = reg + 1 := Nat.mod_eq_of_lt (by omega)
  have h3 : value % 65536 / 256 % 256 = value % 65536 / 256 := by omega
  simp [dlfb_set_register_16be, dlfb_set_register, u8, u16, Nat.shiftRight_eq_div_pow, h1, h2,
    h3]

/-- The bytes appended by `dlfb_set_vid_cmds`, one register write after the other. -/
theorem dlfb_set_vid_cmds_bytes (buf : List Nat) (var : fb_var_screeninfo)
    (hp : var.pixclock ≠ 0) :
    dlfb_set_vid_cmds buf var = some (buf ++
      [0x01, dlfb_lfsr16 (vid_xds var) / 256, 0x02, dlfb_lfsr16 (vid_xds var) % 256,
       0x03, dlfb_lfsr16 (vid_xde var) / 256, 0x04, dlfb_lfsr16 (vid_xde var) % 256,
       0x05, dlfb_lfsr16 (vid_yds var) / 256, 0x06, dlfb_lfsr16 (vid_yds var) % 256,
       0x07, dlfb_lfsr16 (vid_yde var) / 256, 0x08, dlfb_lfsr16 (vid_yde var) % 256,
       0x09, dlfb_lfsr16 (vid_xec var) / 256, 0x0A, dlfb_lfsr16 (vid_xec var) % 256,
       0x0B, dlfb_lfsr16 1 / 256, 0x0C, dlfb_lfsr16 1 % 256,
       0x0D, dlfb_lfsr16 (vid_hse var) / 256, 0x0E, dlfb_lfsr16 (vid_hse var) % 256,
       0x0F, u16 var.xres / 256, 0x10, u16 var.xres % 256,
       0x11, dlfb_lfsr16 (vid_yec var) / 256, 0x12, dlfb_lfsr16 (vid_yec var) % 256,
       0x13, dlfb_lfsr16 0 / 256, 0x14, dlfb_lfsr16 0 % 256,
       0x15, dlfb_lfsr16 (vid_vse var) / 256, 0x16, dlfb_lfsr16 (vid_vse var) % 256,
       0x17, u16 var.yres / 256, 0x18, u16 var.yres % 256,
       0x1B, vid_pclk var % 256, 0x1C, vid_pclk var / 256]) := by
  have e1 : ∀ x, dlfb_lfsr16 (u32 x) = dlfb_lfsr16 (u16 (u32 x)) := fun x =>
    (dlfb_lfsr16_u16 _).symm
  have e2 : dlfb_lfsr16 var.vsync_len = dlfb_lfsr16 (u16 var.vsync_len) :=
    (dlfb_lfsr16_u16 _).symm
  have e3 : ∀ x, u16 (u16 x) = u16 x := fun x => by simp [u16]
  have e4 : ∀ x, dlfb_lfsr16 (u32_sub x 1) = dlfb_lfsr16 (u16 (u32_sub x 1)) := fun x =>
    (dlfb_lfsr16_u16 _).symm
  unfold dlfb_set_vid_cmds
  simp only [hp, if_false]
  rw [dlfb_set_register_16be_bytes _ _ _ (by norm_num),
    dlfb_set_register_16_bytes _ _ _ (by norm_num),
    dlfb_set_register_lfsr16_bytes _ _ _ (by norm_num),
    dlfb_set_register_lfsr16_bytes _ _ _ (by norm_num),
    dlfb_set_register_lfsr16_bytes _ _ _ (by norm_num),
    dlfb_set_register_16_bytes _ _ _ (by norm_num),
    dlfb_set_register_lfsr16_bytes _ _ _ (by norm_num),
    dlfb_set_register_lfsr16_bytes _ _ _ (by norm_num),
    dlfb_set_register_lfsr16_bytes _ _ _ (by norm_num),
    dlfb_set_register_lfsr16_bytes _ _ _ (by norm_num),
    dlfb_set_register_lfsr16_bytes _ _ _ (by norm_num),
    dlfb_set_register_lfsr16_bytes _ _ _ (by norm_num),
    dlfb_set_register_lfsr16_bytes _ _ _ (by norm_num)]
  rw [e1 (var.hsync_len + 1), e4, e2]
  simp only [List.append_assoc, List.cons_append, List.nil_append, vid_xds, vid_xde, vid_yds,
    vid_yde, vid_xec, vid_hse, vid_yec, vid_vse, vid_pclk, e3]

/-! ## The mode-set stream -/

theorem lfsr16_search_finds (e v : Nat) (hv : dlfb_lfsr16 v = e) :
    ∀ candidates n, n ≤ v → v < n + candidates →
      (∀ m, n ≤ m → m < v → dlfb_lfsr16 m ≠ e) → lfsr16_search e candidates n = some v := by
  intro candidates
  induction candidates with
  | zero =>
    intro n h1 h2
    omega
  | succ c ih =>
    intro n h1 h2 hmin
    rw [lfsr16_search]
    by_cases hn : n = v
    · subst hn
      simp [hv]
    · have hlt : n < v := by omega
      rw [if_neg (hmin n (le_refl n) hlt)]
      exact ih (n + 1) (by omega) (by omega) (fun m hm1 hm2 => hmin m (by omega) hm2)

theorem lfsr16_inverse_lfsr16 (v : Nat) (hv : v < 65535) :
    lfsr16_inverse (dlfb_lfsr16 v) = some v :=
  lfsr16_search_finds _ v rfl 65536 0 (Nat.zero_le v) (by omega)
    (fun m _ hm heq => absurd (dlfb_lfsr16_inj m v (by omega) hv heq) (by omega))

theorem hi_lo_lfsr16 (v : Nat) : dlfb_lfsr16 v / 256 * 256 + dlfb_lfsr16 v % 256 = dlfb_lfsr16 v :=
  Nat.div_add_mod' _ _

/-- Each LFSR16 field of the emitted stream carries the LFSR value of the field value. -/
theorem vid_cmds_stream_field (var : fb_var_screeninfo) (stream : List Nat)
    (hs : dlfb_set_vid_cmds [] var = some stream) (k v : Nat)
    (hkv : (k, v) ∈ vid_lfsr16_fields var) : stream_field stream k = dlfb_lfsr16 v := by
  have hp : var.pixclock ≠ 0 := by
    intro h0
    unfold dlfb_set_vid_cmds at hs
    rw [if_pos h0] at hs
    exact Option.noConfusion hs
  rw [dlfb_set_vid_cmds_bytes [] var hp] at hs
  have hs2 := (Option.some.inj hs).symm
  simp only [vid_lfsr16_fields, List.mem_cons, Prod.mk.injEq, List.mem_singleton,
    List.not_mem_nil, or_false] at hkv
  rcases hkv with h | h | h | h | h | h | h | h | h | h <;>
    (rw [h.1, h.2, hs2]
     simp only [stream_field, stream_fields, List.nil_append, List.getD_cons_zero,
       List.getD_cons_succ, hi_lo_lfsr16])

/-- C3 (amended): for every mode with a non-zero pixel clock, each LFSR16-encoded field of
the stream emitted by `dlfb_set_vid_cmds` decodes, by the linear search for the least `n`
with `dlfb_lfsr16 n = e` on the 16-bit value `e` read back from its two value bytes, to the
16-bit field value computed from the mode, provided that value is below 65535. -/
theorem vid_cmds_lfsr16_round_trip (var : fb_var_screeninfo) (hp : var.pixclock ≠ 0) :
    ∃ stream, dlfb_set_vid_cmds [] var = some stream ∧
      ∀ k v, (k, v) ∈ vid_lfsr16_fields var → v < 65535 →
        lfsr16_inverse (stream_field stream k) = some v := by
  refine ⟨_, dlfb_set_vid_cmds_bytes [] var hp, ?_⟩
  intro k v hkv hv
  rw [vid_cmds_stream_field var _ (dlfb_set_vid_cmds_bytes [] var hp) k v hkv]
  exact lfsr16_inverse_lfsr16 v hv

theorem vid_cmds_lfsr16_round_trip_witness :
    var_1024x768.pixclock ≠ 0 ∧
      ∃ stream, dlfb_set_vid_cmds [] var_1024x768 = some stream ∧
        ∀ k v, (k, v) ∈ vid_lfsr16_fields var_1024x768 → v < 65535 →
          lfsr16_inverse (stream_field stream k) = some v :=
  ⟨by decide, vid_cmds_lfsr16_round_trip var_1024x768 (by decide)⟩

/-- C3 fails as stated: in the mode `var_wide` the x display start is 65535; its encoding
`dlfb_lfsr16 65535 = 0xFFFF` is also the encoding of 0, and the search for the least count
returns 0, not 65535. -/
theorem vid_cmds_lfsr16_round_trip_fails :
    var_wide.pixclock ≠ 0 ∧ (0, 65535) ∈ vid_lfsr16_fields var_wide ∧
      ∃ stream, dlfb_set_vid_cmds [] var_wide = some stream ∧
        lfsr16_inverse (stream_field stream 0) = some 0 ∧
        lfsr16_inverse (stream_field stream 0) ≠ some 65535 := by
  have hx : vid_xds var_wide = 65535 := by decide
  have hmem : (0, 65535) ∈ vid_lfsr16_fields var_wide := by
    simp [vid_lfsr16_fields, hx]
  have hinv : lfsr16_inverse 65535 = some 0 := by
    rw [lfsr16_inverse, show (65536 : Nat) = 65535 + 1 from rfl, lfsr16_search,
      if_pos dlfb_lfsr16_zero]
  have hs := dlfb_set_vid_cmds_bytes [] var_wide (by decide)
  have hf := vid_cmds_stream_field var_wide _ hs 0 65535 hmem
  rw [dlfb_lfsr16_65535] at hf
  refine ⟨by decide, hmem, _, hs, ?_, ?_⟩
  · rw [hf, hinv]
  · rw [hf, hinv]
    decide

theorem hi_lo_u16 (v : Nat) : u16 v / 256 * 256 + u16 v % 256 = u16 v :=
  Nat.div_add_mod' _ _

theorem vid_pclk_lt (var : fb_var_screeninfo) : vid_pclk var < 65536 :=
  Nat.mod_lt _ (by norm_num)

/-- The registers and the fields of the stream emitted by `dlfb_set_vid_cmds`. -/
theorem vid_cmds_regs_and_fields (var : fb_var_screeninfo) (hp : var.pixclock ≠ 0) :
    ∃ stream, dlfb_set_vid_cmds [] var = some stream ∧ stream.length = 52 ∧
      stream_regs stream =
        [0x01, 0x02, 0x03, 0x04, 0x05, 0x06, 0x07, 0x08, 0x09, 0x0A, 0x0B, 0x0C, 0x0D, 0x0E,
         0x0F, 0x10, 0x11, 0x12, 0x13, 0x14, 0x15, 0x16, 0x17, 0x18, 0x1B, 0x1C] ∧
      stream_fields stream =
        [dlfb_lfsr16 (vid_xds var), dlfb_lfsr16 (vid_xde var), dlfb_lfsr16 (vid_yds var),
         dlfb_lfsr16 (vid_yde var), dlfb_lfsr16 (vid_xec var), dlfb_lfsr16 1,
         dlfb_lfsr16 (vid_hse var), u16 var.xres, dlfb_lfsr16 (vid_yec var), dlfb_lfsr16 0,
         dlfb_lfsr16 (vid_vse var), u16 var.yres, byteswap16 (vid_pclk var)] ∧
      vid_hse var = (var.hsync_len + 1) % 65536 ∧ vid_vse var = var.vsync_len % 65536 := by
  refine ⟨_, dlfb_set_vid_cmds_bytes [] var hp, ?_, ?_, ?_, ?_, ?_⟩
  · simp only [List.nil_append, List.length_cons, List.length_nil]
  · simp only [List.nil_append, stream_regs]
  · have hq := vid_pclk_lt var
    have hb : vid_pclk var % 256 * 256 + vid_pclk var / 256 = byteswap16 (vid_pclk var) := by
      rw [byteswap16, Nat.mod_eq_of_lt (a := vid_pclk var / 256) (by omega)]
    simp only [List.nil_append, stream_fields, hi_lo_lfsr16, hi_lo_u16, hb]
  · simp only [vid_hse, u16, u32]
    omega
  · rfl

/-- C4 (amended): for every mode with a non-zero pixel clock, `dlfb_set_vid_cmds` emits 52
bytes, the register writes `0x01 .. 0x18, 0x1B, 0x1C`, carrying exactly these thirteen
16-bit fields in this order: horizontal display start, horizontal display end, vertical
display start, vertical display end, horizontal end count, horizontal sync start `1`,
horizontal sync end `hsync_len + 1` (each LFSR16), `xres` (plain), vertical end count,
vertical sync start `0`, vertical sync end `vsync_len` (each LFSR16), `yres` (plain), and
the pixel clock (low byte first). -/
theorem dlfb_set_vid_cmds_field_order (var : fb_var_screeninfo) (hp : var.pixclock ≠ 0) :
    ∃ stream, dlfb_set_vid_cmds [] var = some stream ∧ stream.length = 52 ∧
      stream_regs stream =
        [0x01, 0x02, 0x03, 0x04, 0x05, 0x06, 0x07, 0x08, 0x09, 0x0A, 0x0B, 0x0C, 0x0D, 0x0E,
         0x0F, 0x10, 0x11, 0x12, 0x13, 0x14, 0x15, 0x16, 0x17, 0x18, 0x1B, 0x1C] ∧
      stream_fields stream =
        [dlfb_lfsr16 (vid_xds var), dlfb_lfsr16 (vid_xde var), dlfb_lfsr16 (vid_yds var),
         dlfb_lfsr16 (vid_yde var), dlfb_lfsr16 (vid_xec var), dlfb_lfsr16 1,
         dlfb_lfsr16 (vid_hse var), u16 var.xres, dlfb_lfsr16 (vid_yec var), dlfb_lfsr16 0,
         dlfb_lfsr16 (vid_vse var), u16 var.yres, byteswap16 (vid_pclk var)] ∧
      vid_hse var = (var.hsync_len + 1) % 65536 ∧ vid_vse var = var.vsync_len % 65536 :=
  vid_cmds_regs_and_fields var hp

theorem dlfb_set_vid_cmds_field_order_witness :
    var_1024x768.pixclock ≠ 0 ∧
    ∃ stream, dlfb_set_vid_cmds [] var_1024x768 = some stream ∧ stream.length = 52 ∧
      stream_regs stream =
        [0x01, 0x02, 0x03, 0x04, 0x05, 0x06, 0x07, 0x08, 0x09, 0x0A, 0x0B, 0x0C, 0x0D, 0x0E,
         0x0F, 0x10, 0x11, 0x12, 0x13, 0x14, 0x15, 0x16, 0x17, 0x18, 0x1B, 0x1C] ∧
      stream_fields stream =
        [dlfb_lfsr16 (vid_xds var_1024x768), dlfb_lfsr16 (vid_xde var_1024x768),
         dlfb_lfsr16 (vid_yds var_1024x768), dlfb_lfsr16 (vid_yde var_1024x768),
         dlfb_lfsr16 (vid_xec var_1024x768), dlfb_lfsr16 1,
         dlfb_lfsr16 (vid_hse var_1024x768), u16 var_1024x768.xres,
         dlfb_lfsr16 (vid_yec var_1024x768), dlfb_lfsr16 0,
         dlfb_lfsr16 (vid_vse var_1024x768), u16 var_1024x768.yres,
         byteswap16 (vid_pclk var_1024x768)] ∧
      vid_hse var_1024x768 = (var_1024x768.hsync_len + 1) % 65536 ∧
      vid_vse var_1024x768 = var_1024x768.vsync_len % 65536 :=
  ⟨by decide, dlfb_set_vid_cmds_field_order var_1024x768 (by decide)⟩

/-- C4 fails as stated: for the mode `var_small` the emitted stream carries thirteen fields,
not the eleven of the specification's list; the third field is the vertical display start
(`dlfb_lfsr16 2 = 0xFFFC`), where the list has the horizontal end count
(`dlfb_lfsr16 6 = 0xFFCA`). -/
theorem dlfb_set_vid_cmds_field_order_fails :
    var_small.pixclock ≠ 0 ∧
    ∃ stream, dlfb_set_vid_cmds [] var_small = some stream ∧
      stream_fields stream ≠ vid_fields_spec var_small ∧
      (stream_fields stream).length = 13 ∧ (vid_fields_spec var_small).length = 11 ∧
      (stream_fields stream).getD 2 0 = 0xFFFC ∧ (vid_fields_spec var_small).getD 2 0 = 0xFFCA := by
  refine ⟨by decide, _, rfl, ?_, by decide, by decide, by decide, by decide⟩
  intro h
  have hl := congrArg List.length h
  revert hl
  decide

/-- C5 (amended): for every mode with a non-zero pixel clock, the last field emitted by
`dlfb_set_vid_cmds` is the pixel clock `q = (200000000 / pixclock) mod 2^16`, written by
`dlfb_set_register_16be` low byte first: the low byte of `q` goes to register `0x1B` and the
high byte of `q` to register `0x1C`. -/
theorem dlfb_set_vid_cmds_pixel_clock (var : fb_var_screeninfo) (hp : var.pixclock ≠ 0) :
    ∃ stream, dlfb_set_vid_cmds [] var = some stream ∧ stream.length = 52 ∧
      vid_pclk var = (200000000 / var.pixclock) % 65536 ∧
      stream.drop 48 = [0x1B, vid_pclk var % 256, 0x1C, vid_pclk var / 256] := by
  refine ⟨_, dlfb_set_vid_cmds_bytes [] var hp, ?_, ?_, ?_⟩
  · simp only [List.nil_append, List.length_cons, List.length_nil]
  · simp only [vid_pclk, u16, u32, show 200 * 1000 * 1000 = 200000000 from rfl]
    omega
  · simp only [List.nil_append, List.drop_succ_cons, List.drop_zero]

theorem dlfb_set_vid_cmds_pixel_clock_witness :
    var_1024x768.pixclock ≠ 0 ∧
    ∃ stream, dlfb_set_vid_cmds [] var_1024x768 = some stream ∧ stream.length = 52 ∧
      vid_pclk var_1024x768 = (200000000 / var_1024x768.pixclock) % 65536 ∧
      stream.drop 48 = [0x1B, vid_pclk var_1024x768 % 256, 0x1C, vid_pclk var_1024x768 / 256] :=
  ⟨by decide, dlfb_set_vid_cmds_pixel_clock var_1024x768 (by decide)⟩

/-- C5 fails as stated: for the mode `var_small` the pixel clock is `q = 0xC200`; the last
two register writes are `(0x1B, 0x00)` and `(0x1C, 0xC2)`, low byte first, and not
`(0x1B, high byte of q)`, `(0x1C, low byte of q)`. -/
theorem dlfb_set_vid_cmds_pixel_clock_fails :
    var_small.pixclock ≠ 0 ∧ (200000000 / var_small.pixclock) % 65536 = 0xC200 ∧
    ∃ stream, dlfb_set_vid_cmds [] var_small = some stream ∧
      stream.drop (stream.length - 4) = [0x1B, 0x00, 0x1C, 0xC2] ∧
      stream.drop (stream.length - 4) ≠
        [0x1B, (200000000 / var_small.pixclock) % 65536 / 256, 0x1C,
          (200000000 / var_small.pixclock) % 65536 % 256] := by
  refine ⟨by decide, by decide, _, rfl, by decide, by decide⟩

/-- C6: `dlfb_set_register_16` and `dlfb_set_register_16be` differ only in byte order. For
every register `reg` and 16-bit value `v` each appends four bytes, two register writes
addressed to `reg` and to `reg + 1` modulo 256; `dlfb_set_register_16` writes the high byte
of `v` to `reg` and the low byte to `reg + 1`, `dlfb_set_register_16be` the low byte to
`reg` and the high byte to `reg + 1`, so that `dlfb_set_register_16be` emits the bytes of
`dlfb_set_register_16` on the byte-swapped value. -/
theorem dlfb_set_register_16_byte_order (buf : List Nat) (reg v : Nat) (hreg : reg < 256)
    (hv : v < 65536) :
    dlfb_set_register_16 buf reg v = buf ++ [reg, v / 256, (reg + 1) % 256, v % 256] ∧
    dlfb_set_register_16be buf reg v = buf ++ [reg, v % 256, (reg + 1) % 256, v / 256] ∧
    (dlfb_set_register_16 buf reg v).length = buf.length + 4 ∧
    (dlfb_set_register_16be buf reg v).length = buf.length + 4 ∧
    byteswap16 v < 65536 ∧
    dlfb_set_register_16be buf reg v = dlfb_set_register_16 buf reg (byteswap16 v) := by
  have h1 : reg % 256 = reg := Nat.mod_eq_of_lt hreg
  have h2 : v % 65536 = v := Nat.mod_eq_of_lt hv
  have h3 : v / 256 % 256 = v / 256 := by omega
  have h4 : byteswap16 v = v % 256 * 256 + v / 256 := by rw [byteswap16, h3]
  have h5 : (v % 256 * 256 + v / 256) % 65536 = v % 256 * 256 + v / 256 := by omega
  have h6 : (v % 256 * 256 + v / 256) / 256 % 256 = v % 256 := by
    have h8 : v / 256 / 256 = 0 := by omega
    rw [Nat.add_comm, Nat.add_mul_div_right _ _ (by norm_num : 0 < 256), h8]
    omega
  have h7 : (v % 256 * 256 + v / 256) % 256 = v / 256 := by
    rw [Nat.add_comm, Nat.add_mul_mod_self_right]
    exact h3
  have e16 : dlfb_set_register_16 buf reg v =
      buf ++ [reg, v / 256, (reg + 1) % 256, v % 256] := by
    simp [dlfb_set_register_16, dlfb_set_register, u8, u16, Nat.shiftRight_eq_div_pow, h1, h2,
      h3]
  have e16be : dlfb_set_register_16be buf reg v =
      buf ++ [reg, v % 256, (reg + 1) % 256, v / 256] := by
    simp [dlfb_set_register_16be, dlfb_set_register, u8, u16, Nat.shiftRight_eq_div_pow, h1,
      h2, h3]
  have eswap : dlfb_set_register_16 buf reg (byteswap16 v) =
      buf ++ [reg, v % 256, (reg + 1) % 256, v / 256] := by
    rw [h4]
    simp [dlfb_set_register_16, dlfb_set_register, u8, u16, Nat.shiftRight_eq_div_pow, h1, h5,
      h6, h7]
  refine ⟨e16, e16be, ?_, ?_, ?_, ?_⟩
  · rw [e16]
    simp
  · rw [e16be]
    simp
  · rw [h4]
    omega
  · rw [e16be, eswap]

theorem dlfb_set_register_16_byte_order_witness :
    255 < 256 ∧ 0x1234 < 65536 ∧
    (dlfb_set_register_16 [] 255 0x1234 = [] ++ [255, 0x1234 / 256, (255 + 1) % 256, 0x1234 % 256] ∧
    dlfb_set_register_16be [] 255 0x1234 =
      [] ++ [255, 0x1234 % 256, (255 + 1) % 256, 0x1234 / 256] ∧
    (dlfb_set_register_16 [] 255 0x1234).length = ([] : List Nat).length + 4 ∧
    (dlfb_set_register_16be [] 255 0x1234).length = ([] : List Nat).length + 4 ∧
    byteswap16 0x1234 < 65536 ∧
    dlfb_set_register_16be [] 255 0x1234 = dlfb_set_register_16 [] 255 (byteswap16 0x1234)) :=
  ⟨by decide, by decide, dlfb_set_register_16_byte_order [] 255 0x1234 (by decide) (by decide)⟩

/-- C7: for every blanking state `dlfb_blanking` appends exactly the two bytes `(0x1F, r)`,
advancing the cursor by 2, where `r` is `0x00` for unblank (0), `0x01` for normal blank (1),
`0x03` for vsync suspend (2), `0x05` for hsync suspend (3), `0x07` for powerdown (4), and
`0x00` for every other integer. -/
theorem dlfb_blanking_bytes (buf : List Nat) (fb_blank : Int) :
    (dlfb_blanking buf fb_blank).length = buf.length + 2 ∧
    dlfb_blanking buf FB_BLANK_UNBLANK = buf ++ [0x1F, 0x00] ∧
    dlfb_blanking buf FB_BLANK_NORMAL = buf ++ [0x1F, 0x01] ∧
    dlfb_blanking buf FB_BLANK_VSYNC_SUSPEND = buf ++ [0x1F, 0x03] ∧
    dlfb_blanking buf FB_BLANK_HSYNC_SUSPEND = buf ++ [0x1F, 0x05] ∧
    dlfb_blanking buf FB_BLANK_POWERDOWN = buf ++ [0x1F, 0x07] ∧
    FB_BLANK_UNBLANK = 0 ∧ FB_BLANK_NORMAL = 1 ∧ FB_BLANK_VSYNC_SUSPEND = 2 ∧
    FB_BLANK_HSYNC_SUSPEND = 3 ∧ FB_BLANK_POWERDOWN = 4 ∧
    ((fb_blank < 0 ∨ 4 < fb_blank) → dlfb_blanking buf fb_blank = buf ++ [0x1F, 0x00]) := by
  refine ⟨?_, ?_, ?_, ?_, ?_, ?_, rfl, rfl, rfl, rfl, rfl, ?_⟩
  · simp [dlfb_blanking, dlfb_set_register]
  · simp [dlfb_blanking, dlfb_set_register, u8, FB_BLANK_UNBLANK, FB_BLANK_NORMAL,
      FB_BLANK_VSYNC_SUSPEND, FB_BLANK_HSYNC_SUSPEND, FB_BLANK_POWERDOWN]
  · simp [dlfb_blanking, dlfb_set_register, u8, FB_BLANK_NORMAL,
      FB_BLANK_VSYNC_SUSPEND, FB_BLANK_HSYNC_SUSPEND, FB_BLANK_POWERDOWN]
  · simp [dlfb_blanking, dlfb_set_register, u8, FB_BLANK_NORMAL,
      FB_BLANK_VSYNC_SUSPEND, FB_BLANK_HSYNC_SUSPEND, FB_BLANK_POWERDOWN]
  · simp [dlfb_blanking, dlfb_set_register, u8, FB_BLANK_NORMAL,
      FB_BLANK_VSYNC_SUSPEND, FB_BLANK_HSYNC_SUSPEND, FB_BLANK_POWERDOWN]
  · simp [dlfb_blanking, dlfb_set_register, u8, FB_BLANK_NORMAL,
      FB_BLANK_VSYNC_SUSPEND, FB_BLANK_HSYNC_SUSPEND, FB_BLANK_POWERDOWN]
  · intro h
    have h4 : fb_blank ≠ 4 := by omega
    have h3 : fb_blank ≠ 3 := by omega
    have h2 : fb_blank ≠ 2 := by omega
    have h1 : fb_blank ≠ 1 := by omega
    simp [dlfb_blanking, dlfb_set_register, u8, FB_BLANK_NORMAL,
      FB_BLANK_VSYNC_SUSPEND, FB_BLANK_HSYNC_SUSPEND, FB_BLANK_POWERDOWN, h1, h2, h3, h4]

theorem dlfb_blanking_bytes_witness :
    ((-1 : Int) < 0 ∨ 4 < (-1 : Int)) ∧ dlfb_blanking [] (-1) = [] ++ [0x1F, 0x00] :=
  ⟨by decide, (dlfb_blanking_bytes [] (-1)).2.2.2.2.2.2.2.2.2.2.2 (by decide)⟩

theorem dlfb_set_vid_cmds_append (buf : List Nat) (var : fb_var_screeninfo)
    (mode : List Nat) (h : dlfb_set_vid_cmds [] var = some mode) :
    dlfb_set_vid_cmds buf var = some (buf ++ mode) := by
  have hp : var.pixclock ≠ 0 := by
    intro h0
    unfold dlfb_set_vid_cmds at h
    rw [if_pos h0] at h
    exact Option.noConfusion h
  rw [dlfb_set_vid_cmds_bytes [] var hp] at h
  rw [dlfb_set_vid_cmds_bytes buf var hp, ← Option.some.inj h, List.nil_append]

theorem dlfb_get_urb_head (dev : dlfb_data) (urb : Nat) (rest : List Nat)
    (hsem : dev.urbs.limit_sem ≠ 0) (hlist : dev.urbs.list = urb :: rest) :
    dlfb_get_urb dev = some (some urb,
      { dev with
        urbs := { dev.urbs with
                  list := rest
                  limit_sem := dev.urbs.limit_sem - 1
                  available := dev.urbs.available - 1 } }) := by
  simp [dlfb_get_urb, hsem, hlist]

/-- C8: for every active device with a free slot whose buffer holds at least 72 bytes, and
every mode with a non-zero pixel clock, `dlfb_set_video_mode` returns 0 and the command
stream it builds in the slot's buffer is exactly 72 bytes: the lock pair `(0xFF, 0x00)`,
the color depth `(0x00, 0x00)`, the 16bpp base 0 as `(0x20, 0) (0x21, 0) (0x22, 0)`, the 8bpp
base `smem_len` as `(0x26, bits 23..16) (0x27, bits 15..8) (0x28, bits 7..0)`, the 52
mode-set bytes of `dlfb_set_vid_cmds`, whose registers are `0x01 .. 0x18` followed by `0x1B`
and `0x1C`, the unblank write `(0x1F, 0x00)` and the unlock pair `(0xFF, 0xFF)`. -/
theorem dlfb_set_video_mode_stream (dev : dlfb_data) (var : fb_var_screeninfo)
    (urb : Nat) (rest : List Nat)
    (hact : dev.usb_active ≠ 0) (hsem : dev.urbs.limit_sem ≠ 0)
    (hlist : dev.urbs.list = urb :: rest) (hnode : urb < dev.nodes.length)
    (hsize : 72 ≤ dev.urbs.size) (hp : var.pixclock ≠ 0) :
    ∃ dev' mode, dlfb_set_video_mode dev var = some (0, dev') ∧
      dlfb_set_vid_cmds [] var = some mode ∧ mode.length = 52 ∧
      stream_regs mode =
        [0x01, 0x02, 0x03, 0x04, 0x05, 0x06, 0x07, 0x08, 0x09, 0x0A, 0x0B, 0x0C, 0x0D, 0x0E,
         0x0F, 0x10, 0x11, 0x12, 0x13, 0x14, 0x15, 0x16, 0x17, 0x18, 0x1B, 0x1C] ∧
      (dev'.nodes[urb]?).map (fun n => n.transfer_buffer) = some
        ([0xFF, 0x00, 0x00, 0x00, 0x20, 0, 0x21, 0, 0x22, 0,
          0x26, dev.smem_len / 65536 % 256, 0x27, dev.smem_len / 256 % 256,
          0x28, dev.smem_len % 256] ++ mode ++ [0x1F, 0x00, 0xFF, 0xFF]) ∧
      ([0xFF, 0x00, 0x00, 0x00, 0x20, 0, 0x21, 0, 0x22, 0,
          0x26, dev.smem_len / 65536 % 256, 0x27, dev.smem_len / 256 % 256,
          0x28, dev.smem_len % 256] ++ mode ++ [0x1F, 0x00, 0xFF, 0xFF]).length = 72 ∧
      (dev'.nodes[urb]?).map (fun n => n.transfer_buffer_length) = some 72 := by
  obtain ⟨mode, hmode, hlen, hregs, -⟩ := vid_cmds_regs_and_fields var hp
  have hbase : ∀ buf : List Nat, dlfb_set_base8bpp buf dev.smem_len =
      buf ++ [0x26, dev.smem_len / 65536 % 256, 0x27, dev.smem_len / 256 % 256,
        0x28, dev.smem_len % 256] := by
    intro buf
    have h1 : dev.smem_len % 4294967296 / 65536 % 256 = dev.smem_len / 65536 % 256 := by omega
    have h2 : dev.smem_len % 4294967296 / 256 % 256 = dev.smem_len / 256 % 256 := by omega
    have h3 : dev.smem_len % 4294967296 % 256 = dev.smem_len % 256 := by omega
    simp [dlfb_set_base8bpp, dlfb_set_register, u8, u32, Nat.shiftRight_eq_div_pow, h1, h2, h3]
  have hpre : dlfb_set_base8bpp (dlfb_set_base16bpp (dlfb_set_color_depth
      (dlfb_vidreg_lock []) 0x00) 0) dev.smem_len =
      [0xFF, 0x00, 0x00, 0x00, 0x20, 0, 0x21, 0, 0x22, 0,
        0x26, dev.smem_len / 65536 % 256, 0x27, dev.smem_len / 256 % 256,
        0x28, dev.smem_len % 256] := by
    rw [hbase]
    simp [dlfb_set_base16bpp, dlfb_set_color_depth, dlfb_vidreg_lock, dlfb_set_register, u8,
      u32]
  have hpost : ∀ buf : List Nat, dlfb_vidreg_unlock (dlfb_blanking buf FB_BLANK_UNBLANK) =
      buf ++ [0x1F, 0x00, 0xFF, 0xFF] := by
    intro buf
    simp [dlfb_vidreg_unlock, dlfb_blanking, dlfb_set_register, u8, FB_BLANK_UNBLANK,
      FB_BLANK_NORMAL, FB_BLANK_VSYNC_SUSPEND, FB_BLANK_HSYNC_SUSPEND, FB_BLANK_POWERDOWN]
  have hlen72 : ([0xFF, 0x00, 0x00, 0x00, 0x20, 0, 0x21, 0, 0x22, 0,
          0x26, dev.smem_len / 65536 % 256, 0x27, dev.smem_len / 256 % 256,
          0x28, dev.smem_len % 256] ++ mode ++ [0x1F, 0x00, 0xFF, 0xFF]).length = 72 := by
    simp [hlen]
  have hrun : dlfb_set_video_mode dev var = some (0,
      { dev with
        urbs := { dev.urbs with
                  list := rest
                  limit_sem := dev.urbs.limit_sem - 1
                  available := dev.urbs.available - 1 }
        nodes := (dev.nodes.modify (fun n => { n with transfer_buffer :=
            [0xFF, 0x00, 0x00, 0x00, 0x20, 0, 0x21, 0, 0x22, 0,
              0x26, dev.smem_len / 65536 % 256, 0x27, dev.smem_len / 256 % 256,
              0x28, dev.smem_len % 256] ++ mode ++ [0x1F, 0x00, 0xFF, 0xFF] }) urb).modify
          (fun n => { n with transfer_buffer_length := 72 }) urb
        blank_mode := FB_BLANK_UNBLANK }) := by
    unfold dlfb_set_video_mode
    rw [if_neg hact, dlfb_get_urb_head dev urb rest hsem hlist]
    simp only [hpre]
    rw [dlfb_set_vid_cmds_append _ var mode hmode]
    simp only [hpost, List.length_nil, Nat.sub_zero, hlen72, dlfb_submit_urb]
    rw [if_neg (by omega)]
  refine ⟨_, mode, hrun, hmode, hlen, hregs, ?_, hlen72, ?_⟩
  · simp [List.getElem?_modify, hnode]
  · simp [List.getElem?_modify, hnode]

theorem dlfb_set_video_mode_stream_witness :
    dev_four.usb_active ≠ 0 ∧ dev_four.urbs.limit_sem ≠ 0 ∧ dev_four.urbs.list = 0 :: [1, 2, 3] ∧
    0 < dev_four.nodes.length ∧ 72 ≤ dev_four.urbs.size ∧ var_1024x768.pixclock ≠ 0 ∧
    ∃ dev' mode, dlfb_set_video_mode dev_four var_1024x768 = some (0, dev') ∧
      dlfb_set_vid_cmds [] var_1024x768 = some mode ∧ mode.length = 52 ∧
      stream_regs mode =
        [0x01, 0x02, 0x03, 0x04, 0x05, 0x06, 0x07, 0x08, 0x09, 0x0A, 0x0B, 0x0C, 0x0D, 0x0E,
         0x0F, 0x10, 0x11, 0x12, 0x13, 0x14, 0x15, 0x16, 0x17, 0x18, 0x1B, 0x1C] ∧
      (dev'.nodes[0]?).map (fun n => n.transfer_buffer) = some
        ([0xFF, 0x00, 0x00, 0x00, 0x20, 0, 0x21, 0, 0x22, 0,
          0x26, dev_four.smem_len / 65536 % 256, 0x27, dev_four.smem_len / 256 % 256,
          0x28, dev_four.smem_len % 256] ++ mode ++ [0x1F, 0x00, 0xFF, 0xFF]) ∧
      ([0xFF, 0x00, 0x00, 0x00, 0x20, 0, 0x21, 0, 0x22, 0,
          0x26, dev_four.smem_len / 65536 % 256, 0x27, dev_four.smem_len / 256 % 256,
          0x28, dev_four.smem_len % 256] ++ mode ++ [0x1F, 0x00, 0xFF, 0xFF]).length = 72 ∧
      (dev'.nodes[0]?).map (fun n => n.transfer_buffer_length) = some 72 :=
  ⟨by decide, by decide, by decide, by decide, by decide, by decide,
    dlfb_set_video_mode_stream dev_four var_1024x768 0 [1, 2, 3] (by decide) (by decide)
      (by decide) (by decide) (by decide) (by decide)⟩

/-! ## The transfer pool -/

theorem countP_modify_same (p : urb_node → Bool) (f : urb_node → urb_node)
    (hf : ∀ a, p (f a) = p a) (l : List urb_node) (n : Nat) :
    (l.modify f n).countP p = l.countP p := by
  induction l generalizing n with
  | nil => cases n <;> rfl
  | cons a l ih =>
    cases n with
    | zero => simp [List.countP_cons, hf]
    | succ n => simp [List.countP_cons, ih]

theorem countP_modify_le (p : urb_node → Bool) (f : urb_node → urb_node)
    (l : List urb_node) (n : Nat) : (l.modify f n).countP p ≤ l.countP p + 1 := by
  induction l generalizing n with
  | nil => cases n <;> simp
  | cons a l ih =>
    cases n with
    | zero =>
      simp only [List.modify_zero_cons, List.countP_cons]
      split <;> split <;> omega
    | succ n =>
      simp only [List.modify_succ_cons, List.countP_cons]
      have := ih n
      omega

theorem countP_modify_clear (p : urb_node → Bool) (f : urb_node → urb_node)
    (hf : ∀ a, p (f a) = false) (l : List urb_node) (n : Nat) (a : urb_node)
    (hn : l[n]? = some a) (ha : p a = true) :
    (l.modify f n).countP p + 1 = l.countP p := by
  induction l generalizing n with
  | nil => cases n <;> simp at hn
  | cons b l ih =>
    cases n with
    | zero =>
      simp only [List.getElem?_cons_zero, Option.some.injEq] at hn
      subst hn
      simp [List.countP_cons, hf, ha]
    | succ n =>
      simp only [List.getElem?_cons_succ] at hn
      simp only [List.modify_succ_cons, List.countP_cons]
      have := ih n hn
      omega

theorem alloc_loop_spec (mem : alloc_results) (count : Int) (size : Nat) :
    ∀ (fuel i : Nat) (list : List Nat) (nodes : List urb_node),
      nodes.length = i → list = List.range i →
      nodes.countP (fun n => n.release_urb_work_pending) = 0 →
      (dlfb_alloc_urb_list_loop mem count size fuel i list nodes).2.2.length =
          (dlfb_alloc_urb_list_loop mem count size fuel i list nodes).1 ∧
        (dlfb_alloc_urb_list_loop mem count size fuel i list nodes).2.1 =
          List.range (dlfb_alloc_urb_list_loop mem count size fuel i list nodes).1 ∧
        (dlfb_alloc_urb_list_loop mem count size fuel i list nodes).2.2.countP
          (fun n => n.release_urb_work_pending) = 0 ∧
        (dlfb_alloc_urb_list_loop mem count size fuel i list nodes).1 ≤ i + fuel := by
  intro fuel
  induction fuel with
  | zero =>
    intro i list nodes h1 h2 h3
    exact ⟨h1, h2, h3, le_refl _⟩
  | succ fuel ih =>
    intro i list nodes h1 h2 h3
    rw [dlfb_alloc_urb_list_loop]
    split
    · split
      · exact ⟨h1, h2, h3, by omega⟩
      · split
        · exact ⟨h1, h2, h3, by omega⟩
        · split
          · exact ⟨h1, h2, h3, by omega⟩
          · have h := ih (i + 1) (list ++ [nodes.length]) (nodes ++ [⟨[], size, false⟩])
              (by simp [h1]) (by rw [h2, h1, List.range_succ])
              (by simp [List.countP_append, h3])
            exact ⟨h.1, h.2.1, h.2.2.1, by omega⟩
    · exact ⟨h1, h2, h3, by omega⟩

/-- The bound on the iterations of the loop of `dlfb_alloc_urb_list` never cuts it short:
the loop ends because `i < count` fails or because an allocation fails. -/
theorem alloc_loop_exit (mem : alloc_results) (count : Int) (size : Nat) :
    ∀ (fuel i : Nat) (list : List Nat) (nodes : List urb_node), count ≤ (i : Int) + fuel →
      ¬ (((dlfb_alloc_urb_list_loop mem count size fuel i list nodes).1 : Int) < count) ∨
      mem.kzalloc (dlfb_alloc_urb_list_loop mem count size fuel i list nodes).1 = false ∨
      mem.usb_alloc_urb (dlfb_alloc_urb_list_loop mem count size fuel i list nodes).1 = false ∨
      mem.usb_alloc_coherent
        (dlfb_alloc_urb_list_loop mem count size fuel i list nodes).1 = false := by
  intro fuel
  induction fuel with
  | zero =>
    intro i list nodes h
    left
    simp only [dlfb_alloc_urb_list_loop]
    omega
  | succ fuel ih =>
    intro i list nodes h
    rw [dlfb_alloc_urb_list_loop]
    split
    · split
      · next hk => exact Or.inr (Or.inl (by simpa using hk))
      · split
        · next hk => exact Or.inr (Or.inr (Or.inl (by simpa using hk)))
        · split
          · next hk => exact Or.inr (Or.inr (Or.inr (by simpa using hk)))
          · exact ih (i + 1) _ _ (by push_cast at h ⊢; omega)
    · next hlt => exact Or.inl hlt

theorem pool_init_inv (mem : alloc_results) (dev : dlfb_data) (count : Int) (size : Nat) :
    pool_inv (pool_init mem dev count size) := by
  obtain ⟨h1, h2, h3, -⟩ := alloc_loop_spec mem count size count.toNat 0 [] [] rfl rfl rfl
  simp only [pool_inv, pool_init, dlfb_alloc_urb_list, works_queued]
  refine ⟨?_, ?_, ?_, ?_, ?_, ?_⟩
  · rw [h2, List.length_range]
  · rw [h1]
  · rw [h2]
    exact List.nodup_range _
  · intro x hx
    rw [h2] at hx
    rw [h1]
    exact List.mem_range.1 hx
  · rw [h2, List.length_range, h1]
  · rw [h3, h2, List.length_range]
    omega

theorem urb_completion_list (fb_defio : Bool) (dev : dlfb_data) (unode : Nat) (status : Int) :
    (dlfb_urb_completion fb_defio dev unode status).urbs.list = dev.urbs.list ++ [unode] := by
  unfold dlfb_urb_completion
  split_ifs <;> rfl

theorem urb_completion_available (fb_defio : Bool) (dev : dlfb_data) (unode : Nat)
    (status : Int) :
    (dlfb_urb_completion fb_defio dev unode status).urbs.available = dev.urbs.available + 1 := by
  unfold dlfb_urb_completion
  split_ifs <;> rfl

theorem urb_completion_count (fb_defio : Bool) (dev : dlfb_data) (unode : Nat) (status : Int) :
    (dlfb_urb_completion fb_defio dev unode status).urbs.count = dev.urbs.count := by
  unfold dlfb_urb_completion
  split_ifs <;> rfl

theorem urb_completion_nodes_length (fb_defio : Bool) (dev : dlfb_data) (unode : Nat)
    (status : Int) :
    (dlfb_urb_completion fb_defio dev unode status).nodes.length = dev.nodes.length := by
  unfold dlfb_urb_completion
  split_ifs <;> simp only [List.length_modify]

theorem urb_completion_sem (fb_defio : Bool) (dev : dlfb_data) (unode : Nat) (status : Int) :
    (dlfb_urb_completion fb_defio dev unode status).urbs.limit_sem +
        works_queued (dlfb_urb_completion fb_defio dev unode status) ≤
      dev.urbs.limit_sem + works_queued dev + 1 := by
  have hs : ∀ (sz : Nat) (l : List urb_node),
      (l.modify (fun n => { n with transfer_buffer_length := sz }) unode).countP
        (fun n => n.release_urb_work_pending) = l.countP (fun n => n.release_urb_work_pending) :=
    fun sz l => countP_modify_same (fun n => n.release_urb_work_pending)
      (fun n => { n with transfer_buffer_length := sz }) (fun _ => rfl) l unode
  have hq : ∀ (l : List urb_node),
      (l.modify (fun n => { n with release_urb_work_pending := true }) unode).countP
        (fun n => n.release_urb_work_pending) ≤
        l.countP (fun n => n.release_urb_work_pending) + 1 :=
    fun l => countP_modify_le _ _ l unode
  unfold dlfb_urb_completion works_queued
  have h := hq (dev.nodes.modify (fun n => { n with transfer_buffer_length := dev.urbs.size })
    unode)
  rw [hs] at h
  split_ifs
  all_goals simp only [hs]
  all_goals omega

theorem pool_step_inv (fb_defio : Bool) (s s' : pool_state) (e : pool_event)
    (hinv : pool_inv s) (hstep : pool_step fb_defio s e = some s') : pool_inv s' := by
  obtain ⟨h1, h2, h3, h4, h5, h6⟩ := hinv
  cases e with
  | get_urb =>
    simp only [pool_step, dlfb_get_urb] at hstep
    by_cases hsem : s.dev.urbs.limit_sem = 0
    · simp only [hsem, if_true, Option.some.injEq] at hstep
      subst hstep
      exact ⟨h1, h2, h3, h4, h5, h6⟩
    · simp only [hsem, if_false] at hstep
      cases hl : s.dev.urbs.list with
      | nil => simp [hl] at hstep
      | cons x rest =>
        simp only [hl, Option.some.injEq] at hstep
        subst hstep
        rw [hl] at h1 h3 h4 h5 h6
        simp only [List.length_cons, List.nodup_cons, List.mem_cons] at h1 h3 h4 h5 h6
        refine ⟨?_, h2, h3.2, fun y hy => h4 y (Or.inr hy), ?_, ?_⟩
        · simp only [h1]
          push_cast
          omega
        · simp only
          omega
        · simp only [works_queued] at h6 ⊢
          omega
  | urb_completion unode status =>
    simp only [pool_step] at hstep
    by_cases hfl : in_flight s.dev unode = true
    · simp only [hfl, if_true, Option.some.injEq] at hstep
      subst hstep
      simp [in_flight] at hfl
      obtain ⟨hlt, hnot⟩ := hfl
      have hsem := urb_completion_sem fb_defio s.dev unode status
      simp only [pool_inv, urb_completion_list, urb_completion_available, urb_completion_count,
        urb_completion_nodes_length, List.length_append, List.length_singleton]
      refine ⟨?_, h2, ?_, ?_, ?_, ?_⟩
      · rw [h1]
        push_cast
        rfl
      · exact List.Nodup.append h3 (List.nodup_singleton _) (by simpa using hnot)
      · intro x hx
        rcases List.mem_append.1 hx with hx | hx
        · exact h4 x hx
        · rw [List.mem_singleton.1 hx]
          exact hlt
      · omega
      · omega
    · simp [hfl] at hstep
  | release_urb_work unode =>
    simp only [pool_step] at hstep
    by_cases hq : work_queued s.dev unode = true
    · simp only [hq, if_true, Option.some.injEq] at hstep
      subst hstep
      simp only [work_queued] at hq
      cases hn : s.dev.nodes[unode]? with
      | none => simp [hn] at hq
      | some a =>
        simp only [hn] at hq
        have hc := countP_modify_clear (fun n => n.release_urb_work_pending)
          (fun n => { n with release_urb_work_pending := false }) (fun _ => rfl)
          s.dev.nodes unode a hn hq
        simp only [pool_inv, dlfb_release_urb_work, works_queued, List.length_modify] at h6 ⊢
        exact ⟨h1, h2, h3, h4, h5, by omega⟩
    · simp [hq] at hstep

theorem pool_run_inv (fb_defio : Bool) (events : List pool_event) :
    ∀ s s', pool_inv s → pool_run fb_defio s events = some s' → pool_inv s' := by
  induction events with
  | nil =>
    intro s s' hinv hrun
    simp only [pool_run, Option.some.injEq] at hrun
    subst hrun
    exact hinv
  | cons e es ih =>
    intro s s' hinv hrun
    simp only [pool_run] at hrun
    cases hstep : pool_step fb_defio s e with
    | none => simp [hstep] at hrun
    | some s1 =>
      simp only [hstep] at hrun
      exact ih s1 s' (pool_step_inv fb_defio s s1 e hinv hstep) hrun

theorem pool_step_count (fb_defio : Bool) (s s' : pool_state) (e : pool_event)
    (hstep : pool_step fb_defio s e = some s') : s'.dev.urbs.count = s.dev.urbs.count := by
  cases e with
  | get_urb =>
    simp only [pool_step, dlfb_get_urb] at hstep
    by_cases hsem : s.dev.urbs.limit_sem = 0
    · simp only [hsem, if_true, Option.some.injEq] at hstep
      subst hstep
      rfl
    · simp only [hsem, if_false] at hstep
      cases hl : s.dev.urbs.list with
      | nil => simp [hl] at hstep
      | cons x rest =>
        simp only [hl, Option.some.injEq] at hstep
        subst hstep
        rfl
  | urb_completion unode status =>
    simp only [pool_step] at hstep
    split at hstep
    · simp only [Option.some.injEq] at hstep
      subst hstep
      exact urb_completion_count _ _ _ _
    · simp at hstep
  | release_urb_work unode =>
    simp only [pool_step] at hstep
    split at hstep
    · simp only [Option.some.injEq] at hstep
      subst hstep
      rfl
    · simp at hstep

theorem pool_run_count (fb_defio : Bool) (events : List pool_event) :
    ∀ s s', pool_run fb_defio s events = some s' → s'.dev.urbs.count = s.dev.urbs.count := by
  induction events with
  | nil =>
    intro s s' hrun
    simp only [pool_run, Option.some.injEq] at hrun
    subst hrun
    rfl
  | cons e es ih =>
    intro s s' hrun
    simp only [pool_run] at hrun
    cases hstep : pool_step fb_defio s e with
    | none => simp [hstep] at hrun
    | some s1 =>
      simp only [hstep] at hrun
      rw [ih s1 s' hrun, pool_step_count fb_defio s s1 e hstep]

theorem nodup_length_le (l : List Nat) (n : Nat) (hd : l.Nodup) (hb : ∀ x ∈ l, x < n) :
    l.length ≤ n := by
  have hsub : l ⊆ List.range n := fun x hx => List.mem_range.2 (hb x hx)
  have := (List.Nodup.subperm hd hsub).length_le
  rwa [List.length_range] at this

theorem alloc_result_bounds (mem : alloc_results) (dev : dlfb_data) (count : Int) (size : Nat) :
    0 ≤ (dlfb_alloc_urb_list mem dev count size).1 ∧
    (dlfb_alloc_urb_list mem dev count size).1 ≤ max count 0 ∧
    (dlfb_alloc_urb_list mem dev count size).2.urbs.count =
      (dlfb_alloc_urb_list mem dev count size).1 ∧
    (dlfb_alloc_urb_list mem dev count size).2.urbs.available =
      (dlfb_alloc_urb_list mem dev count size).1 ∧
    ((dlfb_alloc_urb_list mem dev count size).2.urbs.limit_sem : Int) =
      (dlfb_alloc_urb_list mem dev count size).1 ∧
    ((dlfb_alloc_urb_list mem dev count size).2.urbs.list.length : Int) =
      (dlfb_alloc_urb_list mem dev count size).1 ∧
    (dlfb_alloc_urb_list mem dev count size).2.urbs.list =
      List.range (dlfb_alloc_urb_list mem dev count size).2.urbs.limit_sem := by
  obtain ⟨-, h2, -, h4⟩ := alloc_loop_spec mem count size count.toNat 0 [] [] rfl rfl rfl
  refine ⟨?_, ?_, rfl, rfl, rfl, ?_, h2⟩
  · simp only [dlfb_alloc_urb_list]
    omega
  · simp only [dlfb_alloc_urb_list]
    omega
  · simp only [dlfb_alloc_urb_list]
    rw [h2, List.length_range]

/-- C9: `dlfb_alloc_urb_list` returns the number `i` of slots allocated, at most the number
requested (a negative request counting as none), and sets `count`, `available` and the
semaphore to `i`; in every state reached from there by a sequence of `dlfb_get_urb` calls
(successful or timed out), completions of slots in flight and runs of the delayed release
work, `0 <= available <= count = i` holds and the number of slots acquired minus the number
completed is at most `count`. -/
theorem pool_available_bounds (mem : alloc_results) (dev : dlfb_data) (count : Int)
    (size : Nat) (fb_defio : Bool) (events : List pool_event) (s : pool_state)
    (hrun : pool_run fb_defio (pool_init mem dev count size) events = some s) :
    0 ≤ (dlfb_alloc_urb_list mem dev count size).1 ∧
    (dlfb_alloc_urb_list mem dev count size).1 ≤ max count 0 ∧
    (dlfb_alloc_urb_list mem dev count size).2.urbs.count =
      (dlfb_alloc_urb_list mem dev count size).1 ∧
    (dlfb_alloc_urb_list mem dev count size).2.urbs.available =
      (dlfb_alloc_urb_list mem dev count size).1 ∧
    ((dlfb_alloc_urb_list mem dev count size).2.urbs.limit_sem : Int) =
      (dlfb_alloc_urb_list mem dev count size).1 ∧
    0 ≤ s.dev.urbs.available ∧ s.dev.urbs.available ≤ s.dev.urbs.count ∧
    s.dev.urbs.count = (dlfb_alloc_urb_list mem dev count size).1 ∧
    (s.acquired : Int) - (s.completed : Int) ≤ s.dev.urbs.count := by
  obtain ⟨a1, a2, a3, a4, a5, -, -⟩ := alloc_result_bounds mem dev count size
  obtain ⟨h1, h2, h3, h4, h5, -⟩ :=
    pool_run_inv fb_defio events _ s (pool_init_inv mem dev count size) hrun
  have hc := pool_run_count fb_defio events _ s hrun
  have hle := nodup_length_le _ _ h3 h4
  refine ⟨a1, a2, a3, a4, a5, ?_, ?_, ?_, ?_⟩
  · rw [h1]
    exact Int.natCast_nonneg _
  · rw [h1, h2]
    exact_mod_cast hle
  · rw [hc]
    exact a3
  · rw [h2]
    omega

theorem pool_available_bounds_witness :
    ∃ s, pool_run true (pool_init alloc_all dev_fresh 4 65024) events_sample = some s ∧
      s.dev.urbs.available = 3 ∧ s.dev.urbs.limit_sem = 3 ∧
      (0 ≤ (dlfb_alloc_urb_list alloc_all dev_fresh 4 65024).1 ∧
      (dlfb_alloc_urb_list alloc_all dev_fresh 4 65024).1 ≤ max 4 0 ∧
      (dlfb_alloc_urb_list alloc_all dev_fresh 4 65024).2.urbs.count =
        (dlfb_alloc_urb_list alloc_all dev_fresh 4 65024).1 ∧
      (dlfb_alloc_urb_list alloc_all dev_fresh 4 65024).2.urbs.available =
        (dlfb_alloc_urb_list alloc_all dev_fresh 4 65024).1 ∧
      ((dlfb_alloc_urb_list alloc_all dev_fresh 4 65024).2.urbs.limit_sem : Int) =
        (dlfb_alloc_urb_list alloc_all dev_fresh 4 65024).1 ∧
      0 ≤ s.dev.urbs.available ∧ s.dev.urbs.available ≤ s.dev.urbs.count ∧
      s.dev.urbs.count = (dlfb_alloc_urb_list alloc_all dev_fresh 4 65024).1 ∧
      (s.acquired : Int) - (s.completed : Int) ≤ s.dev.urbs.count) :=
  ⟨_, rfl, by decide, by decide,
    pool_available_bounds alloc_all dev_fresh 4 65024 true events_sample _ rfl⟩

theorem get_urb_times_run (l : List Nat) :
    ∀ (dev : dlfb_data) (rest : List Nat), dev.urbs.list = l ++ rest →
      l.length ≤ dev.urbs.limit_sem →
      ∃ dev', get_urb_times l.length dev = some (l.map some, dev') ∧
        dev'.urbs.list = rest ∧ dev'.urbs.limit_sem = dev.urbs.limit_sem - l.length ∧
        dev'.urbs.available = dev.urbs.available - l.length ∧
        dev'.lost_pixels = dev.lost_pixels := by
  induction l with
  | nil =>
    intro dev rest hl _
    exact ⟨dev, rfl, by simpa using hl, by simp, by simp, rfl⟩
  | cons x l ih =>
    intro dev rest hl hsem
    simp only [List.length_cons] at hsem
    have hget := dlfb_get_urb_head dev x (l ++ rest) (by omega) (by simpa using hl)
    obtain ⟨dev', h1, h2, h3, h4, h5⟩ := ih
      { dev with
        urbs := { dev.urbs with
                  list := l ++ rest
                  limit_sem := dev.urbs.limit_sem - 1
                  available := dev.urbs.available - 1 } } rest rfl (by simp only; omega)
    refine ⟨dev', ?_, h2, ?_, ?_, h5⟩
    · simp only [List.length_cons, get_urb_times, hget, h1, List.map_cons]
    · rw [h3]
      simp only [List.length_cons]
      omega
    · rw [h4]
      simp only [List.length_cons]
      push_cast
      ring

/-- C10: in a pool initialised by `dlfb_alloc_urb_list` with capacity `c`, `c` consecutive
`dlfb_get_urb` calls with no completion in between all succeed and return the distinct slots
`0, 1, .., c - 1`, the `k`-th leaving `available = c - k`; the next call times out: it
returns `NULL`, sets `lost_pixels` to 1 and leaves `available` and the slot list
unchanged. -/
theorem get_urb_exhaustion (mem : alloc_results) (dev : dlfb_data) (count : Int)
    (size : Nat) :
    ∃ c : Nat, (dlfb_alloc_urb_list mem dev count size).1 = c ∧
      (List.range c).Nodup ∧
      (∀ k, k ≤ c → ∃ dev_k,
        get_urb_times k (dlfb_alloc_urb_list mem dev count size).2 =
          some ((List.range k).map some, dev_k) ∧
        dev_k.urbs.available = (c : Int) - k) ∧
      ∃ dev_c dev', get_urb_times c (dlfb_alloc_urb_list mem dev count size).2 =
          some ((List.range c).map some, dev_c) ∧
        dlfb_get_urb dev_c = some (none, dev') ∧ dev'.lost_pixels = 1 ∧
        dev'.urbs.available = dev_c.urbs.available ∧ dev'.urbs.list = dev_c.urbs.list := by
  obtain ⟨-, -, -, a4, a5, -, a7⟩ := alloc_result_bounds mem dev count size
  refine ⟨(dlfb_alloc_urb_list mem dev count size).2.urbs.limit_sem, a5.symm,
    List.nodup_range _, ?_, ?_⟩
  · intro k hk
    have hsplit : (dlfb_alloc_urb_list mem dev count size).2.urbs.list =
        List.range k ++ List.range' k
          ((dlfb_alloc_urb_list mem dev count size).2.urbs.limit_sem - k) := by
      have happ := List.range'_append_1 0 k
        ((dlfb_alloc_urb_list mem dev count size).2.urbs.limit_sem - k)
      rw [Nat.zero_add] at happ
      rw [a7, List.range_eq_range', List.range_eq_range', happ]
      congr 1
      omega
    obtain ⟨dev_k, h1, -, -, h4, -⟩ :=
      get_urb_times_run (List.range k) _ _ hsplit (by rw [List.length_range]; exact hk)
    rw [List.length_range] at h1 h4
    exact ⟨dev_k, h1, by rw [h4, a4, a5]⟩
  · obtain ⟨dev_c, h1, h2, h3, -, -⟩ :=
      get_urb_times_run (List.range (dlfb_alloc_urb_list mem dev count size).2.urbs.limit_sem)
        _ [] (by rw [List.append_nil]; exact a7) (by rw [List.length_range])
    rw [List.length_range] at h1 h3
    have hz : dev_c.urbs.limit_sem = 0 := by omega
    refine ⟨dev_c, { dev_c with lost_pixels := 1 }, h1, ?_, rfl, rfl, rfl⟩
    simp [dlfb_get_urb, hz]

/-- The scenario of the specification: with a pool of capacity 4, five `dlfb_get_urb` calls
in a row return the slots 0, 1, 2, 3 and then `NULL`, and leave `lost_pixels` at 1 with no
slot available. -/
theorem exhaustion_scenario_four :
    ∃ dev', get_urb_times 5 dev_four = some ([some 0, some 1, some 2, some 3, none], dev') ∧
      dev'.lost_pixels = 1 ∧ dev'.urbs.available = 0 ∧ dev'.urbs.list = [] ∧
      dev_four.lost_pixels = 0 ∧ dev_four.urbs.available = 4 :=
  ⟨_, rfl, by decide, by decide, by decide, by decide, by decide⟩

/-! ## Completion and submission -/

/-- C12: for every slot and every payload length `len` up to the slot size,
`dlfb_submit_urb` returns 0 and the only change of state is that the transfer length of the
slot becomes `len`: the function hands nothing to the transport, and the pool (available
count, semaphore, list) is as before, the slot staying off the available list. -/
theorem dlfb_submit_urb_effect (dev : dlfb_data) (urb len : Nat)
    (hlen : len ≤ dev.urbs.size) :
    ∃ dev', dlfb_submit_urb dev urb len = some (0, dev') ∧
      dev' = { dev with
        nodes := dev.nodes.modify (fun n => { n with transfer_buffer_length := len }) urb } ∧
      dev'.urbs = dev.urbs ∧ dev'.usb_active = dev.usb_active ∧
      dev'.lost_pixels = dev.lost_pixels ∧ dev'.blank_mode = dev.blank_mode ∧
      dev'.smem_len = dev.smem_len ∧ dev'.nodes.length = dev.nodes.length ∧
      in_flight dev' urb = in_flight dev urb ∧
      (dev'.nodes[urb]?).map (fun n => n.transfer_buffer_length) =
        (dev.nodes[urb]?).map (fun _ => len) ∧
      (dev'.nodes[urb]?).map (fun n => (n.release_urb_work_pending)) =
        (dev.nodes[urb]?).map (fun n => (n.release_urb_work_pending)) := by
  have h : dlfb_submit_urb dev urb len = some (0,
      { dev with
        nodes := dev.nodes.modify (fun n => { n with transfer_buffer_length := len }) urb }) := by
    unfold dlfb_submit_urb
    rw [if_neg (by omega)]
  refine ⟨_, h, rfl, rfl, rfl, rfl, rfl, rfl, by simp, ?_, ?_, ?_⟩
  · simp [in_flight]
  · simp only [List.getElem?_modify, if_true]
    cases dev.nodes[urb]? <;> rfl
  · simp only [List.getElem?_modify, if_true]
    cases dev.nodes[urb]? <;> rfl

theorem dlfb_submit_urb_effect_witness :
    72 ≤ dev_four.urbs.size ∧
    ∃ dev', dlfb_submit_urb dev_four 0 72 = some (0, dev') ∧
      dev' = { dev_four with
        nodes := dev_four.nodes.modify (fun n => { n with transfer_buffer_length := 72 }) 0 } ∧
      dev'.urbs = dev_four.urbs ∧ dev'.usb_active = dev_four.usb_active ∧
      dev'.lost_pixels = dev_four.lost_pixels ∧ dev'.blank_mode = dev_four.blank_mode ∧
      dev'.smem_len = dev_four.smem_len ∧ dev'.nodes.length = dev_four.nodes.length ∧
      in_flight dev' 0 = in_flight dev_four 0 ∧
      (dev'.nodes[0]?).map (fun n => n.transfer_buffer_length) =
        (dev_four.nodes[0]?).map (fun _ => 72) ∧
      (dev'.nodes[0]?).map (fun n => (n.release_urb_work_pending)) =
        (dev_four.nodes[0]?).map (fun n => (n.release_urb_work_pending)) :=
  ⟨by decide, dlfb_submit_urb_effect dev_four 0 72 (by decide)⟩

/-! ## Alignment of a damaged region -/

theorem DL_ALIGN_DOWN_spec (x a : Int) (ha : 0 < a) :
    DL_ALIGN_DOWN x a % a = 0 ∧ DL_ALIGN_DOWN x a ≤ x ∧ x < DL_ALIGN_DOWN x a + a := by
  have h1 := Int.emod_nonneg x (ne_of_gt ha)
  have h2 := Int.emod_lt_of_pos x ha
  refine ⟨?_, ?_, ?_⟩
  · unfold DL_ALIGN_DOWN
    exact Int.emod_eq_zero_of_dvd (Int.dvd_sub_of_emod_eq rfl)
  · unfold DL_ALIGN_DOWN
    omega
  · unfold DL_ALIGN_DOWN
    omega

theorem DL_ALIGN_UP_spec (x a : Int) (ha : 0 < a) :
    DL_ALIGN_UP x a % a = 0 ∧ x ≤ DL_ALIGN_UP x a ∧ DL_ALIGN_UP x a < x + a := by
  obtain ⟨h1, h2, h3⟩ := DL_ALIGN_DOWN_spec (x + (a - 1)) a ha
  unfold DL_ALIGN_UP
  exact ⟨h1, by omega, by omega⟩

/-! ## The damage renderer -/

theorem int32_of_range (v : Int) (h1 : -2147483648 ≤ v) (h2 : v ≤ 2147483647) :
    int32 v = v := by
  unfold int32
  split_ifs <;> omega

theorem u32_of_int_of_range (v : Int) (h1 : 0 ≤ v) (h2 : v < 4294967296) :
    ((u32_of_int v : Nat) : Int) = v := by
  unfold u32_of_int
  omega

theorem u32_of_int_lt (v : Int) : u32_of_int v < 4294967296 := by
  unfold u32_of_int
  omega

theorem hline_payload_length (front : Nat → Nat) (byte_offset byte_width : Nat) :
    (hline_payload front byte_offset byte_width).length = byte_width + 2 := by
  simp [hline_payload]

theorem dlfb_render_hline_ok (transferred : Int) (dev : dlfb_dev) (front : Nat → Nat)
    (byte_offset byte_width : Nat) (ident sent : Int)
    (hoff : byte_offset < 4294967296) (hbw : byte_width + 2 < 4294967296) :
    dlfb_render_hline true transferred dev front byte_offset byte_width ident sent =
      some (0, ident, sent, { dev with
        bulk_out := dev.bulk_out ++
          [{ data := hline_payload front byte_offset byte_width, transferred := transferred }] }) := by
  have h1 : u32 byte_offset = byte_offset := Nat.mod_eq_of_lt hoff
  have h2 : u32 byte_width = byte_width := Nat.mod_eq_of_lt (by omega)
  have h3 : u32 (2 + byte_width) = 2 + byte_width := Nat.mod_eq_of_lt (by omega)
  have h4 : u32 (byte_width + 2) = byte_width + 2 := Nat.mod_eq_of_lt hbw
  unfold dlfb_render_hline
  simp only [h1, h2, h3, h4, lt_irrefl, if_false, Bool.true_eq_false]
  rw [List.take_of_length_le (by rw [hline_payload_length])]

theorem damage_byte_offset_lt (line_length : Nat) (x i : Int) :
    damage_byte_offset line_length x i < 4294967296 :=
  u32_of_int_lt _

theorem dlfb_handle_damage_loop_spec (env : damage_env) (x width y_end : Int)
    (hmem : ∀ k, env.kmalloc k = true)
    (hbw : damage_byte_width width + 2 < 4294967296) (hend : y_end < 2147483647) :
    ∀ (fuel k : Nat) (i ident sent : Int) (dev : dlfb_dev),
      -2147483648 ≤ i → y_end - i ≤ fuel →
      dlfb_handle_damage_loop env x width y_end fuel k i ident sent dev =
        some (ident, sent, { dev with
          bulk_out := dev.bulk_out ++
            (List.range ((y_end - i + 1) / 2).toNat).map (fun (j : Nat) =>
              ({ data := hline_payload dev.smem_start
                   (damage_byte_offset dev.line_length x (i + 2 * (j : Int)))
                   (damage_byte_width width)
                 transferred := env.transferred (k + j) } : bulk_transfer)) }) := by
  intro fuel
  induction fuel with
  | zero =>
    intro k i ident sent dev hi hf
    have hlt : ¬ i < y_end := by omega
    have hn : ((y_end - i + 1) / 2).toNat = 0 := by omega
    simp only [dlfb_handle_damage_loop, if_neg hlt, hn, List.range_zero, List.map_nil,
      List.append_nil]
  | succ fuel ih =>
    intro k i ident sent dev hi hf
    by_cases hlt : i < y_end
    · have hi2 : int32 (int32 (i + 1) + 1) = i + 2 := by
        rw [int32_of_range (i + 1) (by omega) (by omega)]
        rw [int32_of_range (i + 1 + 1) (by omega) (by omega)]
        omega
      have hn : ((y_end - i + 1) / 2).toNat = ((y_end - (i + 2) + 1) / 2).toNat + 1 := by
        omega
      simp only [dlfb_handle_damage_loop, if_pos hlt, hmem k]
      rw [dlfb_render_hline_ok _ _ _ _ _ _ _ (damage_byte_offset_lt _ _ _) hbw]
      simp only [ne_eq, not_true_eq_false, if_false, hi2]
      rw [ih (k + 1) (i + 2) ident sent _ (by omega) (by omega)]
      rw [hn, List.range_succ_eq_map]
      simp only [List.map_cons, List.map_map, List.append_assoc, List.singleton_append,
        Nat.cast_zero, mul_zero, add_zero]
      simp only [Option.some.injEq, Prod.mk.injEq, dlfb_dev.mk.injEq, true_and, and_true,
        List.append_cancel_left_eq, List.cons.injEq]
      apply List.map_congr_left
      intro j _
      simp only [Function.comp, Nat.cast_succ]
      have e1 : i + 2 + 2 * (j : Int) = i + 2 * ((j : Int) + 1) := by ring
      have e2 : k + 1 + j = k + (j + 1) := by omega
      rw [e1, e2]
    · have hn : ((y_end - i + 1) / 2).toNat = 0 := by omega
      simp only [dlfb_handle_damage_loop, if_neg hlt, hn, List.range_zero, List.map_nil,
        List.append_nil]

theorem DL_ALIGN_DOWN_nonneg (x a : Int) (ha : 0 < a) (hx : 0 ≤ x) : 0 ≤ DL_ALIGN_DOWN x a := by
  have h8 : x % a + a * (x / a) = x := Int.emod_add_ediv x a
  have h9 : 0 ≤ a * (x / a) := mul_nonneg (le_of_lt ha) (Int.ediv_nonneg hx (le_of_lt ha))
  unfold DL_ALIGN_DOWN
  omega

theorem damage_align_exact (w x width : Int) (hw : 0 < w) (hx : 0 ≤ x) (hwidth : 0 ≤ width)
    (hno : x + width + w ≤ 2147483647) :
    damage_align w x width =
      (DL_ALIGN_DOWN x w, DL_ALIGN_UP (width + (x - DL_ALIGN_DOWN x w)) w) := by
  obtain ⟨_, h2, h3⟩ := DL_ALIGN_DOWN_spec x w hw
  obtain ⟨_, h5, h6⟩ := DL_ALIGN_UP_spec (width + (x - DL_ALIGN_DOWN x w)) w hw
  have h7 := DL_ALIGN_DOWN_nonneg x w hw hx
  unfold damage_align
  simp only
  rw [int32_of_range (DL_ALIGN_DOWN x w) (by omega) (by omega)]
  rw [int32_of_range (x - DL_ALIGN_DOWN x w) (by omega) (by omega)]
  rw [int32_of_range (width + (x - DL_ALIGN_DOWN x w)) (by omega) (by omega)]
  rw [int32_of_range (DL_ALIGN_UP (width + (x - DL_ALIGN_DOWN x w)) w) (by omega) (by omega)]

theorem damage_align_bounds (w x width : Int) (hw : 0 < w) (hx : 0 ≤ x) (hwidth : 0 < width)
    (hno : x + width + w ≤ 2147483647) :
    (damage_align w x width).1 % w = 0 ∧ (damage_align w x width).2 % w = 0 ∧
    0 ≤ (damage_align w x width).1 ∧ (damage_align w x width).1 ≤ x ∧
    0 < (damage_align w x width).2 ∧
    x + width ≤ (damage_align w x width).1 + (damage_align w x width).2 ∧
    (damage_align w x width).1 + (damage_align w x width).2 < x + width + w := by
  obtain ⟨h1, h2, h3⟩ := DL_ALIGN_DOWN_spec x w hw
  obtain ⟨h4, h5, h6⟩ := DL_ALIGN_UP_spec (width + (x - DL_ALIGN_DOWN x w)) w hw
  have h7 := DL_ALIGN_DOWN_nonneg x w hw hx
  rw [damage_align_exact w x width hw hx (le_of_lt hwidth) hno]
  exact ⟨h1, h4, h7, h2, by omega, by omega, by omega⟩

theorem damage_byte_width_exact (width : Int) (h0 : 0 ≤ width) (h : 4 * width ≤ 2147483647) :
    ((damage_byte_width width : Nat) : Int) = width * BPP * 2 := by
  unfold damage_byte_width BPP
  rw [int32_of_range (width * 2) (by omega) (by omega)]
  rw [int32_of_range (width * 2 * 2) (by omega) (by omega)]
  exact u32_of_int_of_range _ (by omega) (by omega)

theorem dlfb_handle_damage_accepted (w : Int) (env : damage_env) (dev : dlfb_dev)
    (x y width height : Int) (hw : 0 < w) (hx : 0 ≤ x) (hy : 0 ≤ y)
    (hgw : width - x = 1024) (hgh : height - y = 768)
    (hxo : 4 * (x + width + w) ≤ 2147483647) (hyo : y + height ≤ 2147483647)
    (hfx : (damage_align w x width).1 + (damage_align w x width).2 ≤ dev.xres)
    (hfy : y + height ≤ dev.yres) (hact : dev.usb_active ≠ 0)
    (hmem : ∀ k, env.kmalloc k = true) :
    dlfb_handle_damage w env dev x y width height =
      some (0, { dev with
        bulk_out := dev.bulk_out ++
          (List.range ((height + 1) / 2).toNat).map (fun (k : Nat) =>
            ({ data := hline_payload dev.smem_start
                 (damage_byte_offset dev.line_length (damage_align w x width).1
                   (y + 2 * (k : Int)))
                 (damage_byte_width (damage_align w x width).2)
               transferred := env.transferred k } : bulk_transfer))
        bytes_sent := int32 (dev.bytes_sent + 0)
        bytes_identical := int32 (dev.bytes_identical + 0)
        bytes_rendered := int32 (dev.bytes_rendered +
          int32 (int32 ((damage_align w x width).2 * height) * 2))
        cpu_kcycles_used := int32 (dev.cpu_kcycles_used + env.kcycles) }) := by
  obtain ⟨_, _, b3, b4, b5, b6, b7⟩ :=
    damage_align_bounds w x width hw hx (by omega) (by omega)
  have ex : int32 x = x := int32_of_range x (by omega) (by omega)
  have ey : int32 y = y := int32_of_range y (by omega) (by omega)
  have ew : int32 width = width := int32_of_range width (by omega) (by omega)
  have eh : int32 height = height := int32_of_range height (by omega) (by omega)
  have eg1 : int32 (width - x) = 1024 := by rw [hgw]; decide
  have eg2 : int32 (height - y) = 768 := by rw [hgh]; decide
  have es : int32 ((damage_align w x width).1 + (damage_align w x width).2) =
      (damage_align w x width).1 + (damage_align w x width).2 :=
    int32_of_range _ (by omega) (by omega)
  have eyh : int32 (y + height) = y + height := int32_of_range _ (by omega) (by omega)
  have c1 : ¬ (damage_align w x width).2 ≤ 0 := by omega
  have c2 : ¬ u32_of_int ((damage_align w x width).1 + (damage_align w x width).2) >
      dev.xres := by
    have := u32_of_int_of_range ((damage_align w x width).1 + (damage_align w x width).2)
      (by omega) (by omega)
    omega
  have c3 : ¬ u32_of_int (y + height) > dev.yres := by
    have := u32_of_int_of_range (y + height) (by omega) (by omega)
    omega
  have hbw : damage_byte_width (damage_align w x width).2 + 2 < 4294967296 := by
    have := damage_byte_width_exact (damage_align w x width).2 (by omega) (by omega)
    unfold BPP at this
    omega
  have hloop := dlfb_handle_damage_loop_spec env (damage_align w x width).1
    (damage_align w x width).2 (y + height) hmem hbw (by omega)
    (y + height - y).toNat 0 y 0 0 dev (by omega) (by omega)
  have hn : ((y + height - y + 1) / 2).toNat = ((height + 1) / 2).toNat := by
    congr 2
    omega
  unfold dlfb_handle_damage
  simp only [ex, ey, ew, eh, eg1, eg2, es, eyh, c1, c2, c3, hact, ne_eq, not_true_eq_false,
    or_self, if_false, hloop, hn, zero_add]

/-- C13: alignment in `dlfb_handle_damage`. For every `x >= 0`, `width > 0` and word size
`w > 0`, when `x + width + w` does not overflow an `int`, the code computes
`x' = DL_ALIGN_DOWN(x, w)` and `width' = DL_ALIGN_UP(width + (x - x'), w)` exactly, `x'` and
`width'` are multiples of `w`, `x' <= x`, and `x' + width' >= x + width`, so the aligned span
covers the original one. For `x = 3`, `width = 1024`, `w = 8` the values are `x' = 0` and
`width' = 1032`. -/
theorem damage_align_covers (w x width : Int) (hw : 0 < w) (hx : 0 ≤ x) (hwidth : 0 < width)
    (hno : x + width + w ≤ 2147483647) :
    (damage_align w x width).1 = DL_ALIGN_DOWN x w ∧
    (damage_align w x width).2 = DL_ALIGN_UP (width + (x - DL_ALIGN_DOWN x w)) w ∧
    (damage_align w x width).1 % w = 0 ∧ (damage_align w x width).2 % w = 0 ∧
    (damage_align w x width).1 ≤ x ∧
    x + width ≤ (damage_align w x width).1 + (damage_align w x width).2 ∧
    damage_align 8 3 1024 = (0, 1032) := by
  obtain ⟨b1, b2, _, b4, _, b6, _⟩ := damage_align_bounds w x width hw hx hwidth hno
  have he := damage_align_exact w x width hw hx (le_of_lt hwidth) hno
  exact ⟨congrArg Prod.fst he, congrArg Prod.snd he, b1, b2, b4, b6, by decide⟩

theorem damage_align_covers_witness :
    (0 : Int) < 8 ∧ (0 : Int) ≤ 3 ∧ (0 : Int) < 1024 ∧ (3 : Int) + 1024 + 8 ≤ 2147483647 ∧
    ((damage_align 8 3 1024).1 = DL_ALIGN_DOWN 3 8 ∧
    (damage_align 8 3 1024).2 = DL_ALIGN_UP (1024 + (3 - DL_ALIGN_DOWN 3 8)) 8 ∧
    (damage_align 8 3 1024).1 % 8 = 0 ∧ (damage_align 8 3 1024).2 % 8 = 0 ∧
    (damage_align 8 3 1024).1 ≤ 3 ∧
    3 + 1024 ≤ (damage_align 8 3 1024).1 + (damage_align 8 3 1024).2 ∧
    damage_align 8 3 1024 = (0, 1032)) :=
  ⟨by decide, by decide, by decide, by decide,
    damage_align_covers 8 3 1024 (by decide) (by decide) (by decide) (by decide)⟩

/-- C14, as amended: `dlfb_handle_damage` first compares the region with the fixed
dimensions (`width - x = 1024` and `height - y = 768`) and only then with the resolution. For
every region with `x, y >= 0`, `width, height > 0` and no integer overflow that exceeds the
declared resolution (`x + width > xres` or `y + height > yres`): when the region has the
fixed dimensions the call returns `-EINVAL`, and otherwise it returns 0; in both cases the
device is unchanged, so no transfer is made and no metric counter moves. -/
theorem dlfb_handle_damage_out_of_bounds (w : Int) (env : damage_env) (dev : dlfb_dev)
    (x y width height : Int) (hw : 0 < w) (hx : 0 ≤ x) (hy : 0 ≤ y) (hwidth : 0 < width)
    (hheight : 0 < height) (hxo : x + width + w ≤ 2147483647)
    (hyo : y + height ≤ 2147483647)
    (hexceeds : x + width > dev.xres ∨ y + height > dev.yres) :
    dlfb_handle_damage w env dev x y width height =
      some (if width - x = 1024 ∧ height - y = 768 then -EINVAL else 0, dev) := by
  obtain ⟨_, _, b3, b4, b5, b6, b7⟩ := damage_align_bounds w x width hw hx hwidth hxo
  have ex : int32 x = x := int32_of_range x (by omega) (by omega)
  have ey : int32 y = y := int32_of_range y (by omega) (by omega)
  have ew : int32 width = width := int32_of_range width (by omega) (by omega)
  have eh : int32 height = height := int32_of_range height (by omega) (by omega)
  have eg1 : int32 (width - x) = width - x := int32_of_range _ (by omega) (by omega)
  have eg2 : int32 (height - y) = height - y := int32_of_range _ (by omega) (by omega)
  have es : int32 ((damage_align w x width).1 + (damage_align w x width).2) =
      (damage_align w x width).1 + (damage_align w x width).2 :=
    int32_of_range _ (by omega) (by omega)
  have eyh : int32 (y + height) = y + height := int32_of_range _ (by omega) (by omega)
  have c23 : u32_of_int ((damage_align w x width).1 + (damage_align w x width).2) >
      dev.xres ∨ u32_of_int (y + height) > dev.yres := by
    have h1 := u32_of_int_of_range ((damage_align w x width).1 + (damage_align w x width).2)
      (by omega) (by omega)
    have h2 := u32_of_int_of_range (y + height) (by omega) (by omega)
    omega
  by_cases hg : width - x = 1024 ∧ height - y = 768
  · rw [if_pos hg]
    have hcheck : (damage_align w x width).2 ≤ 0 ∨
        u32_of_int ((damage_align w x width).1 + (damage_align w x width).2) > dev.xres ∨
        u32_of_int (y + height) > dev.yres := Or.inr c23
    have i1 : int32 1024 = 1024 := by decide
    have i2 : int32 768 = 768 := by decide
    unfold dlfb_handle_damage
    simp only [ex, ey, ew, eh, es, eyh, hg.1, hg.2, i1, i2, ne_eq, not_true_eq_false,
      or_self, if_false, if_pos hcheck]
  · rw [if_neg hg]
    have hgate : width - x ≠ 1024 ∨ height - y ≠ 768 := by
      by_contra hc
      exact hg ⟨by omega, by omega⟩
    unfold dlfb_handle_damage
    simp only [ex, ey, ew, eh, eg1, eg2, if_pos hgate]

theorem dlfb_handle_damage_out_of_bounds_witness :
    (0 : Int) < 8 ∧ (0 : Int) ≤ 0 ∧ (0 : Int) ≤ 0 ∧ (0 : Int) < 1024 ∧ (0 : Int) < 768 ∧
    (0 : Int) + 1024 + 8 ≤ 2147483647 ∧ (0 : Int) + 768 ≤ 2147483647 ∧
    ((0 : Int) + 1024 > dev_render_gone.xres ∨ (0 : Int) + 768 > dev_render_gone.yres) ∧
    dlfb_handle_damage 8 env_sample dev_render_gone 0 0 1024 768 =
      some (if (1024 : Int) - 0 = 1024 ∧ (768 : Int) - 0 = 768 then -EINVAL else 0,
        dev_render_gone) :=
  ⟨by decide, by decide, by decide, by decide, by decide, by decide, by decide, by decide,
    dlfb_handle_damage_out_of_bounds 8 env_sample dev_render_gone 0 0 1024 768 (by decide)
      (by decide) (by decide) (by decide) (by decide) (by decide) (by decide) (by decide)⟩

/-- C14, the claim as stated fails: on the active 1024x768 device the region at the origin
2000 pixels wide and 768 high exceeds the horizontal resolution, and `dlfb_handle_damage`
returns 0, not `-EINVAL`. -/
theorem dlfb_handle_damage_out_of_bounds_fails :
    (0 : Int) + 2000 > dev_render.xres ∧
    dlfb_handle_damage 8 env_sample dev_render 0 0 2000 768 = some (0, dev_render) ∧
    (0 : Int) ≠ -EINVAL :=
  ⟨by decide, rfl, by decide⟩

/-- C15, as amended: for every region, when the device is inactive (`usb_active = 0`)
`dlfb_handle_damage` leaves the device unchanged (no transfer, no slot acquired, no counter
moved) and returns 0 or `-EINVAL`; it returns `-EINVAL` exactly when the region has the fixed
dimensions and fails the bounds check, which comes before the test of `usb_active`. -/
theorem dlfb_handle_damage_inactive (w : Int) (env : damage_env) (dev : dlfb_dev)
    (x y width height : Int) (hact : dev.usb_active = 0) :
    ∃ ret, dlfb_handle_damage w env dev x y width height = some (ret, dev) ∧
      (ret = 0 ∨ ret = -EINVAL) ∧
      (ret = -EINVAL ↔
        (int32 (int32 width - int32 x) = 1024 ∧ int32 (int32 height - int32 y) = 768) ∧
        ((damage_align w (int32 x) (int32 width)).2 ≤ 0 ∨
          u32_of_int (int32 ((damage_align w (int32 x) (int32 width)).1 +
            (damage_align w (int32 x) (int32 width)).2)) > dev.xres ∨
          u32_of_int (int32 (int32 y + int32 height)) > dev.yres)) := by
  have hne : (-EINVAL : Int) ≠ 0 := by decide
  by_cases hgate : int32 (int32 width - int32 x) ≠ 1024 ∨
      int32 (int32 height - int32 y) ≠ 768
  · refine ⟨0, ?_, Or.inl rfl, ?_⟩
    · unfold dlfb_handle_damage
      simp only [if_pos hgate]
    · constructor
      · intro h
        exact absurd h.symm hne
      · rintro ⟨⟨h1, h2⟩, _⟩
        rcases hgate with hgate | hgate
        · exact absurd h1 hgate
        · exact absurd h2 hgate
  · have hg : int32 (int32 width - int32 x) = 1024 ∧
        int32 (int32 height - int32 y) = 768 := by
      constructor
      · by_contra hc
        exact hgate (Or.inl hc)
      · by_contra hc
        exact hgate (Or.inr hc)
    by_cases hcheck : (damage_align w (int32 x) (int32 width)).2 ≤ 0 ∨
          u32_of_int (int32 ((damage_align w (int32 x) (int32 width)).1 +
            (damage_align w (int32 x) (int32 width)).2)) > dev.xres ∨
          u32_of_int (int32 (int32 y + int32 height)) > dev.yres
    · refine ⟨-EINVAL, ?_, Or.inr rfl, ?_⟩
      · unfold dlfb_handle_damage
        simp only [if_neg hgate, if_pos hcheck]
      · exact ⟨fun _ => ⟨hg, hcheck⟩, fun _ => rfl⟩
    · refine ⟨0, ?_, Or.inl rfl, ?_⟩
      · unfold dlfb_handle_damage
        simp only [if_neg hgate, if_neg hcheck, hact, if_true]
      · constructor
        · intro h
          exact absurd h.symm hne
        · rintro ⟨_, h⟩
          exact absurd h hcheck

theorem dlfb_handle_damage_inactive_witness :
    dev_render_gone.usb_active = 0 ∧
    ∃ ret, dlfb_handle_damage 8 env_sample dev_render_gone 3 0 1027 768 =
        some (ret, dev_render_gone) ∧
      (ret = 0 ∨ ret = -EINVAL) ∧
      (ret = -EINVAL ↔
        (int32 (int32 1027 - int32 3) = 1024 ∧ int32 (int32 768 - int32 0) = 768) ∧
        ((damage_align 8 (int32 3) (int32 1027)).2 ≤ 0 ∨
          u32_of_int (int32 ((damage_align 8 (int32 3) (int32 1027)).1 +
            (damage_align 8 (int32 3) (int32 1027)).2)) > dev_render_gone.xres ∨
          u32_of_int (int32 (int32 0 + int32 768)) > dev_render_gone.yres)) :=
  ⟨by decide, dlfb_handle_damage_inactive 8 env_sample dev_render_gone 3 0 1027 768
    (by decide)⟩

/-- C15, the claim as stated fails: on the inactive 800x600 device the region at the origin
1024 pixels wide and 768 high makes `dlfb_handle_damage` return `-EINVAL`, not 0. -/
theorem dlfb_handle_damage_inactive_fails :
    dev_render_gone.usb_active = 0 ∧
    dlfb_handle_damage 8 env_sample dev_render_gone 0 0 1024 768 =
      some (-EINVAL, dev_render_gone) ∧
    (-EINVAL : Int) ≠ 0 :=
  ⟨by decide, rfl, by decide⟩

theorem damage_byte_offset_exact (line_length : Nat) (x i : Int) (hx : 0 ≤ x) (hi : 0 ≤ i)
    (hi2 : i ≤ 2147483647) (h : line_length * i + x * BPP ≤ 2147483647) :
    ((damage_byte_offset line_length x i : Nat) : Int) = line_length * i + x * BPP := by
  have hP0 : (0 : Int) ≤ line_length * i := mul_nonneg (Int.natCast_nonneg _) hi
  have hcast : ((line_length * i.toNat : Nat) : Int) = line_length * i := by
    rw [Nat.cast_mul, Int.toNat_of_nonneg hi]
  have hi3 : u32_of_int i = i.toNat := by
    unfold u32_of_int
    rw [Int.emod_eq_of_lt hi (by omega)]
  unfold BPP at h
  have hlt : line_length * i.toNat < 4294967296 := by
    have h1 : ((line_length * i.toNat : Nat) : Int) < 4294967296 := by
      rw [hcast]
      omega
    exact_mod_cast h1
  have hu : u32 (line_length * i.toNat) = line_length * i.toNat := Nat.mod_eq_of_lt hlt
  unfold damage_byte_offset BPP
  simp only [hi3, hu, hcast]
  rw [int32_of_range (line_length * i) (by omega) (by omega)]
  rw [int32_of_range (x * 2) (by omega) (by omega)]
  rw [int32_of_range (line_length * i + x * 2) (by omega) (by omega)]
  exact u32_of_int_of_range _ (by omega) (by omega)

/-- C16, as amended: the loop of `dlfb_handle_damage` increments `i` twice per pass, so a
transfer is issued for every second scan line only. For every region accepted on an active
device (`x, y >= 0`, the fixed dimensions, no overflow, inside the resolution, every
`kmalloc` succeeding) the call returns 0 and issues `(height + 1) / 2` transfers, in
increasing `i`, for `i = y, y + 2, ...` below `y + height`; the transfer for line `i` consists
of the two header bytes and the `width' * BPP * 2` bytes at source offset
`line_length * i + x' * BPP`, with `x'` and `width'` the aligned values. -/
theorem dlfb_handle_damage_transfers (w : Int) (env : damage_env) (dev : dlfb_dev)
    (x y width height : Int) (hw : 0 < w) (hx : 0 ≤ x) (hy : 0 ≤ y)
    (hgw : width - x = 1024) (hgh : height - y = 768)
    (hxo : 4 * (x + width + w) ≤ 2147483647) (hyo : y + height ≤ 2147483647)
    (hfx : (damage_align w x width).1 + (damage_align w x width).2 ≤ dev.xres)
    (hfy : y + height ≤ dev.yres) (hact : dev.usb_active ≠ 0)
    (hmem : ∀ k, env.kmalloc k = true) :
    ∃ dev', dlfb_handle_damage w env dev x y width height = some (0, dev') ∧
      dev'.bulk_out = dev.bulk_out ++
        (List.range ((height + 1) / 2).toNat).map (fun (k : Nat) =>
          ({ data := hline_payload dev.smem_start
               (damage_byte_offset dev.line_length (damage_align w x width).1
                 (y + 2 * (k : Int)))
               (damage_byte_width (damage_align w x width).2)
             transferred := env.transferred k } : bulk_transfer)) ∧
      ((damage_byte_width (damage_align w x width).2 : Nat) : Int) =
        (damage_align w x width).2 * BPP * 2 ∧
      ∀ (k : Nat), k < ((height + 1) / 2).toNat →
        dev.line_length * (y + 2 * (k : Int)) + (damage_align w x width).1 * BPP ≤ 2147483647 →
        ((damage_byte_offset dev.line_length (damage_align w x width).1
            (y + 2 * (k : Int)) : Nat) : Int) =
          dev.line_length * (y + 2 * (k : Int)) + (damage_align w x width).1 * BPP := by
  obtain ⟨_, _, b3, b4, b5, b6, b7⟩ :=
    damage_align_bounds w x width hw hx (by omega) (by omega)
  refine ⟨_, dlfb_handle_damage_accepted w env dev x y width height hw hx hy hgw hgh hxo hyo
    hfx hfy hact hmem, rfl, ?_, ?_⟩
  · exact damage_byte_width_exact _ (by omega) (by omega)
  · intro k hk hrep
    exact damage_byte_offset_exact _ _ _ b3 (by omega) (by omega) hrep

theorem dlfb_handle_damage_transfers_witness :
    (0 : Int) < 8 ∧ (0 : Int) ≤ 0 ∧ (0 : Int) ≤ 0 ∧ (1024 : Int) - 0 = 1024 ∧
    (768 : Int) - 0 = 768 ∧ 4 * ((0 : Int) + 1024 + 8) ≤ 2147483647 ∧
    (0 : Int) + 768 ≤ 2147483647 ∧
    (damage_align 8 0 1024).1 + (damage_align 8 0 1024).2 ≤ dev_render.xres ∧
    (0 : Int) + 768 ≤ dev_render.yres ∧ dev_render.usb_active ≠ 0 ∧
    (∀ k, env_sample.kmalloc k = true) ∧
    ∃ dev', dlfb_handle_damage 8 env_sample dev_render 0 0 1024 768 = some (0, dev') ∧
      dev'.bulk_out = dev_render.bulk_out ++
        (List.range (((768 : Int) + 1) / 2).toNat).map (fun (k : Nat) =>
          ({ data := hline_payload dev_render.smem_start
               (damage_byte_offset dev_render.line_length (damage_align 8 0 1024).1
                 (0 + 2 * (k : Int)))
               (damage_byte_width (damage_align 8 0 1024).2)
             transferred := env_sample.transferred k } : bulk_transfer)) ∧
      ((damage_byte_width (damage_align 8 0 1024).2 : Nat) : Int) =
        (damage_align 8 0 1024).2 * BPP * 2 ∧
      ∀ (k : Nat), k < (((768 : Int) + 1) / 2).toNat →
        dev_render.line_length * (0 + 2 * (k : Int)) + (damage_align 8 0 1024).1 * BPP ≤
          2147483647 →
        ((damage_byte_offset dev_render.line_length (damage_align 8 0 1024).1
            (0 + 2 * (k : Int)) : Nat) : Int) =
          dev_render.line_length * (0 + 2 * (k : Int)) + (damage_align 8 0 1024).1 * BPP :=
  ⟨by decide, by decide, by decide, by decide, by decide, by decide, by decide, by decide,
    by decide, by decide, fun _ => rfl,
    dlfb_handle_damage_transfers 8 env_sample dev_render 0 0 1024 768 (by decide) (by decide)
      (by decide) (by decide) (by decide) (by decide) (by decide) (by decide) (by decide)
      (by decide) (fun _ => rfl)⟩

/-- C16, the claim as stated fails: on the active 1024x768 device the full-screen region
(768 lines) is accepted and 384 transfers are issued, not 768; the second transfer is the
one of line 2, none being issued for line 1. -/
theorem dlfb_handle_damage_transfers_fails :
    ∃ dev', dlfb_handle_damage 8 env_sample dev_render 0 0 1024 768 = some (0, dev') ∧
      dev'.bulk_out.length = 384 ∧ (384 : Nat) ≠ 768 ∧
      (dev'.bulk_out[1]?).map (fun t => t.data.take 2) =
        some ((hline_payload dev_render.smem_start (2 * 2048) 4096).take 2) :=
  ⟨_, dlfb_handle_damage_accepted 8 env_sample dev_render 0 0 1024 768 (by decide) (by decide)
      (by decide) (by decide) (by decide) (by decide) (by decide) (by decide) (by decide)
      (by decide) (fun _ => rfl),
    by simp [dev_render], by decide, by
      have h384 : (((768 : Int) + 1) / 2).toNat = 384 := by decide
      simp only [h384]
      rw [List.getElem?_append_right (by simp [dev_render])]
      simp [dev_render]
      decide⟩

/-- C17: for every `u32` `byte_offset` and `byte_width`, `dlfb_render_hline` makes exactly
one bulk transfer and returns 0 when `kmalloc` succeeds and `byte_width + 2` fits a `u32`
(and has no result otherwise, the copy then running outside the buffer). The payload of that
transfer has length `byte_width + 2`; byte 0 is the low and byte 1 the high 8 bits of the
page index `(byte_offset / 4096) mod 2^16`, and bytes `2 .. byte_width + 1` are the source
bytes `front[byte_offset .. byte_offset + byte_width)`, in order. -/
theorem dlfb_render_hline_payload (kmalloc_ok : Bool) (transferred : Int) (dev : dlfb_dev)
    (front : Nat → Nat) (byte_offset byte_width : Nat) (ident sent : Int)
    (hoff : byte_offset < 4294967296) (hwidth : byte_width < 4294967296) :
    dlfb_render_hline kmalloc_ok transferred dev front byte_offset byte_width ident sent =
      (if kmalloc_ok = true ∧ byte_width + 2 < 4294967296 then
        some (0, ident, sent, { dev with
          bulk_out := dev.bulk_out ++
            [{ data := hline_payload front byte_offset byte_width
               transferred := transferred }] })
      else none) ∧
    (hline_payload front byte_offset byte_width).length = byte_width + 2 ∧
    (hline_payload front byte_offset byte_width)[0]? =
      some (byte_offset / 4096 % 65536 % 256) ∧
    (hline_payload front byte_offset byte_width)[1]? =
      some (byte_offset / 4096 % 65536 / 256) ∧
    ∀ j, j < byte_width →
      (hline_payload front byte_offset byte_width)[2 + j]? = some (front (byte_offset + j)) := by
  refine ⟨?_, hline_payload_length _ _ _, ?_, ?_, ?_⟩
  · by_cases hc : kmalloc_ok = true ∧ byte_width + 2 < 4294967296
    · rw [if_pos hc, hc.1]
      exact dlfb_render_hline_ok _ _ _ _ _ _ _ hoff hc.2
    · rw [if_neg hc]
      unfold dlfb_render_hline
      cases kmalloc_ok
      · simp
      · have h2 : u32 byte_width = byte_width := Nat.mod_eq_of_lt hwidth
        have h3 : u32 (2 + byte_width) < 2 + byte_width := by
          unfold u32
          have : ¬ byte_width + 2 < 4294967296 := fun h => hc ⟨rfl, h⟩
          omega
        simp only [h2, if_pos h3, Bool.true_eq_false, if_false]
  · simp [hline_payload, u8, u16]
  · simp only [hline_payload, u8, u16, Nat.shiftRight_eq_div_pow]
    simp
    omega
  · intro j hj
    simp only [hline_payload]
    rw [List.getElem?_append_right (by simp)]
    simp [hj]

theorem dlfb_render_hline_payload_witness :
    1056773 < 4294967296 ∧ 4 < 4294967296 ∧
    (dlfb_render_hline true 6 dev_render (fun j => j % 251) 1056773 4 0 0 =
      (if true = true ∧ 4 + 2 < 4294967296 then
        some (0, 0, 0, { dev_render with
          bulk_out := dev_render.bulk_out ++
            [{ data := hline_payload (fun j => j % 251) 1056773 4
               transferred := 6 }] })
      else none) ∧
    (hline_payload (fun j => j % 251) 1056773 4).length = 4 + 2 ∧
    (hline_payload (fun j => j % 251) 1056773 4)[0]? =
      some (1056773 / 4096 % 65536 % 256) ∧
    (hline_payload (fun j => j % 251) 1056773 4)[1]? =
      some (1056773 / 4096 % 65536 / 256) ∧
    ∀ j, j < 4 →
      (hline_payload (fun j => j % 251) 1056773 4)[2 + j]? =
        some ((fun j => j % 251) (1056773 + j))) :=
  ⟨by decide, by decide,
    dlfb_render_hline_payload true 6 dev_render (fun j => j % 251) 1056773 4 0 0 (by decide)
      (by decide)⟩

/-- C18: metrics of one accepted `dlfb_handle_damage` call on an active device. The counter
`bytes_rendered` grows by the aligned width times `height` times 2 and `bytes_identical` by
0, as specified; `bytes_sent` is left as it was, although the transfers of the call report
the byte counts `env.transferred k`: the statement `sent_ptr = transferred` of
`dlfb_render_hline` changes the pointer, not the caller's `bytes_sent`. When every transfer
reports a positive count, `bytes_sent` therefore differs from its old value plus the sum of
the reported counts. -/
theorem dlfb_handle_damage_metrics (w : Int) (env : damage_env) (dev : dlfb_dev)
    (x y width height : Int) (hw : 0 < w) (hx : 0 ≤ x) (hy : 0 ≤ y)
    (hgw : width - x = 1024) (hgh : height - y = 768)
    (hxo : 4 * (x + width + w) ≤ 2147483647) (hyo : y + height ≤ 2147483647)
    (hfx : (damage_align w x width).1 + (damage_align w x width).2 ≤ dev.xres)
    (hfy : y + height ≤ dev.yres) (hact : dev.usb_active ≠ 0)
    (hmem : ∀ k, env.kmalloc k = true)
    (hsent : -2147483648 ≤ dev.bytes_sent ∧ dev.bytes_sent ≤ 2147483647)
    (hident : -2147483648 ≤ dev.bytes_identical ∧ dev.bytes_identical ≤ 2147483647)
    (hrend : 0 ≤ dev.bytes_rendered ∧
      dev.bytes_rendered + (damage_align w x width).2 * height * 2 ≤ 2147483647)
    (hpos : ∀ k, 0 < env.transferred k) :
    ∃ dev', dlfb_handle_damage w env dev x y width height = some (0, dev') ∧
      dev'.bytes_rendered = dev.bytes_rendered + (damage_align w x width).2 * height * 2 ∧
      dev'.bytes_identical = dev.bytes_identical ∧
      dev'.bytes_sent = dev.bytes_sent ∧
      (dev'.bulk_out.drop dev.bulk_out.length).map (fun t => t.transferred) =
        (List.range ((height + 1) / 2).toNat).map env.transferred ∧
      dev'.bytes_sent ≠ dev.bytes_sent +
        ((dev'.bulk_out.drop dev.bulk_out.length).map (fun t => t.transferred)).sum := by
  obtain ⟨_, _, b3, b4, b5, b6, b7⟩ :=
    damage_align_bounds w x width hw hx (by omega) (by omega)
  have hP0 : 0 ≤ (damage_align w x width).2 * height :=
    mul_nonneg (le_of_lt b5) (by omega)
  have hlist : (List.drop dev.bulk_out.length (dev.bulk_out ++
      (List.range ((height + 1) / 2).toNat).map (fun (k : Nat) =>
        ({ data := hline_payload dev.smem_start
             (damage_byte_offset dev.line_length (damage_align w x width).1
               (y + 2 * (k : Int)))
             (damage_byte_width (damage_align w x width).2)
           transferred := env.transferred k } : bulk_transfer)))).map
        (fun t => t.transferred) =
      (List.range ((height + 1) / 2).toNat).map env.transferred := by
    rw [List.drop_left, List.map_map]
    rfl
  have hsum : 0 < ((List.range ((height + 1) / 2).toNat).map env.transferred).sum := by
    apply List.sum_pos
    · intro v hv
      obtain ⟨k, _, hk⟩ := List.mem_map.mp hv
      rw [← hk]
      exact hpos k
    · intro hnil
      have hlen := congrArg List.length hnil
      simp only [List.length_map, List.length_range, List.length_nil] at hlen
      omega
  refine ⟨_, dlfb_handle_damage_accepted w env dev x y width height hw hx hy hgw hgh hxo hyo
    hfx hfy hact hmem, ?_, ?_, ?_, hlist, ?_⟩
  · show int32 (dev.bytes_rendered +
        int32 (int32 ((damage_align w x width).2 * height) * 2)) = _
    rw [int32_of_range ((damage_align w x width).2 * height) (by omega) (by omega)]
    rw [int32_of_range ((damage_align w x width).2 * height * 2) (by omega) (by omega)]
    exact int32_of_range _ (by omega) (by omega)
  · show int32 (dev.bytes_identical + 0) = _
    rw [add_zero]
    exact int32_of_range _ hident.1 hident.2
  · show int32 (dev.bytes_sent + 0) = _
    rw [add_zero]
    exact int32_of_range _ hsent.1 hsent.2
  · show int32 (dev.bytes_sent + 0) ≠ _
    rw [hlist, add_zero, int32_of_range _ hsent.1 hsent.2]
    omega

theorem dlfb_handle_damage_metrics_witness :
    (0 : Int) < 8 ∧ (0 : Int) ≤ 0 ∧ (0 : Int) ≤ 0 ∧ (1024 : Int) - 0 = 1024 ∧
    (768 : Int) - 0 = 768 ∧ 4 * ((0 : Int) + 1024 + 8) ≤ 2147483647 ∧
    (0 : Int) + 768 ≤ 2147483647 ∧
    (damage_align 8 0 1024).1 + (damage_align 8 0 1024).2 ≤ dev_render.xres ∧
    (0 : Int) + 768 ≤ dev_render.yres ∧ dev_render.usb_active ≠ 0 ∧
    (∀ k, env_sample.kmalloc k = true) ∧
    (-2147483648 ≤ dev_render.bytes_sent ∧ dev_render.bytes_sent ≤ 2147483647) ∧
    (-2147483648 ≤ dev_render.bytes_identical ∧ dev_render.bytes_identical ≤ 2147483647) ∧
    (0 ≤ dev_render.bytes_rendered ∧
      dev_render.bytes_rendered + (damage_align 8 0 1024).2 * 768 * 2 ≤ 2147483647) ∧
    (∀ k, 0 < env_sample.transferred k) ∧
    ∃ dev', dlfb_handle_damage 8 env_sample dev_render 0 0 1024 768 = some (0, dev') ∧
      dev'.bytes_rendered = dev_render.bytes_rendered + (damage_align 8 0 1024).2 * 768 * 2 ∧
      dev'.bytes_identical = dev_render.bytes_identical ∧
      dev'.bytes_sent = dev_render.bytes_sent ∧
      (dev'.bulk_out.drop dev_render.bulk_out.length).map (fun t => t.transferred) =
        (List.range (((768 : Int) + 1) / 2).toNat).map env_sample.transferred ∧
      dev'.bytes_sent ≠ dev_render.bytes_sent +
        ((dev'.bulk_out.drop dev_render.bulk_out.length).map (fun t => t.transferred)).sum :=
  ⟨by decide, by decide, by decide, by decide, by decide, by decide, by decide, by decide,
    by decide, by decide, fun _ => rfl, by decide, by decide, by decide, fun _ => (by decide : (0 : Int) < 4098),
    dlfb_handle_damage_metrics 8 env_sample dev_render 0 0 1024 768 (by decide) (by decide)
      (by decide) (by decide) (by decide) (by decide) (by decide) (by decide) (by decide)
      (by decide) (fun _ => rfl) (by decide) (by decide) (by decide) (fun _ => (by decide : (0 : Int) < 4098))⟩

/-! ## The device lifecycle -/

theorem lifecycle_probe_inv (urbs_allocated : Int) (h : urbs_allocated ≠ 0)
    (s : dlfb_lifecycle) (hs : dlfb_usb_probe true true urbs_allocated = (0, some s)) :
    lifecycle_inv s := by
  simp only [dlfb_usb_probe, h, Bool.not_true, Bool.false_eq_true, if_false, Prod.mk.injEq,
    true_and, Option.some.injEq] at hs
  subst hs
  simp [lifecycle_inv, kref_get, kref_init, dlfb_lifecycle_zero]

theorem kref_put_inv (s : dlfb_lifecycle)
    (h1 : s.kref - 1 =
      2 + s.fb_count - (if s.virtualized then 1 else 0) - s.free_framebuffer_calls)
    (h2 : 0 ≤ s.fb_count)
    (h3 : s.free_framebuffer_calls ≤ 1 ∨ (s.virtualized = true ∧ s.fb_count = 0))
    (h4 : s.free_framebuffer_work = true → s.virtualized = true ∧ s.fb_count = 0)
    (h5 : s.init_framebuffer_work = true →
      s.free_framebuffer_calls = 0 ∨ (s.virtualized = true ∧ s.fb_count = 0))
    (h6 : 0 < s.dlfb_free_calls → s.virtualized = true ∧ s.fb_count = 0) :
    lifecycle_inv (kref_put s) := by
  refine ⟨h1, h2, h3, h4, h5, ?_⟩
  intro hf
  simp only [kref_put] at hf ⊢
  by_cases hk : s.kref - 1 = 0
  · rw [hk] at h1
    rcases h3 with h3 | h3
    · by_cases hv : s.virtualized = true
      · rw [if_pos hv] at h1
        exact ⟨hv, by omega⟩
      · rw [if_neg hv] at h1
        exfalso
        omega
    · exact h3
  · rw [if_neg hk] at hf
    exact h6 hf

theorem dlfb_free_framebuffer_eq (s : dlfb_lifecycle) :
    dlfb_free_framebuffer s =
      kref_put { s with info := false, free_framebuffer_calls := s.free_framebuffer_calls + 1 } := by
  obtain ⟨kref, fb, virt, act, usbdev, info, iw, fw, gets, puts, frees, ffc⟩ := s
  cases info <;> rfl

theorem free_framebuffer_inv (s : dlfb_lifecycle)
    (h1 : s.kref = 2 + s.fb_count - (if s.virtualized then 1 else 0) - s.free_framebuffer_calls)
    (h2 : 0 ≤ s.fb_count)
    (h3 : s.free_framebuffer_calls = 0 ∨ (s.virtualized = true ∧ s.fb_count = 0))
    (h4 : s.free_framebuffer_work = true → s.virtualized = true ∧ s.fb_count = 0)
    (h5 : s.init_framebuffer_work = false)
    (h6 : 0 < s.dlfb_free_calls → s.virtualized = true ∧ s.fb_count = 0) :
    lifecycle_inv (dlfb_free_framebuffer s) := by
  rw [dlfb_free_framebuffer_eq]
  apply kref_put_inv
  · simp only [h1]
    push_cast
    ring
  · exact h2
  · rcases h3 with h3 | h3
    · left
      simp only [h3]
      omega
    · exact Or.inr h3
  · exact h4
  · intro h
    simp only [h5] at h
    exact absurd h (by decide)
  · exact h6

theorem lifecycle_step_inv (console : Bool) (s s' : dlfb_lifecycle) (e : lifecycle_event)
    (hinv : lifecycle_inv s) (hstep : lifecycle_step console s e = some s') :
    lifecycle_inv s' := by
  obtain ⟨h1, h2, h3, h4, h5, h6⟩ := hinv
  cases e with
  | init_framebuffer_work outcome =>
    simp only [lifecycle_step] at hstep
    by_cases hq : s.init_framebuffer_work = true
    · rw [if_pos hq] at hstep
      simp only [Option.some.injEq] at hstep
      subst hstep
      cases outcome <;> simp only [dlfb_init_framebuffer_work]
      · exact free_framebuffer_inv _ h1 h2 (h5 hq) h4 rfl h6
      · exact free_framebuffer_inv _ h1 h2 (h5 hq) h4 rfl h6
      · exact free_framebuffer_inv _ h1 h2 (h5 hq) h4 rfl h6
      · exact free_framebuffer_inv _ h1 h2 (h5 hq) h4 rfl h6
      · exact ⟨h1, h2, h3, h4, fun h => Bool.noConfusion h, h6⟩
    · rw [if_neg hq] at hstep
      exact Option.noConfusion hstep
  | ops_open user =>
    simp only [lifecycle_step, Option.some.injEq] at hstep
    subst hstep
    simp only [dlfb_ops_open]
    split_ifs with ha hb
    · exact ⟨h1, h2, h3, h4, h5, h6⟩
    · exact ⟨h1, h2, h3, h4, h5, h6⟩
    · have hv : ¬ (s.virtualized = true ∧ s.fb_count = 0) := fun h => hb h.1
      refine ⟨?_, ?_, ?_, ?_, ?_, ?_⟩
      · simp only [kref_get, h1]
        ring
      · simp only [kref_get]
        omega
      · exact Or.inl (h3.resolve_right hv)
      · intro h
        exact absurd (h4 h) hv
      · intro h
        exact Or.inl ((h5 h).resolve_right hv)
      · intro h
        exact absurd (h6 h) hv
  | ops_release =>
    simp only [lifecycle_step] at hstep
    by_cases hpos : 0 < s.fb_count
    · rw [if_pos hpos] at hstep
      simp only [Option.some.injEq] at hstep
      subst hstep
      have hv : ¬ (s.virtualized = true ∧ s.fb_count = 0) := fun h => by omega
      simp only [dlfb_ops_release]
      split_ifs with hc
      · apply kref_put_inv
        · simp only [h1]
          ring
        · simp only
          omega
        · exact Or.inr hc
        · intro _
          exact hc
        · intro h
          exact Or.inr hc
        · intro h
          exact absurd (h6 h) hv
      · apply kref_put_inv
        · simp only [h1]
          ring
        · simp only
          omega
        · exact Or.inl (h3.resolve_right hv)
        · intro h
          exact absurd (h4 h) hv
        · intro h
          exact Or.inl ((h5 h).resolve_right hv)
        · intro h
          exact absurd (h6 h) hv
    · rw [if_neg hpos] at hstep
      exact Option.noConfusion hstep
  | usb_disconnect =>
    simp only [lifecycle_step] at hstep
    by_cases hvirt : s.virtualized = true
    · rw [if_pos hvirt] at hstep
      exact Option.noConfusion hstep
    · rw [if_neg hvirt] at hstep
      simp only [Option.some.injEq] at hstep
      subst hstep
      have hv : ¬ (s.virtualized = true ∧ s.fb_count = 0) := fun h => hvirt h.1
      rw [if_neg hvirt] at h1
      simp only [dlfb_usb_disconnect]
      split_ifs with hc
      · apply kref_put_inv
        · simp only [h1, if_true]
          ring
        · exact h2
        · exact Or.inr ⟨rfl, hc⟩
        · intro _
          exact ⟨rfl, hc⟩
        · intro _
          exact Or.inr ⟨rfl, hc⟩
        · intro _
          exact ⟨rfl, hc⟩
      · apply kref_put_inv
        · simp only [h1, if_true]
          ring
        · exact h2
        · exact Or.inl (h3.resolve_right hv)
        · intro h
          exact absurd (h4 h) hv
        · intro h
          exact Or.inl ((h5 h).resolve_right hv)
        · intro h
          exact absurd (h6 h) hv
  | free_framebuffer_work =>
    simp only [lifecycle_step] at hstep
    by_cases hq : s.free_framebuffer_work = true
    · rw [if_pos hq] at hstep
      simp only [Option.some.injEq] at hstep
      subst hstep
      obtain ⟨hv, hf⟩ := h4 hq
      rw [dlfb_free_framebuffer_work, dlfb_free_framebuffer_eq]
      apply kref_put_inv
      · simp only [h1]
        push_cast
        ring
      · exact h2
      · exact Or.inr ⟨hv, hf⟩
      · intro _
        exact ⟨hv, hf⟩
      · intro _
        exact Or.inr ⟨hv, hf⟩
      · intro _
        exact ⟨hv, hf⟩
    · rw [if_neg hq] at hstep
      exact Option.noConfusion hstep

theorem lifecycle_run_inv (console : Bool) (events : List lifecycle_event) :
    ∀ s s', lifecycle_inv s → lifecycle_run console s events = some s' → lifecycle_inv s' := by
  induction events with
  | nil =>
    intro s s' hinv hrun
    simp only [lifecycle_run, Option.some.injEq] at hrun
    subst hrun
    exact hinv
  | cons e es ih =>
    intro s s' hinv hrun
    simp only [lifecycle_run] at hrun
    cases hstep : lifecycle_step console s e with
    | none => simp [hstep] at hrun
    | some s1 =>
      simp only [hstep] at hrun
      exact ih s1 s' (lifecycle_step_inv console s s1 e hinv hstep) hrun

/-- C19: over the steps `dlfb_init_framebuffer_work`, `dlfb_ops_open`, `dlfb_ops_release`
(matching an earlier successful open), `dlfb_usb_disconnect` and
`dlfb_free_framebuffer_work`, started from the state a successful `dlfb_usb_probe` leaves, in
every state that is reached with `fb_count > 0` the reference count is greater than zero and
the release function `dlfb_free` has not run. -/
theorem lifecycle_kref_held_while_open (console : Bool) (urbs_allocated : Int)
    (s0 s : dlfb_lifecycle) (events : List lifecycle_event)
    (hprobe : dlfb_usb_probe true true urbs_allocated = (0, some s0))
    (hrun : lifecycle_run console s0 events = some s) (hopen : 0 < s.fb_count) :
    0 < s.kref ∧ s.dlfb_free_calls = 0 := by
  have hne : urbs_allocated ≠ 0 := by
    intro h
    subst h
    have h1 : (dlfb_usb_probe true true 0).1 = 0 := congrArg Prod.fst hprobe
    exact absurd h1 (by decide)
  obtain ⟨h1, h2, h3, _, _, h6⟩ :=
    lifecycle_run_inv console events s0 s (lifecycle_probe_inv urbs_allocated hne s0 hprobe) hrun
  have hf : s.free_framebuffer_calls ≤ 1 := by
    rcases h3 with h3 | ⟨_, h3⟩
    · exact h3
    · omega
  refine ⟨?_, ?_⟩
  · split_ifs at h1 <;> omega
  · by_contra hc
    have := (h6 (Nat.pos_of_ne_zero hc)).2
    omega

theorem lifecycle_kref_held_while_open_witness :
    ∃ s, dlfb_usb_probe true true 4 = (0, some lifecycle_probed) ∧
      lifecycle_run true lifecycle_probed
        [.init_framebuffer_work .registered, .ops_open 1, .ops_open 1, .usb_disconnect,
          .ops_release] = some s ∧
      0 < s.fb_count ∧ (0 < s.kref ∧ s.dlfb_free_calls = 0) :=
  ⟨_, rfl, rfl, by decide,
    lifecycle_kref_held_while_open true 4 lifecycle_probed _
      [.init_framebuffer_work .registered, .ops_open 1, .ops_open 1, .usb_disconnect,
        .ops_release] rfl rfl (by decide)⟩

/-- C20: the error exit of `dlfb_usb_probe` calls `kref_put` twice when only `kref_init` has
run, the `kref_get` of line 1729 not being reached: with a failed `dlfb_video_init`, or an
unrecognised vendor descriptor, the device ends with two `kref_put` calls, no `kref_get`
call, the release function run at the first of the two, and a count of -1. After a
successful probe, a `dlfb_init_framebuffer_work` that fails in `dlfb_setup_modes`, then the
disconnect, then the free work it queued, make three `kref_put` calls for one `kref_get`,
the third after the release function has run. -/
theorem dlfb_usb_probe_error_exit_puts :
    (∃ s, dlfb_usb_probe true true 0 = (-ENOMEM, some s) ∧ s.kref_gets = 0 ∧
      s.kref_puts = 2 ∧ s.dlfb_free_calls = 1 ∧ s.kref = -1 ∧
      ¬ s.kref_puts ≤ 1 + s.kref_gets) ∧
    (∃ s, dlfb_usb_probe true false 4 = (-ENOMEM, some s) ∧ s.kref_gets = 0 ∧
      s.kref_puts = 2 ∧ s.dlfb_free_calls = 1 ∧ s.kref = -1 ∧
      ¬ s.kref_puts ≤ 1 + s.kref_gets) ∧
    (∃ s, lifecycle_run true lifecycle_probed
        [.init_framebuffer_work .setup_modes_failed, .usb_disconnect,
          .free_framebuffer_work] = some s ∧
      s.kref_gets = 1 ∧ s.kref_puts = 3 ∧ s.dlfb_free_calls = 1 ∧ s.kref = -1 ∧
      ¬ s.kref_puts ≤ 1 + s.kref_gets) :=
  ⟨⟨_, rfl, rfl, rfl, rfl, rfl, by decide⟩, ⟨_, rfl, rfl, rfl, rfl, rfl, by decide⟩,
    ⟨_, rfl, rfl, rfl, rfl, rfl, by decide⟩⟩

/-! ## The pool and the `BUG_ON` of `dlfb_get_urb` -/

/-- C28: the `BUG_ON` of `dlfb_get_urb` is unreachable. In every pool state reached from
`dlfb_alloc_urb_list` by `dlfb_get_urb` calls, completions of slots in flight and runs of the
delayed release work, the semaphore count is at most the number of slots on the available
list, which equals `available`; so when the semaphore count is not zero the list is not
empty, and `dlfb_get_urb` returns (a slot, or `NULL` after the time-out) without hitting the
`BUG_ON`. -/
theorem dlfb_get_urb_bug_on_unreachable (mem : alloc_results) (dev : dlfb_data) (count : Int)
    (size : Nat) (fb_defio : Bool) (events : List pool_event) (s : pool_state)
    (hrun : pool_run fb_defio (pool_init mem dev count size) events = some s) :
    s.dev.urbs.limit_sem ≤ s.dev.urbs.list.length ∧
    s.dev.urbs.available = s.dev.urbs.list.length ∧
    (s.dev.urbs.limit_sem = 0 ∨ s.dev.urbs.list ≠ []) ∧
    (dlfb_get_urb s.dev).isSome = true ∧
    (pool_step fb_defio s .get_urb).isSome = true := by
  obtain ⟨h1, -, -, -, -, h6⟩ :=
    pool_run_inv fb_defio events _ s (pool_init_inv mem dev count size) hrun
  have hle : s.dev.urbs.limit_sem ≤ s.dev.urbs.list.length := by omega
  have hget : (dlfb_get_urb s.dev).isSome = true := by
    unfold dlfb_get_urb
    by_cases hsem : s.dev.urbs.limit_sem = 0
    · rw [if_pos hsem]
      rfl
    · rw [if_neg hsem]
      cases hl : s.dev.urbs.list with
      | nil =>
        rw [hl] at hle
        simp only [List.length_nil] at hle
        omega
      | cons x rest => simp [hl]
  refine ⟨hle, h1, ?_, hget, ?_⟩
  · by_cases hsem : s.dev.urbs.limit_sem = 0
    · exact Or.inl hsem
    · right
      intro hl
      rw [hl] at hle
      simp only [List.length_nil] at hle
      omega
  · simp only [pool_step]
    cases hg : dlfb_get_urb s.dev with
    | none => simp [hg] at hget
    | some r =>
      obtain ⟨r1, r2⟩ := r
      cases r1 <;> rfl

theorem dlfb_get_urb_bug_on_unreachable_witness :
    ∃ s, pool_run true (pool_init alloc_all dev_fresh 4 65024)
        [.get_urb, .get_urb, .get_urb, .get_urb, .urb_completion 2 0] = some s ∧
      (s.dev.urbs.limit_sem ≤ s.dev.urbs.list.length ∧
      s.dev.urbs.available = s.dev.urbs.list.length ∧
      (s.dev.urbs.limit_sem = 0 ∨ s.dev.urbs.list ≠ []) ∧
      (dlfb_get_urb s.dev).isSome = true ∧
      (pool_step true s .get_urb).isSome = true) :=
  ⟨_, rfl, dlfb_get_urb_bug_on_unreachable alloc_all dev_fresh 4 65024 true
    [.get_urb, .get_urb, .get_urb, .get_urb, .urb_completion 2 0] _ rfl⟩

/-! ## The dimension test and the loop of `dlfb_handle_damage` -/

theorem dlfb_handle_damage_accepted_signed (w : Int) (env : damage_env) (dev : dlfb_dev)
    (x y width height : Int) (hw : 0 < w) (hx : 0 ≤ x)
    (hgw : width - x = 1024) (hgh : height - y = 768)
    (hxo : 4 * (x + width + w) ≤ 2147483647) (hyh : 0 ≤ y + height)
    (hyo : y + height ≤ 2147483647)
    (hfx : (damage_align w x width).1 + (damage_align w x width).2 ≤ dev.xres)
    (hfy : y + height ≤ dev.yres) (hact : dev.usb_active ≠ 0)
    (hmem : ∀ k, env.kmalloc k = true) :
    dlfb_handle_damage w env dev x y width height =
      some (0, { dev with
        bulk_out := dev.bulk_out ++
          (List.range ((y + height - y + 1) / 2).toNat).map (fun (k : Nat) =>
            ({ data := hline_payload dev.smem_start
                 (damage_byte_offset dev.line_length (damage_align w x width).1
                   (y + 2 * (k : Int)))
                 (damage_byte_width (damage_align w x width).2)
               transferred := env.transferred k } : bulk_transfer))
        bytes_sent := int32 (dev.bytes_sent + 0)
        bytes_identical := int32 (dev.bytes_identical + 0)
        bytes_rendered := int32 (dev.bytes_rendered +
          int32 (int32 ((damage_align w x width).2 * height) * 2))
        cpu_kcycles_used := int32 (dev.cpu_kcycles_used + env.kcycles) }) := by
  obtain ⟨_, _, b3, b4, b5, b6, b7⟩ :=
    damage_align_bounds w x width hw hx (by omega) (by omega)
  have ex : int32 x = x := int32_of_range x (by omega) (by omega)
  have ey : int32 y = y := int32_of_range y (by omega) (by omega)
  have ew : int32 width = width := int32_of_range width (by omega) (by omega)
  have eh : int32 height = height := int32_of_range height (by omega) (by omega)
  have eg1 : int32 (width - x) = 1024 := by rw [hgw]; decide
  have eg2 : int32 (height - y) = 768 := by rw [hgh]; decide
  have es : int32 ((damage_align w x width).1 + (damage_align w x width).2) =
      (damage_align w x width).1 + (damage_align w x width).2 :=
    int32_of_range _ (by omega) (by omega)
  have eyh : int32 (y + height) = y + height := int32_of_range _ (by omega) (by omega)
  have c1 : ¬ (damage_align w x width).2 ≤ 0 := by omega
  have c2 : ¬ u32_of_int ((damage_align w x width).1 + (damage_align w x width).2) >
      dev.xres := by
    have := u32_of_int_of_range ((damage_align w x width).1 + (damage_align w x width).2)
      (by omega) (by omega)
    omega
  have c3 : ¬ u32_of_int (y + height) > dev.yres := by
    have := u32_of_int_of_range (y + height) (by omega) (by omega)
    omega
  have hbw : damage_byte_width (damage_align w x width).2 + 2 < 4294967296 := by
    have := damage_byte_width_exact (damage_align w x width).2 (by omega) (by omega)
    unfold BPP at this
    omega
  have hloop := dlfb_handle_damage_loop_spec env (damage_align w x width).1
    (damage_align w x width).2 (y + height) hmem hbw (by omega)
    (y + height - y).toNat 0 y 0 0 dev (by omega) (by omega)
  unfold dlfb_handle_damage
  simp only [ex, ey, ew, eh, eg1, eg2, es, eyh, c1, c2, c3, hact, ne_eq, not_true_eq_false,
    or_self, if_false, hloop, zero_add]

theorem dlfb_render_hline_usb_active (kmalloc_ok : Bool) (transferred : Int) (dev : dlfb_dev)
    (front : Nat → Nat) (byte_offset byte_width : Nat) (ident sent : Int) (a : Int) :
    dlfb_render_hline kmalloc_ok transferred { dev with usb_active := a } front byte_offset
        byte_width ident sent =
      (dlfb_render_hline kmalloc_ok transferred dev front byte_offset byte_width ident
        sent).map (fun r => (r.1, r.2.1, r.2.2.1, { r.2.2.2 with usb_active := a })) := by
  unfold dlfb_render_hline
  simp only
  split_ifs <;> rfl

/-- C26: full-screen render with two lines per transfer. On an active device with
`xres = 1024`, `yres = 768` and `line_length = 2048` (and `BPP = 2`, word size 4 or 8, every
`kmalloc` succeeding), `dlfb_handle_damage(x = 0, y = 0, width = 1024, height = 768)` returns
0 after exactly 384 transfers; the `k`-th one (`k = 0..383`) has `byte_offset = 4096 * k` and
`byte_width = 4096`, so its payload is the page index `k` (low byte, high byte) followed by
the 4096 source bytes from `4096 * k`; the 384 source ranges are pairwise disjoint and cover
exactly the frame bytes `[0, 1024 * 768 * 2)`. -/
theorem dlfb_handle_damage_full_screen (w : Int) (env : damage_env) (dev : dlfb_dev)
    (hw : w = 4 ∨ w = 8) (hxres : dev.xres = 1024) (hyres : dev.yres = 768)
    (hll : dev.line_length = 2048) (hact : dev.usb_active ≠ 0)
    (hmem : ∀ k, env.kmalloc k = true) :
    ∃ dev', dlfb_handle_damage w env dev 0 0 1024 768 = some (0, dev') ∧
      dev'.bulk_out = dev.bulk_out ++
        (List.range 384).map (fun (k : Nat) =>
          ({ data := hline_payload dev.smem_start (4096 * k) 4096
             transferred := env.transferred k } : bulk_transfer)) ∧
      damage_align w 0 1024 = (0, 1024) ∧
      damage_byte_width 1024 = 4096 ∧
      (∀ (k : Nat), k < 384 →
        damage_byte_offset dev.line_length 0 (0 + 2 * (k : Int)) = 4096 * k ∧
        (hline_payload dev.smem_start (4096 * k) 4096).length = 4096 + 2 ∧
        (hline_payload dev.smem_start (4096 * k) 4096).take 2 = [k % 256, k / 256] ∧
        (hline_payload dev.smem_start (4096 * k) 4096).drop 2 =
          (List.range 4096).map (fun j => dev.smem_start (4096 * k + j)) ∧
        4096 * k + 4096 ≤ 1024 * 768 * 2) ∧
      (∀ (b : Nat), b < 1024 * 768 * 2 →
        ∃ k, k < 384 ∧ 4096 * k ≤ b ∧ b < 4096 * k + 4096 ∧
          ∀ j, j < 384 → 4096 * j ≤ b → b < 4096 * j + 4096 → j = k) := by
  have hal : damage_align w 0 1024 = (0, 1024) := by
    rcases hw with hw | hw <;> subst hw <;> decide
  have hbw : damage_byte_width 1024 = 4096 := by decide
  have hoff : ∀ (k : Nat), k < 384 →
      damage_byte_offset dev.line_length 0 (0 + 2 * (k : Int)) = 4096 * k := by
    intro k hk
    have h := damage_byte_offset_exact dev.line_length 0 (0 + 2 * (k : Int)) (by omega)
      (by omega) (by omega) (by rw [hll]; unfold BPP; push_cast; omega)
    rw [hll] at h
    unfold BPP at h
    push_cast at h
    rw [hll]
    omega
  have hacc := dlfb_handle_damage_accepted w env dev 0 0 1024 768
    (by rcases hw with hw | hw <;> omega) (by omega) (by omega) (by omega) (by omega)
    (by rcases hw with hw | hw <;> omega) (by omega)
    (by rw [hal, hxres]; decide) (by rw [hyres]; decide) hact hmem
  have h384 : (((768 : Int) + 1) / 2).toNat = 384 := by decide
  rw [hal, h384] at hacc
  have hmap : (List.range 384).map (fun (k : Nat) =>
      ({ data := hline_payload dev.smem_start
           (damage_byte_offset dev.line_length (0, (1024 : Int)).1 (0 + 2 * (k : Int)))
           (damage_byte_width (0, (1024 : Int)).2)
         transferred := env.transferred k } : bulk_transfer)) =
      (List.range 384).map (fun (k : Nat) =>
        ({ data := hline_payload dev.smem_start (4096 * k) 4096
           transferred := env.transferred k } : bulk_transfer)) := by
    apply List.map_congr_left
    intro k hk
    have hk' : k < 384 := List.mem_range.1 hk
    simp only [hoff k hk', hbw]
  rw [hmap] at hacc
  refine ⟨_, hacc, rfl, hal, hbw, ?_, ?_⟩
  · intro k hk
    refine ⟨hoff k hk, hline_payload_length _ _ _, ?_, ?_, by omega⟩
    · have h1 : 4096 * k / 4096 = k := by omega
      simp only [hline_payload, u8, u16, Nat.shiftRight_eq_div_pow, h1, List.cons_append,
        List.nil_append, List.take_succ_cons, List.take_zero]
      have h2 : k % 65536 % 256 = k % 256 := by omega
      have h3 : k % 65536 / 2 ^ 8 % 256 = k / 256 := by omega
      rw [h2, h3]
    · simp only [hline_payload, List.cons_append, List.nil_append, List.drop_succ_cons,
        List.drop_zero]
  · intro b hb
    refine ⟨b / 4096, by omega, by omega, by omega, ?_⟩
    intro j _ h1 h2
    omega

theorem dlfb_handle_damage_full_screen_witness :
    ((8 : Int) = 4 ∨ (8 : Int) = 8) ∧ dev_render.xres = 1024 ∧ dev_render.yres = 768 ∧
    dev_render.line_length = 2048 ∧ dev_render.usb_active ≠ 0 ∧
    (∀ k, env_sample.kmalloc k = true) ∧
    ∃ dev', dlfb_handle_damage 8 env_sample dev_render 0 0 1024 768 = some (0, dev') ∧
      dev'.bulk_out = dev_render.bulk_out ++
        (List.range 384).map (fun (k : Nat) =>
          ({ data := hline_payload dev_render.smem_start (4096 * k) 4096
             transferred := env_sample.transferred k } : bulk_transfer)) ∧
      damage_align 8 0 1024 = (0, 1024) ∧
      damage_byte_width 1024 = 4096 ∧
      (∀ (k : Nat), k < 384 →
        damage_byte_offset dev_render.line_length 0 (0 + 2 * (k : Int)) = 4096 * k ∧
        (hline_payload dev_render.smem_start (4096 * k) 4096).length = 4096 + 2 ∧
        (hline_payload dev_render.smem_start (4096 * k) 4096).take 2 = [k % 256, k / 256] ∧
        (hline_payload dev_render.smem_start (4096 * k) 4096).drop 2 =
          (List.range 4096).map (fun j => dev_render.smem_start (4096 * k + j)) ∧
        4096 * k + 4096 ≤ 1024 * 768 * 2) ∧
      (∀ (b : Nat), b < 1024 * 768 * 2 →
        ∃ k, k < 384 ∧ 4096 * k ≤ b ∧ b < 4096 * k + 4096 ∧
          ∀ j, j < 384 → 4096 * j ≤ b → b < 4096 * j + 4096 → j = k) :=
  ⟨by decide, rfl, rfl, rfl, by decide, fun _ => rfl,
    dlfb_handle_damage_full_screen 8 env_sample dev_render (by decide) rfl rfl rfl (by decide)
      (fun _ => rfl)⟩

/-! ## Scheduling of the teardown and the transport handle -/

theorem lifecycle_run_scheduled_fst (console : Bool) (events : List lifecycle_event) :
    ∀ s, (lifecycle_run_scheduled console s events).map Prod.fst =
      lifecycle_run console s events := by
  induction events with
  | nil =>
    intro s
    rfl
  | cons e es ih =>
    intro s
    simp only [lifecycle_run_scheduled, lifecycle_run]
    cases hstep : lifecycle_step console s e with
    | none => rfl
    | some t =>
      simp only
      rw [← ih t]
      cases lifecycle_run_scheduled console t es with
      | none => rfl
      | some r => rfl

theorem lifecycle_step_scheduled (console : Bool) (s t : dlfb_lifecycle) (e : lifecycle_event)
    (hfb : 0 ≤ s.fb_count)
    (hq : s.free_framebuffer_work = true → s.virtualized = true ∧ s.fb_count = 0)
    (hstep : lifecycle_step console s e = some t) :
    0 ≤ t.fb_count ∧
    (t.free_framebuffer_work = true → t.virtualized = true ∧ t.fb_count = 0) ∧
    (free_work_scheduled s t = true →
      ¬ (s.virtualized = true ∧ s.fb_count = 0) ∧ (t.virtualized = true ∧ t.fb_count = 0)) ∧
    (free_work_scheduled s t = false →
      ((t.virtualized = true ∧ t.fb_count = 0) ↔ (s.virtualized = true ∧ s.fb_count = 0))) := by
  obtain ⟨kref, fb_count, virtualized, usb_active, usbdev, info, iw, fw, g, p, f, c⟩ := s
  simp only at hfb hq
  cases e with
  | init_framebuffer_work outcome =>
    simp only [lifecycle_step] at hstep
    cases iw with
    | false => simp at hstep
    | true =>
      simp only [if_true, Option.some.injEq] at hstep
      subst hstep
      cases outcome <;> cases fw <;> cases info <;>
        simp [dlfb_init_framebuffer_work, dlfb_free_framebuffer, kref_put,
          free_work_scheduled, hfb] at hq ⊢ <;> exact hq
  | ops_open user =>
    simp only [lifecycle_step, Option.some.injEq] at hstep
    subst hstep
    simp only [dlfb_ops_open]
    split_ifs with h1 h2
    · cases fw with
      | false => simp [free_work_scheduled, hfb]
      | true =>
        simp [free_work_scheduled, hfb] at hq ⊢
        exact hq
    · cases fw with
      | false => simp [free_work_scheduled, hfb]
      | true =>
        simp [free_work_scheduled, hfb] at hq ⊢
        exact hq
    · have hv : virtualized = false := by simpa using h2
      subst hv
      cases fw
      · simp [kref_get, free_work_scheduled]
        omega
      · simp at hq
  | ops_release =>
    simp only [lifecycle_step] at hstep
    by_cases hpos : 0 < fb_count
    · simp only [if_pos hpos, Option.some.injEq] at hstep
      subst hstep
      have hfw : fw = false := by
        cases fw
        · rfl
        · have := (hq rfl).2
          omega
      subst hfw
      simp only [dlfb_ops_release]
      by_cases hc : virtualized = true ∧ fb_count - 1 = 0
      · simp only [hc, and_self, if_true]
        simp [kref_put, free_work_scheduled, hc.1, hc.2]
        omega
      · simp only [if_neg hc]
        simp [kref_put, free_work_scheduled]
        exact ⟨by omega, fun hv => ⟨fun h0 => absurd ⟨hv, h0⟩ hc, fun h0 => by omega⟩⟩
    · simp only [if_neg hpos] at hstep
      exact Option.noConfusion hstep
  | usb_disconnect =>
    simp only [lifecycle_step] at hstep
    cases virtualized with
    | true => simp at hstep
    | false =>
      simp only [Bool.false_eq_true, if_false, Option.some.injEq] at hstep
      subst hstep
      have hfw : fw = false := by
        cases fw
        · rfl
        · simp at hq
      subst hfw
      simp only [dlfb_usb_disconnect]
      by_cases h0 : fb_count = 0
      · simp [h0, kref_put, free_work_scheduled]
      · simp [h0, kref_put, free_work_scheduled, hfb]
  | free_framebuffer_work =>
    simp only [lifecycle_step] at hstep
    cases fw with
    | false => simp at hstep
    | true =>
      simp only [if_true, Option.some.injEq] at hstep
      subst hstep
      cases info <;>
        simp [dlfb_free_framebuffer_work, dlfb_free_framebuffer, kref_put,
          free_work_scheduled, hfb] at hq ⊢

theorem lifecycle_run_scheduled_once (console : Bool) (events : List lifecycle_event) :
    ∀ (s r : dlfb_lifecycle) (n : Nat), 0 ≤ s.fb_count →
      (s.free_framebuffer_work = true → s.virtualized = true ∧ s.fb_count = 0) →
      lifecycle_run_scheduled console s events = some (r, n) →
      ((s.virtualized = true ∧ s.fb_count = 0) →
        n = 0 ∧ (r.virtualized = true ∧ r.fb_count = 0)) ∧
      (¬ (s.virtualized = true ∧ s.fb_count = 0) →
        n ≤ 1 ∧ (n = 1 ↔ (r.virtualized = true ∧ r.fb_count = 0))) := by
  induction events with
  | nil =>
    intro s r n _ _ hrun
    simp only [lifecycle_run_scheduled, Option.some.injEq, Prod.mk.injEq] at hrun
    obtain ⟨h1, h2⟩ := hrun
    subst h1
    subst h2
    refine ⟨fun h => ⟨rfl, h⟩, fun h => ⟨by omega, ?_⟩⟩
    constructor
    · intro h0
      omega
    · intro hd
      exact absurd hd h
  | cons e es ih =>
    intro s r n hfb hq hrun
    simp only [lifecycle_run_scheduled] at hrun
    cases hstep : lifecycle_step console s e with
    | none => simp [hstep] at hrun
    | some t =>
      simp only [hstep] at hrun
      cases hrest : lifecycle_run_scheduled console t es with
      | none => simp [hrest] at hrun
      | some rm =>
        obtain ⟨r', m⟩ := rm
        simp only [hrest, Option.some.injEq, Prod.mk.injEq] at hrun
        obtain ⟨hr, hn⟩ := hrun
        subst hr
        obtain ⟨t1, t2, t3, t4⟩ := lifecycle_step_scheduled console s t e hfb hq hstep
        obtain ⟨i1, i2⟩ := ih t r' m t1 t2 hrest
        cases hsch : free_work_scheduled s t with
        | true =>
          obtain ⟨hs, ht⟩ := t3 hsch
          obtain ⟨hm, hr⟩ := i1 ht
          simp only [hsch, if_true] at hn
          refine ⟨fun h => absurd h hs, fun _ => ⟨by omega, ?_⟩⟩
          constructor
          · intro _
            exact hr
          · intro _
            omega
        | false =>
          have hiff := t4 hsch
          simp only [hsch, Bool.false_eq_true, if_false, Nat.add_zero] at hn
          subst hn
          refine ⟨fun h => i1 (hiff.2 h), fun h => i2 (fun ht => h (hiff.1 ht))⟩

theorem lifecycle_probe_state (urbs_allocated : Int) (s0 : dlfb_lifecycle)
    (hprobe : dlfb_usb_probe true true urbs_allocated = (0, some s0)) :
    s0 = { dlfb_lifecycle_zero with
      kref := 2
      usbdev := true
      init_framebuffer_work := true
      kref_gets := 1 } := by
  have hne : urbs_allocated ≠ 0 := by
    intro h
    subst h
    have h1 : (dlfb_usb_probe true true 0).1 = 0 := congrArg Prod.fst hprobe
    exact absurd h1 (by decide)
  simp only [dlfb_usb_probe, hne, Bool.not_true, Bool.false_eq_true, if_false, Prod.mk.injEq,
    true_and, Option.some.injEq] at hprobe
  subst hprobe
  rfl

/-- C21, as amended: `dlfb_ops_release` returns 0, decrements `fb_count` by one and queues
`free_framebuffer_work` exactly when afterwards `fb_count = 0` and the device is virtualized;
`dlfb_usb_disconnect` sets `usb_active = 0` and `virtualized = true`, leaves `fb_count` and
queues `free_framebuffer_work` exactly when `fb_count = 0`; once the device is virtualized,
`dlfb_ops_open` fails and changes nothing, with `-EBUSY` for a console open (`user = 0`)
while the option `console` is off and with `-ENODEV` otherwise. Hence in every run of opens,
matching releases, one disconnect and runs of the queued work after a successful bring-up,
the teardown work is queued at most once, and it has been queued exactly once when the
device is disconnected with no open client, and not at all otherwise. -/
theorem teardown_scheduled_once (console : Bool) (dev : dlfb_lifecycle) (user : Int)
    (urbs_allocated : Int) (s0 s : dlfb_lifecycle) (events : List lifecycle_event) (n : Nat)
    (hprobe : dlfb_usb_probe true true urbs_allocated = (0, some s0))
    (hrun : lifecycle_run_scheduled console (dlfb_init_framebuffer_work .registered s0) events =
      some (s, n)) :
    (dlfb_ops_release dev).1 = 0 ∧
    (dlfb_ops_release dev).2.fb_count = dev.fb_count - 1 ∧
    (dlfb_ops_release dev).2.free_framebuffer_work =
      (dev.free_framebuffer_work || (dev.virtualized && decide (dev.fb_count - 1 = 0))) ∧
    (dlfb_usb_disconnect dev).usb_active = 0 ∧
    (dlfb_usb_disconnect dev).virtualized = true ∧
    (dlfb_usb_disconnect dev).fb_count = dev.fb_count ∧
    (dlfb_usb_disconnect dev).free_framebuffer_work =
      (dev.free_framebuffer_work || decide (dev.fb_count = 0)) ∧
    dlfb_ops_open console { dev with virtualized := true } user =
      (if user = 0 ∧ console = false then -EBUSY else -ENODEV,
        { dev with virtualized := true }) ∧
    lifecycle_run console (dlfb_init_framebuffer_work .registered s0) events = some s ∧
    n ≤ 1 ∧ (n = 1 ↔ (s.virtualized = true ∧ s.fb_count = 0)) := by
  have hs0 := lifecycle_probe_state urbs_allocated s0 hprobe
  subst hs0
  have hfst := lifecycle_run_scheduled_fst console events
    (dlfb_init_framebuffer_work .registered { dlfb_lifecycle_zero with
      kref := 2
      usbdev := true
      init_framebuffer_work := true
      kref_gets := 1 })
  rw [hrun] at hfst
  obtain ⟨-, h2⟩ := lifecycle_run_scheduled_once console events _ s n (by decide)
    (by decide) hrun
  obtain ⟨hn1, hn2⟩ := h2 (by decide)
  refine ⟨rfl, ?_, ?_, ?_, ?_, ?_, ?_, ?_, hfst.symm, hn1, hn2⟩
  · simp only [dlfb_ops_release]
    split_ifs <;> rfl
  · simp only [dlfb_ops_release]
    by_cases hc : dev.virtualized = true ∧ dev.fb_count - 1 = 0
    · simp [hc, kref_put]
    · rw [if_neg hc]
      simp only [kref_put]
      cases hv : dev.virtualized
      · simp
      · have h0 : ¬ dev.fb_count - 1 = 0 := fun h => hc ⟨hv, h⟩
        simp [h0]
  · simp only [dlfb_usb_disconnect]
    split_ifs <;> rfl
  · simp only [dlfb_usb_disconnect]
    split_ifs <;> rfl
  · simp only [dlfb_usb_disconnect]
    split_ifs <;> rfl
  · simp only [dlfb_usb_disconnect]
    by_cases h0 : dev.fb_count = 0
    · simp [h0, kref_put]
    · simp [h0, kref_put]
  · simp only [dlfb_ops_open]
    split_ifs <;> rfl

theorem teardown_scheduled_once_witness :
    ∃ s n, dlfb_usb_probe true true 4 = (0, some lifecycle_probed) ∧
      lifecycle_run_scheduled true (dlfb_init_framebuffer_work .registered lifecycle_probed)
        [.ops_open 1, .ops_open 1, .ops_release, .usb_disconnect, .ops_open 1, .ops_release,
          .free_framebuffer_work] = some (s, n) ∧
      n = 1 ∧ s.fb_count = 0 ∧
      ((dlfb_ops_release lifecycle_up).1 = 0 ∧
      (dlfb_ops_release lifecycle_up).2.fb_count = lifecycle_up.fb_count - 1 ∧
      (dlfb_ops_release lifecycle_up).2.free_framebuffer_work =
        (lifecycle_up.free_framebuffer_work ||
          (lifecycle_up.virtualized && decide (lifecycle_up.fb_count - 1 = 0))) ∧
      (dlfb_usb_disconnect lifecycle_up).usb_active = 0 ∧
      (dlfb_usb_disconnect lifecycle_up).virtualized = true ∧
      (dlfb_usb_disconnect lifecycle_up).fb_count = lifecycle_up.fb_count ∧
      (dlfb_usb_disconnect lifecycle_up).free_framebuffer_work =
        (lifecycle_up.free_framebuffer_work || decide (lifecycle_up.fb_count = 0)) ∧
      dlfb_ops_open true { lifecycle_up with virtualized := true } 1 =
        (if (1 : Int) = 0 ∧ true = false then -EBUSY else -ENODEV,
          { lifecycle_up with virtualized := true }) ∧
      lifecycle_run true (dlfb_init_framebuffer_work .registered lifecycle_probed)
        [.ops_open 1, .ops_open 1, .ops_release, .usb_disconnect, .ops_open 1, .ops_release,
          .free_framebuffer_work] = some s ∧
      n ≤ 1 ∧ (n = 1 ↔ (s.virtualized = true ∧ s.fb_count = 0))) :=
  ⟨_, _, rfl, rfl, rfl, rfl,
    teardown_scheduled_once true lifecycle_up 1 4 lifecycle_probed _
      [.ops_open 1, .ops_open 1, .ops_release, .usb_disconnect, .ops_open 1, .ops_release,
        .free_framebuffer_work] _ rfl rfl⟩

/-- C21, the claim as stated fails: after the disconnect of a device that is up, a console
open (`user = 0`) with the option `console` off returns `-EBUSY`, not `-ENODEV`. -/
theorem teardown_scheduled_once_fails :
    (dlfb_usb_disconnect lifecycle_up).virtualized = true ∧
    (dlfb_ops_open false (dlfb_usb_disconnect lifecycle_up) 0).1 = -EBUSY ∧
    (dlfb_ops_open false (dlfb_usb_disconnect lifecycle_up) 0).2 =
      dlfb_usb_disconnect lifecycle_up ∧
    (-EBUSY : Int) ≠ -ENODEV :=
  ⟨rfl, rfl, rfl, by decide⟩

theorem lifecycle_step_handle (console : Bool) (a : Bool) (s t : dlfb_lifecycle)
    (e : lifecycle_event) (hi : s.init_framebuffer_work = false)
    (hu : s.usbdev = true ↔ s.virtualized = false)
    (ha : s.usb_active ≠ 0 ↔ (s.virtualized = false ∧ a = true))
    (hstep : lifecycle_step console s e = some t) :
    t.init_framebuffer_work = false ∧ (t.usbdev = true ↔ t.virtualized = false) ∧
    (t.usb_active ≠ 0 ↔ (t.virtualized = false ∧ a = true)) := by
  obtain ⟨kref, fb_count, virtualized, usb_active, usbdev, info, iw, fw, g, p, f, c⟩ := s
  simp only at hi hu ha
  subst hi
  cases e with
  | init_framebuffer_work outcome => simp [lifecycle_step] at hstep
  | ops_open user =>
    simp only [lifecycle_step, Option.some.injEq] at hstep
    subst hstep
    simp only [dlfb_ops_open]
    split_ifs
    · exact ⟨rfl, hu, ha⟩
    · exact ⟨rfl, hu, ha⟩
    · exact ⟨rfl, hu, ha⟩
  | ops_release =>
    simp only [lifecycle_step] at hstep
    split_ifs at hstep
    simp only [Option.some.injEq] at hstep
    subst hstep
    simp only [dlfb_ops_release]
    split_ifs
    · exact ⟨rfl, hu, ha⟩
    · exact ⟨rfl, hu, ha⟩
  | usb_disconnect =>
    simp only [lifecycle_step] at hstep
    split_ifs at hstep
    simp only [Option.some.injEq] at hstep
    subst hstep
    simp only [dlfb_usb_disconnect]
    split_ifs <;> simp [kref_put]
  | free_framebuffer_work =>
    simp only [lifecycle_step] at hstep
    split_ifs at hstep
    simp only [Option.some.injEq] at hstep
    subst hstep
    simp only [dlfb_free_framebuffer_work, dlfb_free_framebuffer]
    split_ifs
    · exact ⟨rfl, hu, ha⟩
    · exact ⟨rfl, hu, ha⟩

theorem lifecycle_run_handle (console : Bool) (a : Bool) (events : List lifecycle_event) :
    ∀ (s t : dlfb_lifecycle), s.init_framebuffer_work = false →
      (s.usbdev = true ↔ s.virtualized = false) →
      (s.usb_active ≠ 0 ↔ (s.virtualized = false ∧ a = true)) →
      lifecycle_run console s events = some t →
      (t.usbdev = true ↔ t.virtualized = false) ∧
      (t.usb_active ≠ 0 ↔ (t.virtualized = false ∧ a = true)) := by
  induction events with
  | nil =>
    intro s t _ hu ha hrun
    simp only [lifecycle_run, Option.some.injEq] at hrun
    subst hrun
    exact ⟨hu, ha⟩
  | cons e es ih =>
    intro s t hi hu ha hrun
    simp only [lifecycle_run] at hrun
    cases hstep : lifecycle_step console s e with
    | none => simp [hstep] at hrun
    | some s1 =>
      simp only [hstep] at hrun
      obtain ⟨k1, k2, k3⟩ := lifecycle_step_handle console a s s1 e hi hu ha hstep
      exact ih s1 t k1 k2 k3 hrun

/-- C24, as amended: in every state reached after `dlfb_usb_probe` and then
`dlfb_init_framebuffer_work` (whatever its outcome) by opens, releases, the disconnect and
the queued free work, `dev->usbdev` is valid exactly when the device has not been
disconnected, and `usb_active` is non-zero exactly when the device has not been disconnected
and the init work got as far as line 1794 (it registered the framebuffer, or failed only in
`register_framebuffer`). So a non-zero `usb_active` implies a valid `usbdev`, and the two are
equivalent after an init work that got that far; right after the probe `usbdev` is valid
while `usb_active` is 0. -/
theorem usbdev_valid_while_active (console : Bool) (urbs_allocated : Int)
    (s0 s : dlfb_lifecycle) (outcome : init_outcome) (events : List lifecycle_event)
    (hprobe : dlfb_usb_probe true true urbs_allocated = (0, some s0))
    (hrun : lifecycle_run console s0 (.init_framebuffer_work outcome :: events) = some s) :
    (s0.usbdev = true ∧ s0.usb_active = 0) ∧
    (s.usbdev = true ↔ s.virtualized = false) ∧
    (s.usb_active ≠ 0 ↔ (s.virtualized = false ∧
      (outcome = .registered ∨ outcome = .register_framebuffer_failed))) ∧
    (s.usb_active = 0 ∨ s.usbdev = true) := by
  have hs0 := lifecycle_probe_state urbs_allocated s0 hprobe
  subst hs0
  simp only [lifecycle_run, lifecycle_step, if_true] at hrun
  have key : (s.usbdev = true ↔ s.virtualized = false) ∧
      (s.usb_active ≠ 0 ↔ (s.virtualized = false ∧
        (decide (outcome = .registered ∨ outcome = .register_framebuffer_failed)) = true)) := by
    refine lifecycle_run_handle console _ events _ s ?_ ?_ ?_ hrun
    · cases outcome <;> rfl
    · cases outcome <;> decide
    · cases outcome <;> decide
  simp only [decide_eq_true_eq] at key
  refine ⟨⟨rfl, rfl⟩, key.1, key.2, ?_⟩
  by_cases h0 : s.usb_active = 0
  · exact Or.inl h0
  · exact Or.inr (key.1.2 (key.2.1 h0).1)

theorem usbdev_valid_while_active_witness :
    ∃ s, dlfb_usb_probe true true 4 = (0, some lifecycle_probed) ∧
      lifecycle_run true lifecycle_probed
        [.init_framebuffer_work .registered, .ops_open 1, .usb_disconnect, .ops_release] =
        some s ∧
      ((lifecycle_probed.usbdev = true ∧ lifecycle_probed.usb_active = 0) ∧
      (s.usbdev = true ↔ s.virtualized = false) ∧
      (s.usb_active ≠ 0 ↔ (s.virtualized = false ∧
        (init_outcome.registered = .registered ∨
          init_outcome.registered = .register_framebuffer_failed))) ∧
      (s.usb_active = 0 ∨ s.usbdev = true)) :=
  ⟨_, rfl, rfl,
    usbdev_valid_while_active true 4 lifecycle_probed _ .registered
      [.ops_open 1, .usb_disconnect, .ops_release] rfl rfl⟩

/-- C24, the claim as stated fails: right after a successful `dlfb_usb_probe`, and after a
`dlfb_init_framebuffer_work` that fails in `dlfb_setup_modes`, `dev->usbdev` is valid and
`usb_active` is 0. -/
theorem usbdev_valid_while_active_fails :
    dlfb_usb_probe true true 4 = (0, some lifecycle_probed) ∧
    lifecycle_probed.usbdev = true ∧ lifecycle_probed.usb_active = 0 ∧
    (dlfb_init_framebuffer_work .setup_modes_failed lifecycle_probed).usbdev = true ∧
    (dlfb_init_framebuffer_work .setup_modes_failed lifecycle_probed).usb_active = 0 :=
  ⟨rfl, rfl, rfl, rfl, rfl⟩

/-! ## Blanking and the active flag -/

theorem dlfb_set_video_mode_run (dev : dlfb_data) (var : fb_var_screeninfo)
    (urb : Nat) (rest : List Nat)
    (hact : dev.usb_active ≠ 0) (hsem : dev.urbs.limit_sem ≠ 0)
    (hlist : dev.urbs.list = urb :: rest) (hsize : 72 ≤ dev.urbs.size)
    (hp : var.pixclock ≠ 0) :
    ∃ stream : List Nat, stream.length = 72 ∧
      dlfb_set_video_mode dev var = some (0,
        { dev with
          urbs := { dev.urbs with
                    list := rest
                    limit_sem := dev.urbs.limit_sem - 1
                    available := dev.urbs.available - 1 }
          nodes := (dev.nodes.modify (fun n => { n with transfer_buffer := stream }) urb).modify
            (fun n => { n with transfer_buffer_length := 72 }) urb
          blank_mode := FB_BLANK_UNBLANK }) := by
  obtain ⟨mode, hmode, hlen, -, -⟩ := vid_cmds_regs_and_fields var hp
  have hl : ∀ buf : List Nat, (dlfb_vidreg_unlock (dlfb_blanking (buf ++ mode)
      FB_BLANK_UNBLANK)).length = buf.length + 56 := by
    intro buf
    simp [dlfb_vidreg_unlock, dlfb_blanking, dlfb_set_register, hlen]
  have hpre : (dlfb_set_base8bpp (dlfb_set_base16bpp (dlfb_set_color_depth
      (dlfb_vidreg_lock []) 0x00) 0) dev.smem_len).length = 16 := by
    simp [dlfb_set_base8bpp, dlfb_set_base16bpp, dlfb_set_color_depth, dlfb_vidreg_lock,
      dlfb_set_register]
  refine ⟨dlfb_vidreg_unlock (dlfb_blanking (dlfb_set_base8bpp (dlfb_set_base16bpp
    (dlfb_set_color_depth (dlfb_vidreg_lock []) 0x00) 0) dev.smem_len ++ mode)
    FB_BLANK_UNBLANK), by rw [hl, hpre], ?_⟩
  unfold dlfb_set_video_mode
  rw [if_neg hact, dlfb_get_urb_head dev urb rest hsem hlist]
  simp only
  rw [dlfb_set_vid_cmds_append _ var mode hmode]
  simp only [hl, hpre, List.length_nil, Nat.sub_zero, dlfb_submit_urb]
  rw [if_neg (by omega)]

theorem dlfb_ops_blank_write (blank_mode : Int) (dev : dlfb_data) (var : fb_var_screeninfo)
    (urb : Nat) (rest : List Nat)
    (hset : (dev.blank_mode = FB_BLANK_POWERDOWN ∧ blank_mode ≠ FB_BLANK_POWERDOWN) →
      ∃ r, dlfb_set_video_mode dev var = some (r, dev))
    (hsem : dev.urbs.limit_sem ≠ 0) (hlist : dev.urbs.list = urb :: rest)
    (hsize : 15 ≤ dev.urbs.size) :
    dlfb_ops_blank blank_mode dev var = some (0,
      { dev with
        urbs := { dev.urbs with
                  list := rest
                  limit_sem := dev.urbs.limit_sem - 1
                  available := dev.urbs.available - 1 }
        nodes := (dev.nodes.modify (fun n => { n with transfer_buffer :=
            (dlfb_dummy_render (dlfb_vidreg_unlock (dlfb_blanking (dlfb_vidreg_lock [])
              blank_mode))) }) urb).modify
          (fun n => { n with transfer_buffer_length := 15 }) urb
        blank_mode := blank_mode }) := by
  have hlen : (dlfb_dummy_render (dlfb_vidreg_unlock (dlfb_blanking (dlfb_vidreg_lock [])
      blank_mode))).length = 15 := by
    simp [dlfb_dummy_render, dlfb_vidreg_unlock, dlfb_blanking, dlfb_vidreg_lock,
      dlfb_set_register]
  have hmode : (if dev.blank_mode = FB_BLANK_POWERDOWN ∧ blank_mode ≠ FB_BLANK_POWERDOWN then
      (match dlfb_set_video_mode dev var with
      | none => none
      | some (_, dev) => some dev)
    else some dev) = some dev := by
    by_cases hc : dev.blank_mode = FB_BLANK_POWERDOWN ∧ blank_mode ≠ FB_BLANK_POWERDOWN
    · obtain ⟨r, hr⟩ := hset hc
      rw [if_pos hc, hr]
    · rw [if_neg hc]
  unfold dlfb_ops_blank
  simp only [hmode]
  rw [dlfb_get_urb_head dev urb rest hsem hlist]
  simp only [hlen, List.length_nil, Nat.sub_zero, dlfb_submit_urb]
  rw [if_neg (by omega)]

theorem dlfb_blank_stream (blank_mode : Int) :
    dlfb_dummy_render (dlfb_vidreg_unlock (dlfb_blanking (dlfb_vidreg_lock []) blank_mode)) =
      [0xFF, 0x00] ++ dlfb_blanking [] blank_mode ++
        [0xFF, 0xFF, 0xAF, 0x6A, 0x00, 0x00, 0x00, 0x01, 0x00, 0x00, 0x00] := by
  simp [dlfb_dummy_render, dlfb_vidreg_unlock, dlfb_blanking, dlfb_vidreg_lock,
    dlfb_set_register, u8]

/-! ## Blanking: the mode-set comes first -/

theorem dlfb_get_urb_timeout (dev : dlfb_data) (hsem : dev.urbs.limit_sem = 0) :
    dlfb_get_urb dev = some (none, { dev with lost_pixels := 1 }) := by
  simp [dlfb_get_urb, hsem]

theorem dlfb_ops_blank_timeout (blank_mode : Int) (dev : dlfb_data) (var : fb_var_screeninfo)
    (hset : (dev.blank_mode = FB_BLANK_POWERDOWN ∧ blank_mode ≠ FB_BLANK_POWERDOWN) →
      ∃ r, dlfb_set_video_mode dev var = some (r, { dev with lost_pixels := 1 }))
    (hsem : dev.urbs.limit_sem = 0) :
    dlfb_ops_blank blank_mode dev var = some (0, { dev with lost_pixels := 1 }) := by
  unfold dlfb_ops_blank
  by_cases hc : dev.blank_mode = FB_BLANK_POWERDOWN ∧ blank_mode ≠ FB_BLANK_POWERDOWN
  · obtain ⟨r, hr⟩ := hset hc
    simp only [if_pos hc, hr]
    rw [dlfb_get_urb_timeout { dev with lost_pixels := 1 } hsem]
  · simp only [if_neg hc]
    rw [dlfb_get_urb_timeout _ hsem]

/-- C22, as amended: a call of `dlfb_ops_blank` on an active device with the stored
`blank_mode` at powerdown and a requested mode other than powerdown first runs `dlfb_set_video_mode`. With
no free slot (semaphore count 0) that function returns `-ENOMEM`, no stream is encoded, and
the call returns 0 with no buffer written and the stored mode unchanged. With a free slot of
at least 72 bytes and a non-zero pixel clock it takes the slot at the head of the list,
writes the 72 bytes of the mode-set stream into it, submits it and stores unblank; the rest
of the call is the call on the state so reached, without a second mode-set: the blanking
write goes into the slot taken next, never before the mode-set, and the requested mode is
stored last. For every other transition, on any device, the call does not depend on the
mode: with no free slot it returns 0 with no buffer written, and with a free slot it writes
only the lock, the write of register `0x1F`, the unlock and the dummy render into that slot
and leaves every other slot as it was. -/
theorem dlfb_ops_blank_mode_set_first (blank_mode : Int) (dev : dlfb_data)
    (var : fb_var_screeninfo) :
    ((dev.blank_mode = FB_BLANK_POWERDOWN ∧ blank_mode ≠ FB_BLANK_POWERDOWN) →
      dev.usb_active ≠ 0 →
      (dev.urbs.limit_sem = 0 →
        dlfb_set_video_mode dev var = some (-ENOMEM, { dev with lost_pixels := 1 }) ∧
        dlfb_ops_blank blank_mode dev var = some (0, { dev with lost_pixels := 1 })) ∧
      (∀ (urb : Nat) (rest : List Nat), dev.urbs.limit_sem ≠ 0 → dev.urbs.list = urb :: rest →
        urb < dev.nodes.length → 72 ≤ dev.urbs.size → var.pixclock ≠ 0 →
        ∃ dev1, dlfb_set_video_mode dev var = some (0, dev1) ∧
          (dev1.nodes[urb]?).map (fun n => n.transfer_buffer.length) = some 72 ∧
          (dev1.nodes[urb]?).map (fun n => n.transfer_buffer_length) = some 72 ∧
          dev1.urbs.list = rest ∧ dev1.blank_mode = FB_BLANK_UNBLANK ∧
          dlfb_ops_blank blank_mode dev var = dlfb_ops_blank blank_mode dev1 var ∧
          ∀ (urb2 : Nat) (rest2 : List Nat), rest = urb2 :: rest2 →
            2 ≤ dev.urbs.limit_sem → urb2 ≠ urb →
            ∃ dev2, dlfb_ops_blank blank_mode dev var = some (0, dev2) ∧
              dev2.nodes[urb]? = dev1.nodes[urb]? ∧
              (dev2.nodes[urb2]?).map (fun n => n.transfer_buffer) =
                (dev.nodes[urb2]?).map (fun _ => [0xFF, 0x00] ++
                  dlfb_blanking [] blank_mode ++
                  [0xFF, 0xFF, 0xAF, 0x6A, 0x00, 0x00, 0x00, 0x01, 0x00, 0x00, 0x00]) ∧
              dev2.urbs.list = rest2 ∧ dev2.blank_mode = blank_mode)) ∧
    (¬ (dev.blank_mode = FB_BLANK_POWERDOWN ∧ blank_mode ≠ FB_BLANK_POWERDOWN) →
      (∀ var2 : fb_var_screeninfo,
        dlfb_ops_blank blank_mode dev var2 = dlfb_ops_blank blank_mode dev var) ∧
      (dev.urbs.limit_sem = 0 →
        dlfb_ops_blank blank_mode dev var = some (0, { dev with lost_pixels := 1 })) ∧
      (∀ (urb : Nat) (rest : List Nat), dev.urbs.limit_sem ≠ 0 → dev.urbs.list = urb :: rest →
        urb < dev.nodes.length → 15 ≤ dev.urbs.size →
        ∃ dev2, dlfb_ops_blank blank_mode dev var = some (0, dev2) ∧
          dev2.urbs.list = rest ∧
          (dev2.nodes[urb]?).map (fun n => n.transfer_buffer) =
            some ([0xFF, 0x00] ++ dlfb_blanking [] blank_mode ++
              [0xFF, 0xFF, 0xAF, 0x6A, 0x00, 0x00, 0x00, 0x01, 0x00, 0x00, 0x00]) ∧
          (∀ j : Nat, j ≠ urb → dev2.nodes[j]? = dev.nodes[j]?) ∧
          dev2.blank_mode = blank_mode)) := by
  constructor
  · intro hc hact
    constructor
    · intro hsem
      have hmode : dlfb_set_video_mode dev var =
          some (-ENOMEM, { dev with lost_pixels := 1 }) := by
        unfold dlfb_set_video_mode
        rw [if_neg hact, dlfb_get_urb_timeout dev hsem]
      exact ⟨hmode, dlfb_ops_blank_timeout blank_mode dev var (fun _ => ⟨_, hmode⟩) hsem⟩
    · intro urb rest hsem hlist hnode hsize hp
      obtain ⟨stream, hlen, hrun⟩ :=
        dlfb_set_video_mode_run dev var urb rest hact hsem hlist hsize hp
      have hnc : ¬ ((FB_BLANK_UNBLANK : Int) = FB_BLANK_POWERDOWN ∧
          blank_mode ≠ FB_BLANK_POWERDOWN) := fun h => absurd h.1 (by decide)
      refine ⟨_, hrun, ?_, ?_, rfl, rfl, ?_, ?_⟩
      · simp [List.getElem?_modify, hnode, hlen]
      · simp [List.getElem?_modify, hnode]
      · unfold dlfb_ops_blank
        simp only [if_pos hc, hrun, if_neg hnc]
      · intro urb2 rest2 hrest hsem2 hne
        have hw := dlfb_ops_blank_write blank_mode
          { dev with
            urbs := { dev.urbs with
                      list := rest
                      limit_sem := dev.urbs.limit_sem - 1
                      available := dev.urbs.available - 1 }
            nodes := (dev.nodes.modify (fun n => { n with transfer_buffer := stream })
              urb).modify (fun n => { n with transfer_buffer_length := 72 }) urb
            blank_mode := FB_BLANK_UNBLANK } var urb2 rest2
          (fun h => absurd h hnc) (by simp only; omega) hrest (by simp only; omega)
        have heq : dlfb_ops_blank blank_mode dev var = dlfb_ops_blank blank_mode
            { dev with
              urbs := { dev.urbs with
                        list := rest
                        limit_sem := dev.urbs.limit_sem - 1
                        available := dev.urbs.available - 1 }
              nodes := (dev.nodes.modify (fun n => { n with transfer_buffer := stream })
                urb).modify (fun n => { n with transfer_buffer_length := 72 }) urb
              blank_mode := FB_BLANK_UNBLANK } var := by
          unfold dlfb_ops_blank
          simp only [if_pos hc, hrun, if_neg hnc]
        rw [heq]
        refine ⟨_, hw, ?_, ?_, rfl, rfl⟩
        · simp [List.getElem?_modify, hne]
        · simp only [dlfb_blank_stream, List.getElem?_modify, hne, if_true, if_false]
          cases dev.nodes[urb2]? <;> rfl
  · intro hc
    refine ⟨?_, ?_, ?_⟩
    · intro var2
      unfold dlfb_ops_blank
      simp only [if_neg hc]
    · intro hsem
      exact dlfb_ops_blank_timeout blank_mode dev var (fun h => absurd h hc) hsem
    · intro urb rest hsem hlist hnode hsize
      have hw := dlfb_ops_blank_write blank_mode dev var urb rest (fun h => absurd h hc) hsem
        hlist hsize
      refine ⟨_, hw, rfl, ?_, ?_, rfl⟩
      · simp [dlfb_blank_stream, List.getElem?_modify, hnode]
      · intro j hj
        simp [List.getElem?_modify, Ne.symm hj]

theorem dlfb_ops_blank_mode_set_first_witness :
    (dev_four_down.blank_mode = FB_BLANK_POWERDOWN ∧ FB_BLANK_NORMAL ≠ FB_BLANK_POWERDOWN) ∧
    dev_four_down.usb_active ≠ 0 ∧ dev_four_down.urbs.limit_sem ≠ 0 ∧
    dev_four_down.urbs.list = 0 :: [1, 2, 3] ∧ 0 < dev_four_down.nodes.length ∧
    72 ≤ dev_four_down.urbs.size ∧ var_1024x768.pixclock ≠ 0 ∧
    (∃ dev1, dlfb_set_video_mode dev_four_down var_1024x768 = some (0, dev1) ∧
      (dev1.nodes[0]?).map (fun n => n.transfer_buffer.length) = some 72 ∧
      (dev1.nodes[0]?).map (fun n => n.transfer_buffer_length) = some 72 ∧
      dev1.urbs.list = [1, 2, 3] ∧ dev1.blank_mode = FB_BLANK_UNBLANK ∧
      dlfb_ops_blank FB_BLANK_NORMAL dev_four_down var_1024x768 =
        dlfb_ops_blank FB_BLANK_NORMAL dev1 var_1024x768 ∧
      ∀ (urb2 : Nat) (rest2 : List Nat), [1, 2, 3] = urb2 :: rest2 →
        2 ≤ dev_four_down.urbs.limit_sem → urb2 ≠ 0 →
        ∃ dev2, dlfb_ops_blank FB_BLANK_NORMAL dev_four_down var_1024x768 = some (0, dev2) ∧
          dev2.nodes[0]? = dev1.nodes[0]? ∧
          (dev2.nodes[urb2]?).map (fun n => n.transfer_buffer) =
            (dev_four_down.nodes[urb2]?).map (fun _ => [0xFF, 0x00] ++
              dlfb_blanking [] FB_BLANK_NORMAL ++
              [0xFF, 0xFF, 0xAF, 0x6A, 0x00, 0x00, 0x00, 0x01, 0x00, 0x00, 0x00]) ∧
          dev2.urbs.list = rest2 ∧ dev2.blank_mode = FB_BLANK_NORMAL) ∧
    (dev_four_drained.blank_mode = FB_BLANK_POWERDOWN ∧
      FB_BLANK_UNBLANK ≠ FB_BLANK_POWERDOWN) ∧
    dev_four_drained.usb_active ≠ 0 ∧ dev_four_drained.urbs.limit_sem = 0 ∧
    (dlfb_set_video_mode dev_four_drained var_1024x768 =
        some (-ENOMEM, { dev_four_drained with lost_pixels := 1 }) ∧
      dlfb_ops_blank FB_BLANK_UNBLANK dev_four_drained var_1024x768 =
        some (0, { dev_four_drained with lost_pixels := 1 })) ∧
    ¬ (dev_four.blank_mode = FB_BLANK_POWERDOWN ∧ FB_BLANK_NORMAL ≠ FB_BLANK_POWERDOWN) ∧
    dev_four.urbs.limit_sem ≠ 0 ∧ dev_four.urbs.list = 0 :: [1, 2, 3] ∧
    0 < dev_four.nodes.length ∧ 15 ≤ dev_four.urbs.size ∧
    (∃ dev2, dlfb_ops_blank FB_BLANK_NORMAL dev_four var_1024x768 = some (0, dev2) ∧
      dev2.urbs.list = [1, 2, 3] ∧
      (dev2.nodes[0]?).map (fun n => n.transfer_buffer) =
        some ([0xFF, 0x00] ++ dlfb_blanking [] FB_BLANK_NORMAL ++
          [0xFF, 0xFF, 0xAF, 0x6A, 0x00, 0x00, 0x00, 0x01, 0x00, 0x00, 0x00]) ∧
      (∀ j : Nat, j ≠ 0 → dev2.nodes[j]? = dev_four.nodes[j]?) ∧
      dev2.blank_mode = FB_BLANK_NORMAL) :=
  ⟨by decide, by decide, by decide, by decide, by decide, by decide, by decide,
    ((dlfb_ops_blank_mode_set_first FB_BLANK_NORMAL dev_four_down var_1024x768).1 (by decide)
      (by decide)).2 0 [1, 2, 3] (by decide) (by decide) (by decide) (by decide) (by decide),
    by decide, by decide, by decide,
    ((dlfb_ops_blank_mode_set_first FB_BLANK_UNBLANK dev_four_drained var_1024x768).1
      (by decide) (by decide)).1 (by decide),
    by decide, by decide, by decide, by decide, by decide,
    ((dlfb_ops_blank_mode_set_first FB_BLANK_NORMAL dev_four var_1024x768).2 (by decide)).2.2
      0 [1, 2, 3] (by decide) (by decide) (by decide) (by decide)⟩

/-- C22, the claim as stated fails: the device `dev_four_drained` is active and powered
down, and the call requests unblank; `dlfb_set_video_mode` returns `-ENOMEM`, the call of
`dlfb_ops_blank` returns 0, and afterwards no slot holds a byte of a mode-set stream, and
the stored mode is still powerdown. -/
theorem dlfb_ops_blank_mode_set_first_fails :
    dev_four_drained.usb_active = 1 ∧ dev_four_drained.blank_mode = FB_BLANK_POWERDOWN ∧
    FB_BLANK_UNBLANK ≠ FB_BLANK_POWERDOWN ∧
    dev_four_drained.urbs.list = [] ∧ dev_four_drained.urbs.limit_sem = 0 ∧
    dlfb_set_video_mode dev_four_drained var_1024x768 =
      some (-ENOMEM, { dev_four_drained with lost_pixels := 1 }) ∧
    dlfb_ops_blank FB_BLANK_UNBLANK dev_four_drained var_1024x768 =
      some (0, { dev_four_drained with lost_pixels := 1 }) ∧
    ({ dev_four_drained with lost_pixels := 1 } : dlfb_data).nodes.map
      (fun n => n.transfer_buffer) = [[], [], [], []] ∧
    ({ dev_four_drained with lost_pixels := 1 } : dlfb_data).blank_mode =
      FB_BLANK_POWERDOWN :=
  ⟨by decide, by decide, by decide, by decide, by decide, rfl, rfl, by decide, by decide⟩

/-! ## The entry points on an inactive device -/

/-- C23: when `usb_active = 0`, `dlfb_handle_damage` (after its dimension test and bounds
check), `dlfb_dpy_deferred_io` and `dlfb_set_video_mode` (which returns `-EPERM`) leave the
device as it was: no slot is taken, the available count and the semaphore are unchanged, no
buffer is filled and nothing is transferred. `dlfb_ops_blank` has no test of the flag: on an
inactive device with a free slot of at least 15 bytes it takes the slot at the head of the
list, so that the available count and the semaphore go down by one, writes the blanking
command into it, passes it to `dlfb_submit_urb` and stores the requested mode. That is an
urb taken on an inactive device, against the comment of line 1855 and the test of line 357
in `dlfb_set_video_mode`. -/
theorem entry_points_when_inactive (w : Int) (env : damage_env) (dev : dlfb_dev)
    (x y width height : Int) (fb_defio : Bool) (pagelist : List Nat)
    (var : fb_var_screeninfo) (blank_mode : Int) (urb : Nat) (rest : List Nat)
    (hact : dev.usb_active = 0) (hsem : dev.urbs.limit_sem ≠ 0)
    (hlist : dev.urbs.list = urb :: rest) (hnode : urb < dev.nodes.length)
    (hsize : 15 ≤ dev.urbs.size) :
    (∃ ret, dlfb_handle_damage w env dev x y width height = some (ret, dev)) ∧
    dlfb_dpy_deferred_io fb_defio env dev pagelist = some dev ∧
    dlfb_set_video_mode dev.todlfb_data var = some (-EPERM, dev.todlfb_data) ∧
    ∃ d, dlfb_ops_blank blank_mode dev.todlfb_data var = some (0, d) ∧
      d.urbs.list = rest ∧ d.urbs.limit_sem = dev.urbs.limit_sem - 1 ∧
      d.urbs.available = dev.urbs.available - 1 ∧
      (d.nodes[urb]?).map (fun n => n.transfer_buffer) =
        some ([0xFF, 0x00] ++ dlfb_blanking [] blank_mode ++
          [0xFF, 0xFF, 0xAF, 0x6A, 0x00, 0x00, 0x00, 0x01, 0x00, 0x00, 0x00]) ∧
      (d.nodes[urb]?).map (fun n => n.transfer_buffer_length) = some 15 ∧
      d.blank_mode = blank_mode := by
  have hmode : dlfb_set_video_mode dev.todlfb_data var = some (-EPERM, dev.todlfb_data) := by
    unfold dlfb_set_video_mode
    rw [if_pos hact]
  refine ⟨?_, ?_, hmode, ?_⟩
  · unfold dlfb_handle_damage
    simp only [hact, if_true]
    split_ifs <;> exact ⟨_, rfl⟩
  · unfold dlfb_dpy_deferred_io
    cases fb_defio
    · rfl
    · simp only [Bool.true_eq_false, if_false, hact, if_true]
  · have hw := dlfb_ops_blank_write blank_mode dev.todlfb_data var urb rest
      (fun _ => ⟨_, hmode⟩) hsem hlist hsize
    refine ⟨_, hw, rfl, rfl, rfl, ?_, ?_, rfl⟩
    · simp [dlfb_blank_stream, List.getElem?_modify, hnode]
    · simp [List.getElem?_modify, hnode]

theorem entry_points_when_inactive_witness :
    dev_render_gone.usb_active = 0 ∧ dev_render_gone.urbs.limit_sem ≠ 0 ∧
    dev_render_gone.urbs.list = 0 :: [1, 2, 3] ∧ 0 < dev_render_gone.nodes.length ∧
    15 ≤ dev_render_gone.urbs.size ∧
    ((∃ ret, dlfb_handle_damage 8 env_sample dev_render_gone 0 0 1024 768 =
      some (ret, dev_render_gone)) ∧
    dlfb_dpy_deferred_io true env_sample dev_render_gone [0, 1, 2] = some dev_render_gone ∧
    dlfb_set_video_mode dev_render_gone.todlfb_data var_1024x768 =
      some (-EPERM, dev_render_gone.todlfb_data) ∧
    ∃ d, dlfb_ops_blank FB_BLANK_NORMAL dev_render_gone.todlfb_data var_1024x768 =
        some (0, d) ∧
      d.urbs.list = [1, 2, 3] ∧ d.urbs.limit_sem = dev_render_gone.urbs.limit_sem - 1 ∧
      d.urbs.available = dev_render_gone.urbs.available - 1 ∧
      (d.nodes[0]?).map (fun n => n.transfer_buffer) =
        some ([0xFF, 0x00] ++ dlfb_blanking [] FB_BLANK_NORMAL ++
          [0xFF, 0xFF, 0xAF, 0x6A, 0x00, 0x00, 0x00, 0x01, 0x00, 0x00, 0x00]) ∧
      (d.nodes[0]?).map (fun n => n.transfer_buffer_length) = some 15 ∧
      d.blank_mode = FB_BLANK_NORMAL) :=
  ⟨by decide, by decide, by decide, by decide, by decide,
    entry_points_when_inactive 8 env_sample dev_render_gone 0 0 1024 768 true [0, 1, 2]
      var_1024x768 FB_BLANK_NORMAL 0 [1, 2, 3] (by decide) (by decide) (by decide) (by decide)
      (by decide)⟩

/-! ## Completion of a slot in flight -/

/-- C11: for every slot in flight (allocated and not on the available list) and every
completion status `s`, `dlfb_urb_completion` sets `lost_pixels` to 1 exactly when `s` is
non-zero and none of `-ENOENT`, `-ECONNRESET`, `-ESHUTDOWN`, and leaves it as it was
otherwise; and for every status it resets the transfer length of the slot to the slot size
of the pool, appends the slot to the tail of the available list, on which it was not, and
increments `available` by one. -/
theorem dlfb_urb_completion_effect (fb_defio : Bool) (dev : dlfb_data) (unode : Nat)
    (status : Int) (hflight : in_flight dev unode = true) :
    unode ∉ dev.urbs.list ∧
    (dlfb_urb_completion fb_defio dev unode status).lost_pixels =
      (if status ≠ 0 ∧ status ≠ -ENOENT ∧ status ≠ -ECONNRESET ∧ status ≠ -ESHUTDOWN then 1
        else dev.lost_pixels) ∧
    ((dlfb_urb_completion fb_defio dev unode status).nodes[unode]?).map
      (fun n => n.transfer_buffer_length) = some dev.urbs.size ∧
    (dlfb_urb_completion fb_defio dev unode status).urbs.list = dev.urbs.list ++ [unode] ∧
    (dlfb_urb_completion fb_defio dev unode status).urbs.available =
      dev.urbs.available + 1 ∧
    ENOENT = 2 ∧ ECONNRESET = 104 ∧ ESHUTDOWN = 108 := by
  have hnode : unode < dev.nodes.length := by
    simp [in_flight] at hflight
    exact hflight.1
  have hout : unode ∉ dev.urbs.list := by
    simp [in_flight] at hflight
    exact hflight.2
  refine ⟨hout, ?_, ?_, urb_completion_list _ _ _ _, urb_completion_available _ _ _ _, rfl,
    rfl, rfl⟩
  · by_cases h : status ≠ 0 ∧ status ≠ -ENOENT ∧ status ≠ -ECONNRESET ∧ status ≠ -ESHUTDOWN
    · rw [if_pos h]
      obtain ⟨h0, h1, h2, h3⟩ := h
      unfold dlfb_urb_completion
      simp only [h0, h1, h2, h3, ne_eq, not_false_eq_true, if_true, decide_False,
        Bool.or_false, Bool.not_false]
      split_ifs <;> rfl
    · rw [if_neg h]
      unfold dlfb_urb_completion
      by_cases h0 : status = 0
      · simp only [h0, ne_eq, not_true_eq_false, if_false]
        split_ifs <;> rfl
      · have h' : status = -ENOENT ∨ status = -ECONNRESET ∨ status = -ESHUTDOWN := by
          by_contra hc
          push_neg at hc
          exact h ⟨h0, hc.1, hc.2.1, hc.2.2⟩
        have hb : (!(decide (status = -ENOENT) || decide (status = -ECONNRESET) ||
            decide (status = -ESHUTDOWN))) = false := by
          rcases h' with h' | h' | h' <;> simp [h']
        simp only [hb, ne_eq, h0, not_false_eq_true, if_true, Bool.false_eq_true, if_false]
        split_ifs <;> rfl
  · unfold dlfb_urb_completion
    split_ifs <;> simp [List.getElem?_modify, hnode]

theorem dlfb_urb_completion_effect_witness :
    ∃ dev, dlfb_get_urb dev_four = some (some 0, dev) ∧ in_flight dev 0 = true ∧
      (0 ∉ dev.urbs.list ∧
      (dlfb_urb_completion true dev 0 (-71)).lost_pixels =
        (if (-71 : Int) ≠ 0 ∧ (-71 : Int) ≠ -ENOENT ∧ (-71 : Int) ≠ -ECONNRESET ∧
            (-71 : Int) ≠ -ESHUTDOWN then 1
          else dev.lost_pixels) ∧
      ((dlfb_urb_completion true dev 0 (-71)).nodes[0]?).map
        (fun n => n.transfer_buffer_length) = some dev.urbs.size ∧
      (dlfb_urb_completion true dev 0 (-71)).urbs.list = dev.urbs.list ++ [0] ∧
      (dlfb_urb_completion true dev 0 (-71)).urbs.available = dev.urbs.available + 1 ∧
      ENOENT = 2 ∧ ECONNRESET = 104 ∧ ESHUTDOWN = 108) :=
  ⟨_, rfl, rfl, dlfb_urb_completion_effect true _ 0 (-71) rfl⟩

/-! ## The loop of `dlfb_handle_damage` and a disconnect -/

theorem dlfb_handle_damage_loop_flag (env : damage_env) (x width y_end : Int)
    (a : Int) (fuel k : Nat) (i bytes_identical bytes_sent : Int) (dev : dlfb_dev) :
    dlfb_handle_damage_loop env x width y_end fuel k i bytes_identical bytes_sent
        { dev with usb_active := a } =
      (dlfb_handle_damage_loop env x width y_end fuel k i bytes_identical bytes_sent
        dev).map (fun r => (r.1, r.2.1, { r.2.2 with usb_active := a })) := by
  induction fuel generalizing k i bytes_identical bytes_sent dev with
  | zero =>
    simp only [dlfb_handle_damage_loop]
    split_ifs <;> rfl
  | succ fuel ih =>
    simp only [dlfb_handle_damage_loop]
    by_cases hlt : i < y_end
    · simp only [if_pos hlt]
      have hr := dlfb_render_hline_usb_active (env.kmalloc k) (env.transferred k) dev
        dev.smem_start (damage_byte_offset dev.line_length x i) (damage_byte_width width)
        bytes_identical bytes_sent a
      rw [hr]
      cases hd : dlfb_render_hline (env.kmalloc k) (env.transferred k) dev dev.smem_start
          (damage_byte_offset dev.line_length x i) (damage_byte_width width) bytes_identical
          bytes_sent with
      | none => rfl
      | some r =>
        obtain ⟨ret, bi, bs, d⟩ := r
        simp only [Option.map_some']
        by_cases hret : ret ≠ 0
        · simp only [if_pos hret]
          rfl
        · simp only [if_neg hret]
          exact ih (k + 1) _ bi bs d
    · simp only [if_neg hlt]
      rfl

theorem dlfb_handle_damage_loop_handle_valid (env : damage_env) (x width y_end : Int)
    (fuel k : Nat) (i bytes_identical bytes_sent : Int) (dev : dlfb_dev) :
    dlfb_handle_damage_loop_handle (fun _ => false) env x width y_end fuel k i
        bytes_identical bytes_sent dev =
      dlfb_handle_damage_loop env x width y_end fuel k i bytes_identical bytes_sent dev := by
  induction fuel generalizing k i bytes_identical bytes_sent dev with
  | zero => rfl
  | succ fuel ih =>
    simp only [dlfb_handle_damage_loop_handle, dlfb_handle_damage_loop,
      dlfb_render_hline_handle, Bool.false_eq_true, if_false, Bool.not_false,
      Bool.true_eq_false]
    by_cases hlt : i < y_end
    · simp only [if_pos hlt]
      cases dlfb_render_hline (env.kmalloc k) (env.transferred k) dev dev.smem_start
          (damage_byte_offset dev.line_length x i) (damage_byte_width width) bytes_identical
          bytes_sent with
      | none => rfl
      | some r =>
        obtain ⟨ret, bi, bs, d⟩ := r
        simp only
        by_cases hret : ret ≠ 0
        · simp only [if_pos hret]
        · simp only [if_neg hret]
          exact ih (k + 1) _ bi bs d
    · simp only [if_neg hlt]

theorem dlfb_handle_damage_loop_handle_trap (gone : Nat → Bool) (env : damage_env)
    (x width y_end : Int) (hmem : ∀ k, env.kmalloc k = true)
    (hbw : damage_byte_width width + 2 < 4294967296) (hend : y_end < 2147483647) :
    ∀ (m fuel k : Nat) (i bytes_identical bytes_sent : Int) (dev : dlfb_dev),
      gone (k + m) = true → (∀ j, j < m → gone (k + j) = false) →
      i + 2 * (m : Int) < y_end → -2147483648 ≤ i → m < fuel →
      dlfb_handle_damage_loop_handle gone env x width y_end fuel k i bytes_identical
        bytes_sent dev = none := by
  intro m
  induction m with
  | zero =>
    intro fuel k i bi bs dev hg _ hline _ hfuel
    obtain ⟨f, rfl⟩ : ∃ f, fuel = f + 1 := ⟨fuel - 1, by omega⟩
    have hlt : i < y_end := by omega
    have hg0 : gone k = true := by simpa using hg
    simp only [dlfb_handle_damage_loop_handle, dlfb_render_hline_handle, hg0, Bool.not_true,
      if_true, if_pos hlt]
  | succ m ih =>
    intro fuel k i bi bs dev hg hbefore hline hi hfuel
    obtain ⟨f, rfl⟩ : ∃ f, fuel = f + 1 := ⟨fuel - 1, by omega⟩
    have hlt : i < y_end := by omega
    have hg0 : gone k = false := by simpa using hbefore 0 (by omega)
    have hi2 : int32 (int32 (i + 1) + 1) = i + 2 := by
      rw [int32_of_range (i + 1) (by omega) (by omega)]
      rw [int32_of_range (i + 1 + 1) (by omega) (by omega)]
      omega
    simp only [dlfb_handle_damage_loop_handle, dlfb_render_hline_handle, hg0,
      Bool.false_eq_true, if_false, Bool.not_false, Bool.true_eq_false, if_pos hlt, hmem k]
    rw [dlfb_render_hline_ok _ _ _ _ _ _ _ (damage_byte_offset_lt _ _ _) hbw]
    simp only [ne_eq, not_true_eq_false, if_false, hi2]
    apply ih f (k + 1) (i + 2) bi bs _
    · rw [← hg]
      congr 1
      omega
    · intro j hj
      have := hbefore (j + 1) (by omega)
      rw [← this]
      congr 1
      omega
    · push_cast at hline
      omega
    · omega
    · omega

/-- C25: the loop of `dlfb_handle_damage` does not read `usb_active`, which the function
reads once at line 527 before the loop, so a disconnect while the loop runs does not stop
the call at the next line boundary. When `dlfb_usb_disconnect` runs after `m` transfers of a
call that has a line left, the next pass calls `dlfb_render_hline` as before, and lines
478-480 dereference `dev->usbdev`, which the disconnect has set to `NULL`: the call does not
return. Without a disconnect the loop is the one of `dlfb_handle_damage_loop`. -/
theorem dlfb_handle_damage_loop_after_disconnect (gone : Nat → Bool) (env : damage_env)
    (x width y y_end : Int) (m fuel : Nat) (dev : dlfb_dev)
    (hmem : ∀ k, env.kmalloc k = true)
    (hbw : damage_byte_width width + 2 < 4294967296) (hend : y_end < 2147483647)
    (hgone : gone m = true) (hbefore : ∀ j, j < m → gone j = false)
    (hline : y + 2 * (m : Int) < y_end) (hy : -2147483648 ≤ y) (hfuel : m < fuel) :
    dlfb_handle_damage_loop_handle gone env x width y_end fuel 0 y 0 0 dev = none ∧
    dlfb_handle_damage_loop_handle (fun _ => false) env x width y_end fuel 0 y 0 0 dev =
      dlfb_handle_damage_loop env x width y_end fuel 0 y 0 0 dev ∧
    dlfb_handle_damage_loop env x width y_end fuel 0 y 0 0 { dev with usb_active := 0 } =
      (dlfb_handle_damage_loop env x width y_end fuel 0 y 0 0 dev).map
        (fun r => (r.1, r.2.1, { r.2.2 with usb_active := 0 })) :=
  ⟨dlfb_handle_damage_loop_handle_trap gone env x width y_end hmem hbw hend m fuel 0 y 0 0 dev
      (by rw [Nat.zero_add]; exact hgone)
      (fun j hj => by rw [Nat.zero_add]; exact hbefore j hj) hline hy hfuel,
    dlfb_handle_damage_loop_handle_valid env x width y_end fuel 0 y 0 0 dev,
    dlfb_handle_damage_loop_flag env x width y_end 0 fuel 0 y 0 0 dev⟩

theorem dlfb_handle_damage_loop_after_disconnect_witness :
    (∀ k, env_sample.kmalloc k = true) ∧ damage_byte_width 1024 + 2 < 4294967296 ∧
    (768 : Int) < 2147483647 ∧ (fun k => decide (50 ≤ k)) 50 = true ∧
    (∀ j, j < 50 → (fun k => decide (50 ≤ k)) j = false) ∧
    (0 : Int) + 2 * ((50 : Nat) : Int) < 768 ∧ (-2147483648 : Int) ≤ 0 ∧ 50 < 768 ∧
    (dlfb_handle_damage_loop_handle (fun k => decide (50 ≤ k)) env_sample 0 1024 768 768 0 0
        0 0 dev_render = none ∧
    dlfb_handle_damage_loop_handle (fun _ => false) env_sample 0 1024 768 768 0 0 0 0
        dev_render =
      dlfb_handle_damage_loop env_sample 0 1024 768 768 0 0 0 0 dev_render ∧
    dlfb_handle_damage_loop env_sample 0 1024 768 768 0 0 0 0
        { dev_render with usb_active := 0 } =
      (dlfb_handle_damage_loop env_sample 0 1024 768 768 0 0 0 0 dev_render).map
        (fun r => (r.1, r.2.1, { r.2.2 with usb_active := 0 }))) :=
  ⟨fun _ => rfl, by decide, by decide, by decide, fun j hj => by simpa using hj, by decide,
    by decide, by decide,
    dlfb_handle_damage_loop_after_disconnect (fun k => decide (50 ≤ k)) env_sample 0 1024 0
      768 50 768 dev_render (fun _ => rfl) (by decide) (by decide) (by decide)
      (fun j hj => by simpa using hj) (by decide) (by decide) (by decide)⟩

/-! ## The dimension test of `dlfb_handle_damage` -/

/-- C27: the dimension test of line 511 compares `width - x` with 1024 and `height - y` with
768, where the comment above it names the width and the height. For every region with
`x > 0`, `y >= 0`, `width - x = 1024` and `height - y = 768` (no integer overflow) the width
is not 1024 and the call is not stopped by the test: when the region exceeds the resolution
the call returns `-EINVAL`, not 0, and when it fits on an active device the call returns 0
after `(height + 1) / 2`, at least 384, transfers and adds to `bytes_rendered`. -/
theorem dlfb_handle_damage_dimension_gate (w : Int) (env : damage_env) (dev : dlfb_dev)
    (x y width height : Int) (hw : 0 < w) (hx : 0 < x) (hy : 0 ≤ y)
    (hgw : width - x = 1024) (hgh : height - y = 768)
    (hxo : 4 * (x + width + w) ≤ 2147483647) (hyo : y + height ≤ 2147483647) :
    width ≠ 1024 ∧ -EINVAL ≠ 0 ∧
    ((x + width > dev.xres ∨ y + height > dev.yres) →
      dlfb_handle_damage w env dev x y width height = some (-EINVAL, dev)) ∧
    ((damage_align w x width).1 + (damage_align w x width).2 ≤ dev.xres →
      y + height ≤ dev.yres → dev.usb_active ≠ 0 → (∀ k, env.kmalloc k = true) →
      ∃ dev', dlfb_handle_damage w env dev x y width height = some (0, dev') ∧
        dev'.bulk_out.length = dev.bulk_out.length + ((height + 1) / 2).toNat ∧
        384 ≤ ((height + 1) / 2).toNat ∧
        dev'.bytes_rendered = int32 (dev.bytes_rendered +
          int32 (int32 ((damage_align w x width).2 * height) * 2))) := by
  refine ⟨by omega, by decide, ?_, ?_⟩
  · intro hexceeds
    obtain ⟨_, _, b3, b4, b5, b6, b7⟩ :=
      damage_align_bounds w x width hw (le_of_lt hx) (by omega) (by omega)
    have ex : int32 x = x := int32_of_range x (by omega) (by omega)
    have ey : int32 y = y := int32_of_range y (by omega) (by omega)
    have ew : int32 width = width := int32_of_range width (by omega) (by omega)
    have eh : int32 height = height := int32_of_range height (by omega) (by omega)
    have es : int32 ((damage_align w x width).1 + (damage_align w x width).2) =
        (damage_align w x width).1 + (damage_align w x width).2 :=
      int32_of_range _ (by omega) (by omega)
    have eyh : int32 (y + height) = y + height := int32_of_range _ (by omega) (by omega)
    have c23 : u32_of_int ((damage_align w x width).1 + (damage_align w x width).2) >
        dev.xres ∨ u32_of_int (y + height) > dev.yres := by
      have h1 := u32_of_int_of_range ((damage_align w x width).1 + (damage_align w x width).2)
        (by omega) (by omega)
      have h2 := u32_of_int_of_range (y + height) (by omega) (by omega)
      omega
    have hcheck : (damage_align w x width).2 ≤ 0 ∨
        u32_of_int ((damage_align w x width).1 + (damage_align w x width).2) > dev.xres ∨
        u32_of_int (y + height) > dev.yres := Or.inr c23
    have i1 : int32 1024 = 1024 := by decide
    have i2 : int32 768 = 768 := by decide
    unfold dlfb_handle_damage
    simp only [ex, ey, ew, eh, es, eyh, hgw, hgh, i1, i2, ne_eq, not_true_eq_false,
      or_self, if_false, if_pos hcheck]
  · intro hfx hfy hact hmem
    refine ⟨_, dlfb_handle_damage_accepted w env dev x y width height hw (le_of_lt hx) hy hgw
      hgh hxo hyo hfx hfy hact hmem, ?_, by omega, rfl⟩
    simp only [List.length_append, List.length_map, List.length_range]

theorem dlfb_handle_damage_dimension_gate_witness :
    (0 : Int) < 8 ∧ (0 : Int) < 8 ∧ (0 : Int) ≤ 0 ∧ (1032 : Int) - 8 = 1024 ∧
    (768 : Int) - 0 = 768 ∧ 4 * ((8 : Int) + 1032 + 8) ≤ 2147483647 ∧
    (0 : Int) + 768 ≤ 2147483647 ∧
    ((8 : Int) + 1032 > dev_render.xres ∨ (0 : Int) + 768 > dev_render.yres) ∧
    (1032 : Int) ≠ 1024 ∧ -EINVAL ≠ 0 ∧
    dlfb_handle_damage 8 env_sample dev_render 8 0 1032 768 = some (-EINVAL, dev_render) :=
  ⟨by decide, by decide, by decide, by decide, by decide, by decide, by decide, by decide,
    (dlfb_handle_damage_dimension_gate 8 env_sample dev_render 8 0 1032 768 (by decide)
      (by decide) (by decide) (by decide) (by decide) (by decide) (by decide)).1,
    (dlfb_handle_damage_dimension_gate 8 env_sample dev_render 8 0 1032 768 (by decide)
      (by decide) (by decide) (by decide) (by decide) (by decide) (by decide)).2.1,
    (dlfb_handle_damage_dimension_gate 8 env_sample dev_render 8 0 1032 768 (by decide)
      (by decide) (by decide) (by decide) (by decide) (by decide) (by decide)).2.2.1
      (by decide)⟩

/-! ## The source reads of `dlfb_handle_damage` -/

/-- C29, as amended: for every call of `dlfb_handle_damage` with `x >= 0`, `y >= 0`, an even
height and no integer overflow that passes all of its checks (the dimension test, the bounds
check, the active flag) on a device with `line_length = xres * BPP` whose framebuffer size
`line_length * yres` fits an `int`, the call returns 0 and every transfer it issues, for
`i = y + 2k`, has `byte_offset = line_length * i + x' * BPP >= 0` and reads the
`width' * BPP * 2` bytes of `[byte_offset, byte_offset + width' * BPP * 2)`, a range inside
`[0, line_length * yres)`; `x'` and `width'` are the aligned values. -/
theorem dlfb_handle_damage_reads_inside (w : Int) (env : damage_env) (dev : dlfb_dev)
    (x y width height : Int) (hw : 0 < w) (hx : 0 ≤ x) (hy : 0 ≤ y)
    (hgw : width - x = 1024) (hgh : height - y = 768) (heven : height % 2 = 0)
    (hxo : 4 * (x + width + w) ≤ 2147483647) (hyo : y + height ≤ 2147483647)
    (hll : (dev.line_length : Int) = dev.xres * BPP)
    (hno : (dev.line_length : Int) * dev.yres ≤ 2147483647)
    (hfx : (damage_align w x width).1 + (damage_align w x width).2 ≤ dev.xres)
    (hfy : y + height ≤ dev.yres) (hact : dev.usb_active ≠ 0)
    (hmem : ∀ k, env.kmalloc k = true) :
    ∃ dev', dlfb_handle_damage w env dev x y width height = some (0, dev') ∧
      dev'.bulk_out = dev.bulk_out ++
        (List.range ((height + 1) / 2).toNat).map (fun (k : Nat) =>
          ({ data := hline_payload dev.smem_start
               (damage_byte_offset dev.line_length (damage_align w x width).1
                 (y + 2 * (k : Int)))
               (damage_byte_width (damage_align w x width).2)
             transferred := env.transferred k } : bulk_transfer)) ∧
      ((damage_byte_width (damage_align w x width).2 : Nat) : Int) =
        (damage_align w x width).2 * BPP * 2 ∧
      ∀ k : Nat, k < ((height + 1) / 2).toNat →
        ((damage_byte_offset dev.line_length (damage_align w x width).1
            (y + 2 * (k : Int)) : Nat) : Int) =
          dev.line_length * (y + 2 * (k : Int)) + (damage_align w x width).1 * BPP ∧
        0 ≤ (dev.line_length : Int) * (y + 2 * (k : Int)) +
          (damage_align w x width).1 * BPP ∧
        damage_byte_offset dev.line_length (damage_align w x width).1 (y + 2 * (k : Int)) +
            damage_byte_width (damage_align w x width).2 ≤ dev.line_length * dev.yres ∧
        (hline_payload dev.smem_start
            (damage_byte_offset dev.line_length (damage_align w x width).1
              (y + 2 * (k : Int)))
            (damage_byte_width (damage_align w x width).2)).drop 2 =
          (List.range (damage_byte_width (damage_align w x width).2)).map (fun j =>
            dev.smem_start (damage_byte_offset dev.line_length (damage_align w x width).1
              (y + 2 * (k : Int)) + j)) := by
  obtain ⟨_, _, b3, b4, b5, b6, b7⟩ :=
    damage_align_bounds w x width hw hx (by omega) (by omega)
  have hB : BPP = 2 := rfl
  have hbw := damage_byte_width_exact (damage_align w x width).2 (by omega) (by omega)
  refine ⟨_, dlfb_handle_damage_accepted w env dev x y width height hw hx hy hgw hgh hxo hyo
    hfx hfy hact hmem, rfl, hbw, ?_⟩
  intro k hk
  have hk2 : y + 2 * (k : Int) + 2 ≤ dev.yres := by omega
  have hL : (0 : Int) ≤ dev.line_length := Int.natCast_nonneg _
  have h1 : (dev.line_length : Int) * (y + 2 * (k : Int) + 2) ≤ dev.line_length * dev.yres :=
    mul_le_mul_of_nonneg_left hk2 hL
  have h2 : (dev.line_length : Int) * (y + 2 * (k : Int) + 2) =
      dev.line_length * (y + 2 * (k : Int)) + 2 * dev.line_length := by ring
  have h3 : (0 : Int) ≤ dev.line_length * (y + 2 * (k : Int)) :=
    mul_nonneg hL (by omega)
  rw [hB] at hll hbw
  have hoff := damage_byte_offset_exact dev.line_length (damage_align w x width).1
    (y + 2 * (k : Int)) b3 (by omega) (by omega) (by rw [hB]; omega)
  refine ⟨hoff, by rw [hB]; omega, ?_, ?_⟩
  · have h4 : ((damage_byte_offset dev.line_length (damage_align w x width).1
        (y + 2 * (k : Int)) + damage_byte_width (damage_align w x width).2 : Nat) : Int) ≤
        ((dev.line_length * dev.yres : Nat) : Int) := by
      rw [hB] at hoff
      push_cast
      omega
    exact_mod_cast h4
  · simp [hline_payload]

theorem dlfb_handle_damage_reads_inside_witness :
    (0 : Int) < 8 ∧ (0 : Int) ≤ 0 ∧ (0 : Int) ≤ 0 ∧ (1024 : Int) - 0 = 1024 ∧
    (768 : Int) - 0 = 768 ∧ (768 : Int) % 2 = 0 ∧
    4 * ((0 : Int) + 1024 + 8) ≤ 2147483647 ∧ (0 : Int) + 768 ≤ 2147483647 ∧
    (dev_render.line_length : Int) = dev_render.xres * BPP ∧
    (dev_render.line_length : Int) * dev_render.yres ≤ 2147483647 ∧
    (damage_align 8 0 1024).1 + (damage_align 8 0 1024).2 ≤ dev_render.xres ∧
    (0 : Int) + 768 ≤ dev_render.yres ∧ dev_render.usb_active ≠ 0 ∧
    (∀ k, env_sample.kmalloc k = true) ∧
    ∃ dev', dlfb_handle_damage 8 env_sample dev_render 0 0 1024 768 = some (0, dev') ∧
      dev'.bulk_out = dev_render.bulk_out ++
        (List.range (((768 : Int) + 1) / 2).toNat).map (fun (k : Nat) =>
          ({ data := hline_payload dev_render.smem_start
               (damage_byte_offset dev_render.line_length (damage_align 8 0 1024).1
                 (0 + 2 * (k : Int)))
               (damage_byte_width (damage_align 8 0 1024).2)
             transferred := env_sample.transferred k } : bulk_transfer)) ∧
      ((damage_byte_width (damage_align 8 0 1024).2 : Nat) : Int) =
        (damage_align 8 0 1024).2 * BPP * 2 ∧
      ∀ k : Nat, k < (((768 : Int) + 1) / 2).toNat →
        ((damage_byte_offset dev_render.line_length (damage_align 8 0 1024).1
            (0 + 2 * (k : Int)) : Nat) : Int) =
          dev_render.line_length * (0 + 2 * (k : Int)) + (damage_align 8 0 1024).1 * BPP ∧
        0 ≤ (dev_render.line_length : Int) * (0 + 2 * (k : Int)) +
          (damage_align 8 0 1024).1 * BPP ∧
        damage_byte_offset dev_render.line_length (damage_align 8 0 1024).1
            (0 + 2 * (k : Int)) +
            damage_byte_width (damage_align 8 0 1024).2 ≤
          dev_render.line_length * dev_render.yres ∧
        (hline_payload dev_render.smem_start
            (damage_byte_offset dev_render.line_length (damage_align 8 0 1024).1
              (0 + 2 * (k : Int)))
            (damage_byte_width (damage_align 8 0 1024).2)).drop 2 =
          (List.range (damage_byte_width (damage_align 8 0 1024).2)).map (fun j =>
            dev_render.smem_start (damage_byte_offset dev_render.line_length
              (damage_align 8 0 1024).1 (0 + 2 * (k : Int)) + j)) :=
  ⟨by decide, by decide, by decide, by decide, by decide, by decide, by decide, by decide,
    by decide, by decide, by decide, by decide, by decide, fun _ => rfl,
    dlfb_handle_damage_reads_inside 8 env_sample dev_render 0 0 1024 768 (by decide)
      (by decide) (by decide) (by decide) (by decide) (by decide) (by decide) (by decide)
      (by decide) (by decide) (by decide) (by decide) (by decide) (fun _ => rfl)⟩

/-- C29, the claim as stated fails. On the active 1024x768 device
(`line_length = xres * BPP = 2048`) the call `x = 0, y = -1, width = 1024, height = 767`
passes the dimension test and the bounds check and returns 0; its first transfer is the one
of line -1, whose `byte_offset` is -2048 as an `int` and 4294965248 as the `u32` argument,
outside `[0, 2048 * 768)`. On a 1024x770 device with a framebuffer of `2048 * 770` bytes the
call `x = 0, y = 1, width = 1024, height = 769`, of odd height, returns 0 and its last
transfer (line 769) reads `[1574912, 1579008)`, past the end `2048 * 770 = 1576960`. -/
theorem dlfb_handle_damage_reads_inside_fails :
    (dev_render.line_length : Int) = dev_render.xres * BPP ∧
    (∃ dev', dlfb_handle_damage 8 env_sample dev_render 0 (-1) 1024 767 = some (0, dev') ∧
      (dev'.bulk_out[0]?).map (fun t => t.data) =
        some (hline_payload dev_render.smem_start
          (damage_byte_offset dev_render.line_length 0 (-1)) (damage_byte_width 1024)) ∧
      damage_byte_offset dev_render.line_length 0 (-1) = 4294965248 ∧
      int32 (damage_byte_offset dev_render.line_length 0 (-1)) = -2048 ∧
      damage_byte_width 1024 = 4096 ∧
      ¬ (4294965248 + 4096 ≤ dev_render.line_length * dev_render.yres)) ∧
    (dev_render_770.line_length : Int) = dev_render_770.xres * BPP ∧
    dev_render_770.xres * dev_render_770.yres * 2 ≤ dev_render_770.smem_len ∧
    (∃ dev', dlfb_handle_damage 8 env_sample dev_render_770 0 1 1024 769 = some (0, dev') ∧
      dev'.bulk_out.length = 385 ∧
      (dev'.bulk_out[384]?).map (fun t => t.data) =
        some (hline_payload dev_render_770.smem_start
          (damage_byte_offset dev_render_770.line_length 0 769) (damage_byte_width 1024)) ∧
      damage_byte_offset dev_render_770.line_length 0 769 = 1574912 ∧
      ¬ (1574912 + 4096 ≤ dev_render_770.line_length * dev_render_770.yres)) := by
  have h384 : (((-1 : Int) + 767 - (-1) + 1) / 2).toNat = 384 := by decide
  have h385 : (((769 : Int) + 1) / 2).toNat = 385 := by decide
  have hal : damage_align 8 0 1024 = (0, 1024) := by decide
  refine ⟨by decide, ⟨_, dlfb_handle_damage_accepted_signed 8 env_sample dev_render 0 (-1)
      1024 767 (by decide) (by decide) (by decide) (by decide) (by decide) (by decide)
      (by decide) (by decide) (by decide) (by decide) (fun _ => rfl), ?_, by decide,
      by decide, by decide, by decide⟩, by decide, by decide,
    ⟨_, dlfb_handle_damage_accepted 8 env_sample dev_render_770 0 1 1024 769 (by decide)
      (by decide) (by decide) (by decide) (by decide) (by decide) (by decide) (by decide)
      (by decide) (by decide) (fun _ => rfl), ?_, ?_, by decide, by decide⟩⟩
  · simp only [h384, hal]
    rw [List.getElem?_append_right (by simp [dev_render])]
    simp only [List.getElem?_map, List.getElem?_range, dev_render, List.length_nil,
      Nat.sub_zero, Nat.lt_add_one, Nat.ofNat_pos, Option.map_some', Nat.cast_zero, mul_zero,
      add_zero, List.getElem?_range (by decide : 0 < 384)]
  · simp only [h385, List.length_append, List.length_map, List.length_range]
    rfl
  · simp only [h385, hal]
    rw [List.getElem?_append_right (by simp [dev_render_770, dev_render])]
    have hidx : 384 - dev_render_770.bulk_out.length = 384 := rfl
    rw [hidx]
    simp only [List.getElem?_map, List.getElem?_range (by decide : 384 < 385),
      Option.map_some']
    rfl

end Udlfb
